import Mathlib

/-!
# ddhcpd: lease handling of the distributed DHCP daemon

A shallow embedding of `dhcp.c`, `dhcp_options.c` and `tools.c` (`addr_add`).

Conventions of the embedding.

* An `in_addr` is the 32-bit value of its `s_addr` field, which holds the address in
  network byte order; the host is little-endian, so `ntohl` and `htonl` swap the four
  bytes, and all address arithmetic is taken modulo `2^32`.
* A `chaddr` (16 bytes) is one natural number; `memcmp(..) == 0` is equality, `memcpy`
  is assignment, `memset(.., 0, 16)` is `0`.
* `time(NULL)` is the argument `now`; the socket calls `dhcp_packet_send` and
  `send_packet_direct` append to output traces carried in the result.
* Arrays are lists.  Reading or writing outside an array, or through a `NULL` pointer,
  and dividing by zero are undefined in C: the embedded function then returns `none`.
* `calloc`/`malloc` succeed, except for a count that is not positive as an `int`
  (see `fill_options`).
* The structures `ddhcp_config`, `ddhcp_block`, `dhcp_lease`, `dhcp_packet` and
  `dhcp_option` are declared in headers that are not part of the sources read here;
  their fields are the ones the code uses.  Fields whose C type is not visible
  (`block_size`, `number_of_blocks`, `subnet_len`, `lease_end`, `xid`) are unbounded
  numbers, and so are the `int` counters over them (`lease_ratio`, `free_leases`): a
  lease array fits in memory and stays far below `2^31` entries.  Where the source shows
  the width it is kept: addresses are `uint32_t`, the count of requested options is
  `int8_t`, payload bytes are `uint8_t`.
-/

namespace Ddhcpd

/-! ## Address arithmetic -/

/-- Byte swap of a 32-bit value. -/
def bswap32 (x : Nat) : Nat :=
  (x % 256) * 16777216 + (x / 256 % 256) * 65536 + (x / 65536 % 256) * 256
    + (x / 16777216 % 256)

/-- Network to host byte order on a little-endian host. -/
def ntohl (x : Nat) : Nat := bswap32 x

/-- Host to network byte order on a little-endian host. -/
def htonl (x : Nat) : Nat := bswap32 x

/-- The function `addr_add` of tools.c: `result = htonl(ntohl(subnet) + add)`, the sum
being a `uint32_t` (the `int add` is converted to unsigned). -/
def addr_add (subnet : Nat) (add : Int) : Nat :=
  htonl (((ntohl subnet : Int) + add) % 4294967296).toNat

/-! ## Data model -/

/-- The lease states used by dhcp.c. -/
inductive dhcp_lease_state where
  | FREE
  | OFFERED
  | LEASED
deriving DecidableEq, Repr

/-- One lease record: `chaddr[16]`, `state`, `xid`, `lease_end`. -/
structure dhcp_lease where
  chaddr : Nat
  state : dhcp_lease_state
  xid : Nat
  lease_end : Int
deriving DecidableEq, Repr

/-- Modelled from the spec: the enumeration of block states is declared in a header that
is not among the sources; dhcp.c names `DDHCP_OURS` and `DDHCP_CLAIMED` (claimed by a
peer), the spec adds the free and claiming states. -/
inductive ddhcp_block_state where
  | DDHCP_FREE
  | DDHCP_CLAIMING
  | DDHCP_CLAIMED
  | DDHCP_OURS
deriving DecidableEq, Repr

/-- One block: `addresses` is `none` for a `NULL` pointer, otherwise the lease array;
`subnet` is the `s_addr` of the first address of the block (network byte order). -/
structure ddhcp_block where
  index : Nat
  state : ddhcp_block_state
  subnet : Nat
  subnet_len : Nat
  owner_address : Nat
  addresses : Option (List dhcp_lease)
deriving DecidableEq, Repr

/-- One DHCP option; `payload` is `none` for a `NULL` pointer, otherwise the bytes. -/
structure dhcp_option where
  code : Nat
  len : Nat
  payload : Option (List Nat)
deriving DecidableEq, Repr

/-- The fields of a DHCP packet that dhcp.c reads or writes (`siaddr`, `sname` and `file`
are never touched and stay zero in every reply); `options` is the option array. -/
structure dhcp_packet where
  op : Nat
  htype : Nat
  hlen : Nat
  hops : Nat
  xid : Nat
  secs : Nat
  flags : Nat
  ciaddr : Nat
  yiaddr : Nat
  giaddr : Nat
  chaddr : Nat
  options_len : Nat
  options : List dhcp_option
deriving DecidableEq, Repr

/-- The configuration: pool prefix (`prefix.s_addr`, network byte order; `prefix` is a
keyword of Lean, hence `prefix_addr`), prefix length,
block size, number of blocks, the option store (a list of options, in list order) and the
cache of client requests parked for a peer. -/
structure ddhcp_config where
  prefix_addr : Nat
  prefix_len : Nat
  block_size : Nat
  number_of_blocks : Nat
  options : List dhcp_option
  dhcp_packet_cache : List dhcp_packet
deriving DecidableEq, Repr

/-- The payload of a RENEWLEASE message. -/
structure ddhcp_renew_payload where
  chaddr : Nat
  address : Nat
  xid : Nat
  lease_seconds : Nat
deriving DecidableEq, Repr

/-- A cluster message handed to `send_packet_direct`: the destination and the payload
(the only message built in dhcp.c is `DDHCP_MSG_RENEWLEASE`). -/
structure ddhcp_mcast_packet where
  dest : Nat
  renew_payload : ddhcp_renew_payload
deriving DecidableEq, Repr

/-- Which function handed a reply to `dhcp_packet_send`: `dhcp_hdl_discover` (OFFER),
`dhcp_ack` (ACK) or `dhcp_nack` (NAK). -/
inductive reply_kind where
  | OFFER
  | ACK
  | NAK
deriving DecidableEq, Repr

/-- A reply handed to `dhcp_packet_send`. -/
structure client_reply where
  kind : reply_kind
  packet : dhcp_packet
deriving DecidableEq, Repr

/-- What a handler leaves behind: its return value, the block table, the packet cache,
and the packets it sent to the client and to peers, in order. -/
structure hdl_result where
  ret : Int
  blocks : List ddhcp_block
  dhcp_packet_cache : List dhcp_packet
  client_out : List client_reply
  peer_out : List ddhcp_mcast_packet
deriving DecidableEq, Repr

open dhcp_lease_state ddhcp_block_state

/-! ## Constants -/

/-- Global `DHCP_OFFER_TIMEOUT` of dhcp.c. -/
def DHCP_OFFER_TIMEOUT : Nat := 12

/-- Global `DHCP_LEASE_TIME` of dhcp.c. -/
def DHCP_LEASE_TIME : Nat := 3600

/-- Global `DHCP_LEASE_SERVER_DELTA` of dhcp.c. -/
def DHCP_LEASE_SERVER_DELTA : Nat := 100

/-- Modelled from the spec: option codes and message types come from a header that is not
among the sources; the values are those of the DHCP wire format the spec refers to. -/
def DHCP_CODE_REQUESTED_ADDRESS : Nat := 50

/-- Modelled from the spec: code of the Address Lease Time option. -/
def DHCP_CODE_ADDRESS_LEASE_TIME : Nat := 51

/-- Modelled from the spec: code of the DHCP Message Type option. -/
def DHCP_CODE_MESSAGE_TYPE : Nat := 53

/-- Modelled from the spec: code of the Parameter Request List option. -/
def DHCP_CODE_PARAMETER_REQUEST_LIST : Nat := 55

/-- Modelled from the spec: code of the Subnet Mask option. -/
def DHCP_CODE_SUBNET_MASK : Nat := 1

/-- Modelled from the spec: code of the Time Offset option. -/
def DHCP_CODE_TIME_OFFSET : Nat := 2

/-- Modelled from the spec: code of the Broadcast Address option. -/
def DHCP_CODE_BROADCAST_ADDRESS : Nat := 28

/-- Modelled from the spec: code of the Server Identifier option. -/
def DHCP_CODE_SERVER_IDENTIFIER : Nat := 54

/-- Modelled from the spec: message type OFFER. -/
def DHCPOFFER : Nat := 2

/-- Modelled from the spec: message type ACK. -/
def DHCPACK : Nat := 5

/-- Modelled from the spec: message type NAK. -/
def DHCPNAK : Nat := 6

/-! ## dhcp_options.c -/

/-- The function `find_option`: the first of the first `len` options with the code. -/
def find_option (options : List dhcp_option) (len : Nat) (code : Nat) : Option dhcp_option :=
  (options.take len).find? (fun option => option.code == code)

/-- The loop of `set_option`; the argument `n` is the loop variable plus one, so the
slots are visited from `len - 1` down to `0`.  The result is the return value and the
array; `none` when a slot outside the array is read. -/
def dhcp_set_option_loop (options : List dhcp_option) (code payload_len : Nat)
    (payload : Option (List Nat)) : Nat → Option (Int × List dhcp_option)
  | 0 => some (1, options)
  | i + 1 =>
    match options[i]? with
    | none => none
    | some option =>
      if option.code = code ∨ option.code = 0 then
        some (0, options.set i { code := code, len := payload_len, payload := payload })
      else
        dhcp_set_option_loop options code payload_len payload i

/-- The function `set_option` (`set_option` is a keyword of Lean, hence the name). -/
def dhcp_set_option (options : List dhcp_option) (len code payload_len : Nat)
    (payload : Option (List Nat)) : Option (Int × List dhcp_option) :=
  dhcp_set_option_loop options code payload_len payload len

/-- The function `find_option_parameter_request_list`: the returned length and the
pointer stored in `*requested`. -/
def find_option_parameter_request_list (options : List dhcp_option) (len : Nat) :
    Int × Option (List Nat) :=
  match find_option options len DHCP_CODE_PARAMETER_REQUEST_LIST with
  | some option => ((option.len : Int), option.payload)
  | none => (0, none)

/-- The function `find_option_requested_address`: the payload pointer of option 50. -/
def find_option_requested_address (options : List dhcp_option) (len : Nat) :
    Option (List Nat) :=
  match find_option options len DHCP_CODE_REQUESTED_ADDRESS with
  | some option => option.payload
  | none => none

/-- The function `find_in_option_store`: the first entry of the store with the code. -/
def find_in_option_store (options : List dhcp_option) (code : Nat) : Option dhcp_option :=
  options.find? (fun option => option.code == code)

/-- Conversion of an `int` to `int8_t` (two's complement wrap). -/
def to_int8 (n : Int) : Int := (n + 128) % 256 - 128

/-- The loop body of `fill_options` over the requested codes it visits: the accumulators
are the array `*fullfil` and `num_found_options`. -/
def fill_options_loop (option_store : List dhcp_option) :
    List Nat → List dhcp_option → Nat → List dhcp_option × Nat
  | [], fullfil, num_found_options => (fullfil, num_found_options)
  | code :: rest, fullfil, num_found_options =>
    match find_in_option_store option_store code with
    | some option =>
      fill_options_loop option_store rest (fullfil.set num_found_options option)
        (num_found_options + 1)
    | none => fill_options_loop option_store rest fullfil num_found_options

/-- The function `fill_options`: the returned count and the array `*fullfil` (`[]` for
`NULL`, which is also what `calloc` yields for a count that is not positive as an `int`).
The loop reads `requested[i]` for `additional ≤ i < max_options`; `none` when that read
leaves the payload of the parameter request list. -/
def fill_options (options : List dhcp_option) (len : Nat) (option_store : List dhcp_option)
    (additional : Nat) : Option (Int × List dhcp_option) :=
  let max_options : Int := to_int8 (find_option_parameter_request_list options len).1
  let requested := (find_option_parameter_request_list options len).2
  if max_options = 0 then
    some (0, [])
  else
    let fullfil : List dhcp_option :=
      List.replicate (max_options + (additional : Int)).toNat
        { code := 0, len := 0, payload := none }
    if max_options ≤ (additional : Int) then
      some ((additional : Int), fullfil)
    else
      match requested with
      | none => none
      | some bytes =>
        if bytes.length < max_options.toNat then none
        else
          let r := fill_options_loop option_store
            ((bytes.take max_options.toNat).drop additional) fullfil 0
          some ((r.2 : Int) + (additional : Int), r.1)

/-- The assignments through `current` in `set_option_in_store`: the first entry of the
store with the code of the option takes its `len` and `payload`. -/
def option_store_replace (option : dhcp_option) : List dhcp_option → List dhcp_option
  | [] => []
  | current :: rest =>
    if current.code = option.code then
      { current with len := option.len, payload := option.payload } :: rest
    else
      current :: option_store_replace option rest

/-- The function `set_option_in_store`: the store afterwards.  An entry with the code is
overwritten in place, otherwise the option is added at the tail. -/
def set_option_in_store (store : List dhcp_option) (option : dhcp_option) : List dhcp_option :=
  match find_in_option_store store option.code with
  | some _ => option_store_replace option store
  | none => store ++ [option]

/-- Modelled from the spec: `has_in_option_store` is not among the sources; an option is
in the store when `find_in_option_store` finds its code (the spec synthesizes a default
"if absent"). -/
def has_in_option_store (store : List dhcp_option) (code : Nat) : Bool :=
  (find_in_option_store store code).isSome

/-- The function `dhcp_options_init`: the configuration with the defaults added to the
option store.  `pl` is the `uint8_t` copy of the prefix length, the arithmetic on it is
`int`, and every payload byte is a `uint8_t`; `min` and `max`, macros of a header that is
not among the sources, are minimum and maximum.  Byte `k` of `prefix.s_addr` in memory is
`s_addr / 256^k % 256` on the little-endian host. -/
def dhcp_options_init (config : ddhcp_config) : ddhcp_config :=
  let pl : Int := ((config.prefix_len % 256 : Nat) : Int)
  let store1 :=
    if has_in_option_store config.options DHCP_CODE_SUBNET_MASK then config.options
    else
      set_option_in_store config.options
        { code := DHCP_CODE_SUBNET_MASK, len := 4,
          payload := some
            [(256 - (256 >>> (min (max (pl - 0) 0) 8).toNat)) % 256,
             (256 - (256 >>> (min (max (pl - 8) 0) 8).toNat)) % 256,
             (256 - (256 >>> (min (max (pl - 16) 0) 8).toNat)) % 256,
             (256 - (256 >>> (min (max (pl - 24) 0) 8).toNat)) % 256] }
  let store2 :=
    if has_in_option_store store1 DHCP_CODE_TIME_OFFSET then store1
    else
      set_option_in_store store1
        { code := DHCP_CODE_TIME_OFFSET, len := 4, payload := some [0, 0, 0, 0] }
  let store3 :=
    if has_in_option_store store2 DHCP_CODE_BROADCAST_ADDRESS then store2
    else
      set_option_in_store store2
        { code := DHCP_CODE_BROADCAST_ADDRESS, len := 4,
          payload := some
            [((config.prefix_addr % 256)
                ||| ((1 <<< (min (max (8 - pl) 0) 8).toNat) - 1)) % 256,
             ((config.prefix_addr / 256 % 256)
                ||| ((1 <<< (min (max (16 - pl) 0) 8).toNat) - 1)) % 256,
             ((config.prefix_addr / 65536 % 256)
                ||| ((1 <<< (min (max (24 - pl) 0) 8).toNat) - 1)) % 256,
             ((config.prefix_addr / 16777216 % 256)
                ||| ((1 <<< (min (max (32 - pl) 0) 8).toNat) - 1)) % 256] }
  let store4 :=
    if has_in_option_store store3 DHCP_CODE_SERVER_IDENTIFIER then store3
    else
      set_option_in_store store3
        { code := DHCP_CODE_SERVER_IDENTIFIER, len := 4,
          payload := some
            [config.prefix_addr % 256, config.prefix_addr / 256 % 256,
             config.prefix_addr / 65536 % 256, 1] }
  { config with options := store4 }

/-- The SUBNET_MASK byte `k` for prefix length `L` in the words of the spec:
`255 - (255 >> clamp(L - 8k, 0, 8))`. -/
def spec_subnet_mask_byte (L k : Nat) : Nat :=
  255 - (255 >>> (min (max ((L : Int) - 8 * (k : Int)) 0) 8).toNat)

/-- The BROADCAST byte `k` for prefix length `L` in the words of the spec:
`prefix_byte_k | ((1 << clamp(8 - (L - 8k), 0, 8)) - 1)`. -/
def spec_broadcast_byte (prefix_byte L k : Nat) : Nat :=
  prefix_byte ||| ((1 <<< (min (max (8 - ((L : Int) - 8 * (k : Int))) 0) 8).toNat) - 1)

/-- Byte `k` of the pool prefix in network order: byte `k` of `prefix.s_addr` in memory. -/
def prefix_byte (config : ddhcp_config) (k : Nat) : Nat :=
  config.prefix_addr / 256 ^ k % 256

/-! ## dhcp.c -/

/-- The outputs of `find_lease_from_address`: the status code, `*lease_block` (the
position of the block in the table, `none` while the caller's `NULL` is untouched) and
`*lease_index`. -/
structure found_lease where
  status : Nat
  lease_block : Option Nat
  lease_index : Nat
deriving DecidableEq, Repr

/-- The function `find_lease_from_address`; the callers initialise `lease_block` to
`NULL` and `lease_index` to `0`. -/
def find_lease_from_address (addr : Nat) (blocks : List ddhcp_block) (config : ddhcp_config) :
    Option found_lease :=
  if config.block_size = 0 then none
  else
    let block_number :=
      ((ntohl addr + 4294967296 - ntohl config.prefix_addr) % 4294967296) / config.block_size
    let lease_number :=
      ((ntohl addr + 4294967296 - ntohl config.prefix_addr) % 4294967296) % config.block_size
    if block_number < config.number_of_blocks then
      match blocks[block_number]? with
      | none => none
      | some block =>
        if block.state = DDHCP_OURS then
          some { status := 0, lease_block := some block_number, lease_index := lease_number }
        else
          some { status := 1, lease_block := some block_number, lease_index := lease_number }
    else
      some { status := 2, lease_block := none, lease_index := 0 }

/-- The leases a loop `for (i = 0; i < block->subnet_len; i++)` over `block->addresses`
visits; `none` when the array is `NULL` or shorter than `subnet_len`. -/
def block_leases (block : ddhcp_block) : Option (List dhcp_lease) :=
  match block.addresses with
  | some leases =>
    if block.subnet_len ≤ leases.length then some (leases.take block.subnet_len) else none
  | none => if block.subnet_len = 0 then some [] else none

/-- The lease `block->addresses + lease_index`, when it can be dereferenced. -/
def lease_at (block : ddhcp_block) (lease_index : Nat) : Option dhcp_lease :=
  match block.addresses with
  | some leases => leases[lease_index]?
  | none => none

/-- Assignment through the pointer `blocks[pos].addresses + lease_index`. -/
def write_lease (blocks : List ddhcp_block) (pos lease_index : Nat) (lease : dhcp_lease) :
    Option (List ddhcp_block) :=
  match blocks[pos]? with
  | none => none
  | some block =>
    match block.addresses with
    | none => none
    | some leases =>
      if lease_index < leases.length then
        some (blocks.set pos { block with addresses := some (leases.set lease_index lease) })
      else none

/-- The assignments of `_dhcp_release_lease` to the lease it is pointed at: `chaddr` and
`xid` zeroed, state FREE; `lease_end` stays. -/
def released (lease : dhcp_lease) : dhcp_lease :=
  { lease with chaddr := 0, xid := 0, state := FREE }

/-- The function `_dhcp_release_lease`: the block afterwards; `none` when the lease
cannot be dereferenced. -/
def _dhcp_release_lease (block : ddhcp_block) (lease_index : Nat) : Option ddhcp_block :=
  match block.addresses with
  | none => none
  | some leases =>
    match leases[lease_index]? with
    | none => none
    | some lease => some { block with addresses := some (leases.set lease_index (released lease)) }

/-- The function `build_initial_packet`. -/
def build_initial_packet (from_client : dhcp_packet) : dhcp_packet :=
  { op := 2, htype := from_client.htype, hlen := from_client.hlen, hops := from_client.hops,
    xid := from_client.xid, secs := 0, flags := from_client.flags,
    ciaddr := from_client.ciaddr, yiaddr := 0, giaddr := from_client.giaddr,
    chaddr := from_client.chaddr, options_len := 0, options := [] }

/-- The counting loop of `dhcp_num_free`. -/
def dhcp_num_free_loop : List dhcp_lease → Nat → Nat
  | [], num => num
  | lease :: rest, num => dhcp_num_free_loop rest (if lease.state = FREE then num + 1 else num)

/-- The function `dhcp_num_free`. -/
def dhcp_num_free (block : ddhcp_block) : Option Nat :=
  match block_leases block with
  | none => none
  | some leases => some (dhcp_num_free_loop leases 0)

/-- The function `dhcp_has_free`. -/
def dhcp_has_free (block : ddhcp_block) : Option Nat :=
  match block_leases block with
  | none => none
  | some leases => some (if leases.any (fun lease => lease.state = FREE) then 1 else 0)

/-- The search loop of `dhcp_get_free_lease` from index `i` on: the index of the first
FREE lease, `none` when the loop runs off the end. -/
def dhcp_get_free_lease_loop : List dhcp_lease → Nat → Option Nat
  | [], _ => none
  | lease :: rest, i => if lease.state = FREE then some i else dhcp_get_free_lease_loop rest (i + 1)

/-- The function `dhcp_get_free_lease`: `subnet_len` when no lease is FREE.  Its caller
has counted the free leases of the block before, so the whole array has been read. -/
def dhcp_get_free_lease (block : ddhcp_block) : Option Nat :=
  match block_leases block with
  | none => none
  | some leases => some ((dhcp_get_free_lease_loop leases 0).getD block.subnet_len)

/-- The function `dhcp_nack`: the reply it hands to `dhcp_packet_send`; `none` never
occurs for the one-slot array it allocates, the type follows `set_option`. -/
def dhcp_nack (from_client : dhcp_packet) : Option client_reply :=
  match dhcp_set_option [{ code := 0, len := 0, payload := none }] 1 DHCP_CODE_MESSAGE_TYPE 1
      (some [DHCPNAK]) with
  | none => none
  | some r =>
    some { kind := reply_kind.NAK,
           packet := { build_initial_packet from_client with options_len := 1, options := r.2 } }

/-- The function `dhcp_ack`: marks the lease as leased, builds the ACK and sends it. -/
def dhcp_ack (now : Int) (request : dhcp_packet) (blocks : List ddhcp_block) (pos : Nat)
    (lease_index : Nat) (config : ddhcp_config) : Option hdl_result :=
  match blocks[pos]? with
  | none => none
  | some lease_block =>
    match write_lease blocks pos lease_index
        { chaddr := request.chaddr, xid := request.xid, state := LEASED,
          lease_end := now + (DHCP_LEASE_TIME : Int) + (DHCP_LEASE_SERVER_DELTA : Int) } with
    | none => none
    | some blocks1 =>
      match fill_options request.options request.options_len config.options 2 with
      | none => none
      | some filled =>
        match dhcp_set_option filled.2 filled.1.toNat DHCP_CODE_MESSAGE_TYPE 1 (some [DHCPACK]) with
        | none => none
        | some r1 =>
          match dhcp_set_option r1.2 filled.1.toNat DHCP_CODE_ADDRESS_LEASE_TIME 4
              (some [0, 0, 0, DHCP_LEASE_TIME % 256]) with
          | none => none
          | some r2 =>
            let packet : dhcp_packet :=
              { build_initial_packet request with
                yiaddr := addr_add lease_block.subnet (lease_index : Int),
                options_len := filled.1.toNat, options := r2.2 }
            some { ret := 0, blocks := blocks1,
                   dhcp_packet_cache := config.dhcp_packet_cache,
                   client_out := [{ kind := reply_kind.ACK, packet := packet }],
                   peer_out := [] }

/-- The locals of the block selection loop of `dhcp_hdl_discover`: `lease` (with
`lease_block`, `lease_index`) as the position of the block and the index of the lease,
`none` for `NULL`; and `lease_ratio`. -/
structure discover_locals where
  lease : Option (Nat × Nat)
  lease_ratio : Int
deriving DecidableEq, Repr

/-- One pass of the block selection loop of `dhcp_hdl_discover`, for the block at
position `pos`. -/
def dhcp_hdl_discover_step (block : ddhcp_block) (pos : Nat) (s : discover_locals) :
    Option discover_locals :=
  if block.state = DDHCP_OURS then
    match dhcp_num_free block with
    | none => none
    | some free_leases =>
      if 0 < free_leases then
        if (free_leases : Int) < s.lease_ratio then
          match dhcp_get_free_lease block with
          | none => none
          | some index => some { lease := some (pos, index), lease_ratio := (free_leases : Int) }
        else some s
      else some s
  else some s

/-- The block selection loop of `dhcp_hdl_discover` over the blocks still to visit. -/
def dhcp_hdl_discover_loop : List ddhcp_block → Nat → discover_locals → Option discover_locals
  | [], _, s => some s
  | block :: rest, pos, s =>
    match dhcp_hdl_discover_step block pos s with
    | none => none
    | some s1 => dhcp_hdl_discover_loop rest (pos + 1) s1

/-- The function `dhcp_hdl_discover`. -/
def dhcp_hdl_discover (now : Int) (discover : dhcp_packet) (blocks : List ddhcp_block)
    (config : ddhcp_config) : Option hdl_result :=
  if blocks.length < config.number_of_blocks then none
  else
    match dhcp_hdl_discover_loop (blocks.take config.number_of_blocks) 0
        { lease := none, lease_ratio := (config.block_size : Int) + 1 } with
    | none => none
    | some s =>
      match s.lease with
      | none =>
        some { ret := 2, blocks := blocks, dhcp_packet_cache := config.dhcp_packet_cache,
               client_out := [], peer_out := [] }
      | some (pos, lease_index) =>
        match blocks[pos]? with
        | none => none
        | some lease_block =>
          match write_lease blocks pos lease_index
              { chaddr := discover.chaddr, xid := discover.xid, state := OFFERED,
                lease_end := now + (DHCP_OFFER_TIMEOUT : Int) } with
          | none => none
          | some blocks1 =>
            match fill_options discover.options discover.options_len config.options 2 with
            | none => none
            | some filled =>
              match dhcp_set_option filled.2 filled.1.toNat DHCP_CODE_MESSAGE_TYPE 1
                  (some [DHCPOFFER]) with
              | none => none
              | some r1 =>
                match dhcp_set_option r1.2 filled.1.toNat DHCP_CODE_ADDRESS_LEASE_TIME 1
                    (some [DHCP_LEASE_TIME % 256]) with
                | none => none
                | some r2 =>
                  let packet : dhcp_packet :=
                    { build_initial_packet discover with
                      yiaddr := addr_add lease_block.subnet (lease_index : Int),
                      options_len := filled.1.toNat, options := r2.2 }
                  some { ret := 0, blocks := blocks1,
                         dhcp_packet_cache := config.dhcp_packet_cache,
                         client_out := [{ kind := reply_kind.OFFER, packet := packet }],
                         peer_out := [] }

/-- The bytes `memcpy` moves into a `struct in_addr`: the `s_addr` they form on a
little-endian host; `none` when fewer than four bytes are there. -/
def read_in_addr : List Nat → Option Nat
  | b0 :: b1 :: b2 :: b3 :: _ =>
    some (b0 % 256 + (b1 % 256) * 256 + (b2 % 256) * 65536 + (b3 % 256) * 16777216)
  | _ => none

/-- Modelled from the spec: `block_alloc` is not among the sources; it materializes the
lease array of a block, `subnet_len` leases that are FREE and zeroed. -/
def block_alloc (block : ddhcp_block) : ddhcp_block :=
  let leases : List dhcp_lease :=
    List.replicate block.subnet_len { chaddr := 0, state := FREE, xid := 0, lease_end := 0 }
  { block with addresses := some leases }

/-- The inner loop of the search by `xid` in `dhcp_hdl_request`, with `n` passes left over
the rest of the lease array: `some (some j)` for the index of the first lease that is
OFFERED with the `xid` and `chaddr`, `some none` when the loop ends without one, `none`
when it reads past the array. -/
def dhcp_hdl_request_lease_loop (request : dhcp_packet) :
    Nat → List dhcp_lease → Nat → Option (Option Nat)
  | 0, _, _ => some none
  | _ + 1, [], _ => none
  | n + 1, lease_iter :: rest, j =>
    if lease_iter.state = OFFERED ∧ lease_iter.xid = request.xid
        ∧ request.chaddr = lease_iter.chaddr then some (some j)
    else dhcp_hdl_request_lease_loop request n rest (j + 1)

/-- The outer loop of the search by `xid` in `dhcp_hdl_request`, with `n` passes left over
the rest of the block table: `some (some (i, j))` for the block and lease found,
`some none` when no lease is found, `none` when the loop reads past the table or past a
lease array (a `NULL` array is an empty one). -/
def dhcp_hdl_request_block_loop (request : dhcp_packet) :
    Nat → List ddhcp_block → Nat → Option (Option (Nat × Nat))
  | 0, _, _ => some none
  | _ + 1, [], _ => none
  | n + 1, block :: rest, i =>
    if block.state = DDHCP_OURS then
      match dhcp_hdl_request_lease_loop request block.subnet_len
          (block.addresses.getD []) 0 with
      | none => none
      | some (some j) => some (some (i, j))
      | some none => dhcp_hdl_request_block_loop request n rest (i + 1)
    else dhcp_hdl_request_block_loop request n rest (i + 1)

/-- The address a REQUEST names: `some (some a)` from option 50, else from a non-zero
`ciaddr`; `some none` when neither is there (`found_address = 0`); `none` when option 50
has fewer than four bytes to copy. -/
def requested_address (request : dhcp_packet) : Option (Option Nat) :=
  match find_option_requested_address request.options request.options_len with
  | some address =>
    match read_in_addr address with
    | none => none
    | some a => some (some a)
  | none => if request.ciaddr ≠ 0 then some (some request.ciaddr) else some none

/-- The tail of `dhcp_hdl_request` for a request without resolved lease: NAK, return 2. -/
def dhcp_hdl_request_nack (request : dhcp_packet) (blocks : List ddhcp_block)
    (config : ddhcp_config) : Option hdl_result :=
  match dhcp_nack request with
  | none => none
  | some reply =>
    some { ret := 2, blocks := blocks, dhcp_packet_cache := config.dhcp_packet_cache,
           client_out := [reply], peer_out := [] }

/-- Modelled from the spec: `dhcp_packet_list_add` is not among the sources; it appends
the packet to the pending client cache, which keeps insertion order. -/
def dhcp_packet_list_add (cache : List dhcp_packet) (packet : dhcp_packet) : List dhcp_packet :=
  cache ++ [packet]

/-- Modelled from the spec: `new_ddhcp_packet` and `send_packet_direct` are not among the
sources; together they send one message of type RENEWLEASE with the payload to the
address given, here recorded as the message sent. -/
def send_packet_direct (renew_payload : ddhcp_renew_payload) (dest : Nat) :
    ddhcp_mcast_packet :=
  { dest := dest, renew_payload := renew_payload }

/-- The branch of `dhcp_hdl_request` for a block claimed by a peer: materialize the lease
array if it is `NULL`, stamp the lease, park the request and send RENEWLEASE to the owner. -/
def dhcp_hdl_request_claimed (now : Int) (request : dhcp_packet) (blocks : List ddhcp_block)
    (config : ddhcp_config) (pos lease_index : Nat) (lease_block : ddhcp_block)
    (requested : Nat) : Option hdl_result :=
  let blocks1 :=
    if lease_block.addresses = none then blocks.set pos (block_alloc lease_block) else blocks
  match write_lease blocks1 pos lease_index
      { chaddr := request.chaddr, xid := request.xid, state := OFFERED,
        lease_end := now + (DHCP_LEASE_TIME : Int) + (DHCP_LEASE_SERVER_DELTA : Int) } with
  | none => none
  | some blocks2 =>
    some { ret := 2, blocks := blocks2,
           dhcp_packet_cache := dhcp_packet_list_add config.dhcp_packet_cache request,
           client_out := [],
           peer_out := [send_packet_direct
             { chaddr := request.chaddr, address := requested, xid := request.xid,
               lease_seconds := 0 } lease_block.owner_address] }

/-- The function `dhcp_hdl_request`. -/
def dhcp_hdl_request (now : Int) (request : dhcp_packet) (blocks : List ddhcp_block)
    (config : ddhcp_config) : Option hdl_result :=
  match requested_address request with
  | none => none
  | some (some requested) =>
    match find_lease_from_address requested blocks config with
    | none => none
    | some found =>
      if found.status ≠ 2 then
        match found.lease_block with
        | none => none
        | some pos =>
          match blocks[pos]? with
          | none => none
          | some lease_block =>
            if lease_block.state = DDHCP_CLAIMED then
              dhcp_hdl_request_claimed now request blocks config pos found.lease_index
                lease_block requested
            else if lease_block.state = DDHCP_OURS then
              match lease_at lease_block found.lease_index with
              | none => none
              | some lease =>
                if (lease.state ≠ OFFERED ∨ lease.xid ≠ request.xid)
                    ∧ request.chaddr ≠ lease.chaddr ∧ lease.state ≠ FREE then
                  dhcp_hdl_request_nack request blocks config
                else
                  dhcp_ack now request blocks pos found.lease_index config
            else
              some { ret := 2, blocks := blocks, dhcp_packet_cache := config.dhcp_packet_cache,
                     client_out := [], peer_out := [] }
      else
        dhcp_hdl_request_nack request blocks config
  | some none =>
    match dhcp_hdl_request_block_loop request config.number_of_blocks blocks 0 with
    | none => none
    | some none => dhcp_hdl_request_nack request blocks config
    | some (some (pos, lease_index)) => dhcp_ack now request blocks pos lease_index config

/-- The function `dhcp_rhdl_request`, the owner's side of a renewal: the return value and
the block table afterwards. -/
def dhcp_rhdl_request (now : Int) (address : Nat) (blocks : List ddhcp_block)
    (config : ddhcp_config) : Option (Int × List ddhcp_block) :=
  match find_lease_from_address address blocks config with
  | none => none
  | some found =>
    if found.status = 0 then
      match found.lease_block with
      | none => none
      | some pos =>
        match (blocks[pos]?).bind (fun lease_block => lease_at lease_block found.lease_index) with
        | none => none
        | some lease =>
          match write_lease blocks pos found.lease_index
              { lease with lease_end :=
                  now + (DHCP_LEASE_TIME : Int) + (DHCP_LEASE_SERVER_DELTA : Int) } with
          | none => none
          | some blocks1 => some (0, blocks1)
    else if found.status = 1 then some (1, blocks)
    else some (2, blocks)

/-- The function `dhcp_rhdl_ack`.  When the request carries neither option 50 nor a
non-zero `ciaddr` the local `requested_address` is read uninitialised: `none`. -/
def dhcp_rhdl_ack (now : Int) (request : dhcp_packet) (blocks : List ddhcp_block)
    (config : ddhcp_config) : Option hdl_result :=
  match requested_address request with
  | none => none
  | some none => none
  | some (some requested) =>
    match find_lease_from_address requested blocks config with
    | none => none
    | some found =>
      if found.status ≠ 1 then
        some { ret := 1, blocks := blocks, dhcp_packet_cache := config.dhcp_packet_cache,
               client_out := [], peer_out := [] }
      else
        match found.lease_block with
        | none => none
        | some pos => dhcp_ack now request blocks pos found.lease_index config

/-- The function `dhcp_hdl_release`: the block table afterwards.  Case 0 of the `switch`
falls through to case 1, which only breaks. -/
def dhcp_hdl_release (packet : dhcp_packet) (blocks : List ddhcp_block)
    (config : ddhcp_config) : Option (List ddhcp_block) :=
  match find_lease_from_address packet.ciaddr blocks config with
  | none => none
  | some found =>
    if found.status = 0 then
      match found.lease_block with
      | none => none
      | some pos =>
        match blocks[pos]? with
        | none => none
        | some lease_block =>
          match lease_at lease_block found.lease_index with
          | none => none
          | some lease =>
            if packet.chaddr = lease.chaddr then
              match _dhcp_release_lease lease_block found.lease_index with
              | none => none
              | some block1 => some (blocks.set pos block1)
            else some blocks
    else some blocks

/-- The function `dhcp_release_lease`: the block table afterwards. -/
def dhcp_release_lease (address : Nat) (blocks : List ddhcp_block) (config : ddhcp_config) :
    Option (List ddhcp_block) :=
  match find_lease_from_address address blocks config with
  | none => none
  | some found =>
    if found.status = 0 then
      match found.lease_block with
      | none => none
      | some pos =>
        match blocks[pos]? with
        | none => none
        | some lease_block =>
          match _dhcp_release_lease lease_block found.lease_index with
          | none => none
          | some block1 => some (blocks.set pos block1)
    else some blocks

/-- The loop of `dhcp_check_timeouts` over the leases it visits: a lease that is not FREE
and whose `lease_end` lies before `now` is released (`_dhcp_release_lease` on it), and
the leases that are FREE after that are counted.  The result is the leases afterwards and
`free_leases`. -/
def dhcp_check_timeouts_loop (now : Int) : List dhcp_lease → Nat → List dhcp_lease × Nat
  | [], free_leases => ([], free_leases)
  | lease :: rest, free_leases =>
    let lease1 : dhcp_lease :=
      if lease.state ≠ FREE ∧ lease.lease_end < now then released lease else lease
    let r := dhcp_check_timeouts_loop now rest
      (if lease1.state = FREE then free_leases + 1 else free_leases)
    (lease1 :: r.1, r.2)

/-- The function `dhcp_check_timeouts` at time `now`: the return value and the block
afterwards; `none` when the lease array is `NULL` or shorter than `subnet_len`. -/
def dhcp_check_timeouts (now : Int) (block : ddhcp_block) : Option (Int × ddhcp_block) :=
  match block.addresses with
  | none => if block.subnet_len = 0 then some (0, block) else none
  | some leases =>
    if block.subnet_len ≤ leases.length then
      let r := dhcp_check_timeouts_loop now (leases.take block.subnet_len) 0
      some ((r.2 : Int),
        { block with addresses := some (r.1 ++ leases.drop block.subnet_len) })
    else none

/-! ## Sequences of operations -/

/-- The core operations on the block table, with the arguments they take from outside:
the time, the client packet, the address, the position of the block swept. -/
inductive core_op where
  | hdl_discover (now : Int) (packet : dhcp_packet)
  | hdl_request (now : Int) (packet : dhcp_packet)
  | hdl_release (packet : dhcp_packet)
  | release_lease (address : Nat)
  | check_timeouts (now : Int) (pos : Nat)
  | rhdl_request (now : Int) (address : Nat)
  | rhdl_ack (now : Int) (packet : dhcp_packet)

/-- What the operations act on: the block table and the pending client cache. -/
structure core_state where
  blocks : List ddhcp_block
  dhcp_packet_cache : List dhcp_packet
deriving DecidableEq, Repr

/-- One operation on the state; `none` when the operation is undefined there. -/
def core_step (config : ddhcp_config) (st : core_state) : core_op → Option core_state
  | core_op.hdl_discover now packet =>
    match dhcp_hdl_discover now packet st.blocks
        { config with dhcp_packet_cache := st.dhcp_packet_cache } with
    | none => none
    | some r => some { blocks := r.blocks, dhcp_packet_cache := r.dhcp_packet_cache }
  | core_op.hdl_request now packet =>
    match dhcp_hdl_request now packet st.blocks
        { config with dhcp_packet_cache := st.dhcp_packet_cache } with
    | none => none
    | some r => some { blocks := r.blocks, dhcp_packet_cache := r.dhcp_packet_cache }
  | core_op.hdl_release packet =>
    match dhcp_hdl_release packet st.blocks config with
    | none => none
    | some blocks1 => some { st with blocks := blocks1 }
  | core_op.release_lease address =>
    match dhcp_release_lease address st.blocks config with
    | none => none
    | some blocks1 => some { st with blocks := blocks1 }
  | core_op.check_timeouts now pos =>
    match st.blocks[pos]? with
    | none => none
    | some block =>
      match dhcp_check_timeouts now block with
      | none => none
      | some r => some { st with blocks := st.blocks.set pos r.2 }
  | core_op.rhdl_request now address =>
    match dhcp_rhdl_request now address st.blocks config with
    | none => none
    | some r => some { st with blocks := r.2 }
  | core_op.rhdl_ack now packet =>
    match dhcp_rhdl_ack now packet st.blocks
        { config with dhcp_packet_cache := st.dhcp_packet_cache } with
    | none => none
    | some r => some { blocks := r.blocks, dhcp_packet_cache := r.dhcp_packet_cache }

/-- A sequence of operations, one after the other. -/
def core_run (config : ddhcp_config) : List core_op → core_state → Option core_state
  | [], st => some st
  | op :: rest, st =>
    match core_step config st op with
    | none => none
    | some st1 => core_run config rest st1

/-! ## Conditions on the inputs -/

/-- The block table can be read by the loops over it: it holds `number_of_blocks` blocks,
and each of these that is OURS has a lease array of `subnet_len` leases. -/
def valid_table (blocks : List ddhcp_block) (config : ddhcp_config) : Prop :=
  config.number_of_blocks ≤ blocks.length ∧
  ∀ block ∈ blocks.take config.number_of_blocks,
    block.state = DDHCP_OURS → (block_leases block).isSome = true

instance (blocks : List ddhcp_block) (config : ddhcp_config) :
    Decidable (valid_table blocks config) := by
  unfold valid_table; infer_instance

/-- Some lease of the block is FREE. -/
def block_has_free (block : ddhcp_block) : Prop :=
  ∃ lease ∈ (block_leases block).getD [], lease.state = FREE

instance (block : ddhcp_block) : Decidable (block_has_free block) := by
  unfold block_has_free; infer_instance

/-- The parameter request list of the packet can be served by `fill_options` and the two
`set_option` calls that follow it with `additional = 2`: its length fits an `int8_t`
(is below 128), and when longer than 2 its payload holds that many bytes. -/
def prl_readable (packet : dhcp_packet) : Prop :=
  0 ≤ to_int8 (find_option_parameter_request_list packet.options packet.options_len).1 ∧
  (2 < to_int8 (find_option_parameter_request_list packet.options packet.options_len).1 →
    (to_int8 (find_option_parameter_request_list packet.options packet.options_len).1).toNat
      ≤ (((find_option_parameter_request_list packet.options packet.options_len).2).getD
          []).length ∧
    ((find_option_parameter_request_list packet.options packet.options_len).2).isSome = true)

instance (packet : dhcp_packet) : Decidable (prl_readable packet) := by
  unfold prl_readable; infer_instance

/-- The lease at index `j` of the block at position `q` of the table, when there is one. -/
def table_lease (blocks : List ddhcp_block) (q j : Nat) : Option dhcp_lease :=
  match blocks[q]? with
  | some block => lease_at block j
  | none => none

/-- Lease `j` of the block at position `p` is a lease of an OURS block of the table that
is OFFERED with the xid and chaddr of the request. -/
def offered_to (request : dhcp_packet) (blocks : List ddhcp_block) (config : ddhcp_config)
    (p j : Nat) : Prop :=
  p < config.number_of_blocks ∧
  ∃ (block : ddhcp_block) (lease : dhcp_lease),
    blocks[p]? = some block ∧ block.state = DDHCP_OURS ∧ j < block.subnet_len ∧
    lease_at block j = some lease ∧ lease.state = OFFERED ∧ lease.xid = request.xid ∧
    lease.chaddr = request.chaddr

/-- Every lease of every materialized lease array of the table has the property. -/
def table_forall (P : dhcp_lease → Prop) (blocks : List ddhcp_block) : Prop :=
  ∀ block ∈ blocks, ∀ (leases : List dhcp_lease), block.addresses = some leases →
    ∀ lease ∈ leases, P lease

/-- The client packet an operation handles, if it handles one whose chaddr and xid it may
record in a lease. -/
def op_packet : core_op → Option dhcp_packet
  | core_op.hdl_discover _ packet => some packet
  | core_op.hdl_request _ packet => some packet
  | core_op.rhdl_ack _ packet => some packet
  | _ => none

/-! ## Example inputs

The scenario of the spec: pool 10.0.0.0/24 in 16 blocks of 16 addresses, the daemon owning
block 0 only.  The address 10.0.0.0 is the `s_addr` value 10 on a little-endian host. -/

/-- The scenario configuration, with an empty option store. -/
def scenario_config : ddhcp_config :=
  { prefix_addr := 10, prefix_len := 24, block_size := 16, number_of_blocks := 16,
    options := [], dhcp_packet_cache := [] }

/-- A FREE lease, zeroed. -/
def free_lease : dhcp_lease := { chaddr := 0, state := FREE, xid := 0, lease_end := 0 }

/-- Block `k` of the scenario pool: subnet 10.0.0.0 + 16 k. -/
def scenario_block (k : Nat) (state : ddhcp_block_state)
    (addresses : Option (List dhcp_lease)) : ddhcp_block :=
  { index := k, state := state, subnet := htonl (167772160 + 16 * k), subnet_len := 16,
    owner_address := 0, addresses := addresses }

/-- The scenario table with the given lease array in block 0; the other blocks are not
claimed. -/
def scenario_table (leases : List dhcp_lease) : List ddhcp_block :=
  scenario_block 0 DDHCP_OURS (some leases)
    :: (List.range 15).map (fun k => scenario_block (k + 1) DDHCP_FREE none)

/-- The scenario table at start: block 0 with 16 FREE leases. -/
def scenario_blocks : List ddhcp_block := scenario_table (List.replicate 16 free_lease)

/-- The chaddr 11:22:33:44:55:0A (zero-padded) of the scenario client. -/
def scenario_chaddr : Nat := 0x11223344550A

/-- Option 53 (message type) with the given type. -/
def option_53 (message_type : Nat) : dhcp_option :=
  { code := 53, len := 1, payload := some [message_type] }

/-- Option 55 (parameter request list) asking for subnet mask, router and broadcast. -/
def option_55 : dhcp_option :=
  { code := 55, len := 3, payload := some [1, 3, 28] }

/-- A DISCOVER of the scenario client, asking for subnet mask, router and broadcast. -/
def scenario_discover : dhcp_packet :=
  { op := 1, htype := 1, hlen := 6, hops := 0, xid := 0xCAFEBABE, secs := 0, flags := 0,
    ciaddr := 0, yiaddr := 0, giaddr := 0, chaddr := scenario_chaddr, options_len := 2,
    options := [option_53 1, option_55] }

/-- A REQUEST with the given chaddr and options, with the xid of the scenario. -/
def scenario_request (chaddr : Nat) (options : List dhcp_option) : dhcp_packet :=
  { op := 1, htype := 1, hlen := 6, hops := 0, xid := 0xCAFEBABE, secs := 0, flags := 0,
    ciaddr := 0, yiaddr := 0, giaddr := 0, chaddr := chaddr,
    options_len := options.length, options := options }

/-- Option 50 (requested address) with the four bytes given. -/
def option_50 (b0 b1 b2 b3 : Nat) : dhcp_option :=
  { code := 50, len := 4, payload := some [b0, b1, b2, b3] }

/-- Lease 0 of the scenario after the OFFER at time 0. -/
def scenario_offered_lease : dhcp_lease :=
  { chaddr := scenario_chaddr, state := OFFERED, xid := 0xCAFEBABE, lease_end := 12 }

/-- The scenario table after the OFFER at time 0: lease 0 of block 0 is OFFERED. -/
def scenario_offered : List ddhcp_block :=
  scenario_table (scenario_offered_lease :: List.replicate 15 free_lease)

/-- The REQUEST of the scenario client for 10.0.0.0, after the OFFER. -/
def scenario_request_offered : dhcp_packet :=
  scenario_request scenario_chaddr [option_53 3, option_50 10 0 0 0, option_55]

/-- The same REQUEST from another client, chaddr FF:FF:FF:FF:FF:FF, with the same xid. -/
def scenario_request_other_chaddr : dhcp_packet :=
  scenario_request 0xFFFFFFFFFFFF [option_53 3, option_50 10 0 0 0, option_55]

/-- A REQUEST of the scenario client that names no address: no option 50, ciaddr 0. -/
def scenario_request_no_address : dhcp_packet :=
  scenario_request scenario_chaddr [option_53 3, option_55]

/-- A REQUEST of the scenario client for 11.0.0.0, an address outside the pool. -/
def scenario_request_out_of_pool : dhcp_packet :=
  scenario_request scenario_chaddr [option_53 3, option_50 11 0 0 0, option_55]

/-- A REQUEST for 10.0.0.0 from another client with another xid. -/
def scenario_request_stranger : dhcp_packet :=
  { scenario_request_other_chaddr with xid := 1 }

/-- A lease LEASED at time 1 to the client with the given chaddr. -/
def scenario_leased_lease (chaddr : Nat) : dhcp_lease :=
  { chaddr := chaddr, state := LEASED, xid := 0xCAFEBABE, lease_end := 3701 }

/-- The scenario table after the ACK at time 1 to the client with the given chaddr. -/
def scenario_leased (chaddr : Nat) : List ddhcp_block :=
  scenario_table (scenario_leased_lease chaddr :: List.replicate 15 free_lease)

/-- The scenario table with all 16 leases of block 0 LEASED. -/
def scenario_full : List ddhcp_block :=
  scenario_table (List.replicate 16 (scenario_leased_lease scenario_chaddr))

/-- A pool 10.0.0.0 of one block of two addresses. -/
def oversized_config : ddhcp_config :=
  { prefix_addr := 10, prefix_len := 31, block_size := 2, number_of_blocks := 1,
    options := [], dhcp_packet_cache := [] }

/-- A table for `oversized_config` whose block holds three leases, one more than fits the
block size: two are LEASED, the third is FREE. -/
def oversized_blocks : List ddhcp_block :=
  [{ index := 0, state := DDHCP_OURS, subnet := 10, subnet_len := 3, owner_address := 0,
     addresses := some [scenario_leased_lease 1, scenario_leased_lease 2, free_lease] }]

/-- The REQUEST of the scenario client for 10.0.0.2. -/
def oversized_request : dhcp_packet :=
  scenario_request scenario_chaddr [option_53 3, option_50 10 0 0 2, option_55]

/-- The table `oversized_blocks` after the OFFER of its third lease at time 0. -/
def oversized_offered : List ddhcp_block :=
  [{ index := 0, state := DDHCP_OURS, subnet := 10, subnet_len := 3, owner_address := 0,
     addresses := some [scenario_leased_lease 1, scenario_leased_lease 2,
       scenario_offered_lease] }]

/-- The OFFER of 10.0.0.0 that answers `scenario_discover` in the scenario. -/
def scenario_offer : dhcp_packet :=
  { op := 2, htype := 1, hlen := 6, hops := 0, xid := 0xCAFEBABE, secs := 0, flags := 0,
    ciaddr := 0, yiaddr := 10, giaddr := 0, chaddr := scenario_chaddr, options_len := 2,
    options := [{ code := 51, len := 1, payload := some [16] },
                { code := 53, len := 1, payload := some [2] },
                { code := 0, len := 0, payload := none },
                { code := 0, len := 0, payload := none },
                { code := 0, len := 0, payload := none }] }

/-- What `dhcp_hdl_discover` leaves behind in the scenario at time 0. -/
def scenario_offer_result : hdl_result :=
  { ret := 0, blocks := scenario_offered, dhcp_packet_cache := [],
    client_out := [{ kind := reply_kind.OFFER, packet := scenario_offer }], peer_out := [] }

/-- The ACK of 10.0.0.0 that answers `scenario_request_offered`. -/
def scenario_ack : dhcp_packet :=
  { op := 2, htype := 1, hlen := 6, hops := 0, xid := 0xCAFEBABE, secs := 0, flags := 0,
    ciaddr := 0, yiaddr := 10, giaddr := 0, chaddr := scenario_chaddr, options_len := 2,
    options := [{ code := 51, len := 4, payload := some [0, 0, 0, 16] },
                { code := 53, len := 1, payload := some [5] },
                { code := 0, len := 0, payload := none },
                { code := 0, len := 0, payload := none },
                { code := 0, len := 0, payload := none }] }

/-- What `dhcp_hdl_request` leaves behind for `scenario_request_offered` at time 1. -/
def scenario_ack_result : hdl_result :=
  { ret := 0, blocks := scenario_leased scenario_chaddr, dhcp_packet_cache := [],
    client_out := [{ kind := reply_kind.ACK, packet := scenario_ack }], peer_out := [] }

/-- A DISCOVER whose chaddr and xid are zero. -/
def scenario_discover_zero : dhcp_packet :=
  { scenario_discover with xid := 0, chaddr := 0 }

/-- A DISCOVER of the scenario client that carries no parameter request list. -/
def scenario_discover_no_prl : dhcp_packet :=
  { scenario_discover with options_len := 1, options := [option_53 1] }

/-- The REQUEST of the scenario client for 10.0.0.0 without parameter request list. -/
def scenario_request_no_prl : dhcp_packet :=
  scenario_request scenario_chaddr [option_53 3, option_50 10 0 0 0]

/-- The scenario table in which block 1 is claimed by the peer fe80::2 and its lease
array is materialized. -/
def scenario_peer_blocks : List ddhcp_block :=
  [scenario_block 0 DDHCP_OURS (some (List.replicate 16 free_lease)),
   { scenario_block 1 DDHCP_CLAIMED (some (List.replicate 16 free_lease)) with
     owner_address := 0xfe800000000000000000000000000002 }]
    ++ (List.range 14).map (fun k => scenario_block (k + 2) DDHCP_FREE none)

/-- The REQUEST of the scenario client for 10.0.0.16, the first address of block 1. -/
def scenario_request_peer : dhcp_packet :=
  scenario_request scenario_chaddr [option_53 3, option_50 10 0 0 16, option_55]

/-- The scenario table in which lease 5 of block 0 is LEASED to the scenario client. -/
def scenario_leased5 : List ddhcp_block :=
  scenario_table (List.replicate 5 free_lease ++ scenario_leased_lease scenario_chaddr
    :: List.replicate 10 free_lease)

/-- A RELEASE for 10.0.0.5 (the `s_addr` value 83886090) from the client with the chaddr
given. -/
def scenario_release (chaddr : Nat) : dhcp_packet :=
  { scenario_request chaddr [option_53 7] with ciaddr := 83886090 }

/-- A block of three leases: one OFFERED until time 12, one LEASED until time 3701, one
FREE. -/
def scenario_sweep_block : ddhcp_block :=
  { index := 0, state := DDHCP_OURS, subnet := 10, subnet_len := 3, owner_address := 0,
    addresses :=
      some [scenario_offered_lease, scenario_leased_lease scenario_chaddr, free_lease] }

/-- A slot of an option array as `calloc` leaves it. -/
def empty_option : dhcp_option := { code := 0, len := 0, payload := none }

/-- An option array of two slots: the message type OFFER in slot 0, slot 1 empty. -/
def scenario_reply_options : List dhcp_option := [option_53 DHCPOFFER, empty_option]

/-- An option array of two slots that both hold a message type, OFFER and NAK. -/
def scenario_reply_options_twice : List dhcp_option := [option_53 DHCPOFFER, option_53 DHCPNAK]

/-- An option array of two slots with codes 51 and 54, neither 53 nor empty. -/
def scenario_reply_options_full : List dhcp_option :=
  [{ code := 51, len := 1, payload := some [16] },
   { code := 54, len := 4, payload := some [10, 0, 0, 1] }]

/-- The option store of the scenario with the defaults of `dhcp_options_init`: subnet
mask 255.255.255.0, time offset 0, broadcast address 10.0.0.255, server 10.0.0.1. -/
def scenario_store : List dhcp_option := (dhcp_options_init scenario_config).options

/-- The subnet mask option 255.255.0.0. -/
def scenario_mask_16 : dhcp_option := { code := 1, len := 4, payload := some [255, 255, 0, 0] }

/-- The router option 10.0.0.1. -/
def scenario_router : dhcp_option := { code := 3, len := 4, payload := some [10, 0, 0, 1] }

/-! ## Lemmas -/

theorem bswap32_lt (x : Nat) : bswap32 x < 4294967296 := by
  unfold bswap32; omega

theorem bswap32_bytes (a b c d : Nat) (ha : a < 256) (hb : b < 256) (hc : c < 256)
    (hd : d < 256) :
    bswap32 (a + 256 * b + 65536 * c + 16777216 * d)
      = a * 16777216 + b * 65536 + c * 256 + d := by
  unfold bswap32; omega

theorem bswap32_bswap32 (x : Nat) (h : x < 4294967296) : bswap32 (bswap32 x) = x := by
  have hx : x = x % 256 + 256 * (x / 256 % 256) + 65536 * (x / 65536 % 256)
      + 16777216 * (x / 16777216 % 256) := by omega
  have h1 := bswap32_bytes (x % 256) (x / 256 % 256) (x / 65536 % 256) (x / 16777216 % 256)
    (by omega) (by omega) (by omega) (by omega)
  rw [← hx] at h1
  rw [h1]
  have h2 := bswap32_bytes (x / 16777216 % 256) (x / 65536 % 256) (x / 256 % 256) (x % 256)
    (by omega) (by omega) (by omega) (by omega)
  have e : x % 256 * 16777216 + x / 256 % 256 * 65536 + x / 65536 % 256 * 256
      + x / 16777216 % 256
      = x / 16777216 % 256 + 256 * (x / 65536 % 256) + 65536 * (x / 256 % 256)
        + 16777216 * (x % 256) := by omega
  rw [e, h2]; omega

theorem ntohl_htonl (x : Nat) (h : x < 4294967296) : ntohl (htonl x) = x :=
  bswap32_bswap32 x h

theorem htonl_ntohl (x : Nat) (h : x < 4294967296) : htonl (ntohl x) = x :=
  bswap32_bswap32 x h

theorem ntohl_lt (x : Nat) : ntohl x < 4294967296 := bswap32_lt x

theorem htonl_lt (x : Nat) : htonl x < 4294967296 := bswap32_lt x

theorem addr_add_nat (subnet i : Nat) :
    addr_add subnet (i : Int) = htonl ((ntohl subnet + i) % 4294967296) := by
  unfold addr_add
  have h : (((ntohl subnet : Int) + (i : Int)) % 4294967296).toNat
      = (ntohl subnet + i) % 4294967296 := by omega
  rw [h]

theorem addr_add_lt (subnet : Nat) (add : Int) : addr_add subnet add < 4294967296 :=
  htonl_lt _

/-- The pool offset of an address: `ntohl(addr) - ntohl(prefix)` as a `uint32_t`. -/
theorem pool_offset_split (x p B : Nat) (hx : x < 4294967296) (hp : p < 4294967296) :
    (p + ((x + 4294967296 - p) % 4294967296 / B * B
      + (x + 4294967296 - p) % 4294967296 % B)) % 4294967296 = x := by
  have h := Nat.div_add_mod ((x + 4294967296 - p) % 4294967296) B
  have h1 : (x + 4294967296 - p) % 4294967296 / B * B
      = B * ((x + 4294967296 - p) % 4294967296 / B) := Nat.mul_comm _ _
  rw [h1, h]
  omega

/-- What `find_lease_from_address` returns, case by case. -/
theorem find_lease_from_address_cases (addr : Nat) (blocks : List ddhcp_block)
    (config : ddhcp_config) (r : found_lease)
    (h : find_lease_from_address addr blocks config = some r) :
    config.block_size ≠ 0 ∧
    ((r = { status := 2, lease_block := none, lease_index := 0 } ∧
        config.number_of_blocks ≤
          (ntohl addr + 4294967296 - ntohl config.prefix_addr) % 4294967296 / config.block_size) ∨
     (∃ block,
        (ntohl addr + 4294967296 - ntohl config.prefix_addr) % 4294967296 / config.block_size
          < config.number_of_blocks ∧
        blocks[(ntohl addr + 4294967296 - ntohl config.prefix_addr) % 4294967296
          / config.block_size]? = some block ∧
        r.lease_block = some ((ntohl addr + 4294967296 - ntohl config.prefix_addr) % 4294967296
          / config.block_size) ∧
        r.lease_index = (ntohl addr + 4294967296 - ntohl config.prefix_addr) % 4294967296
          % config.block_size ∧
        ((r.status = 0 ∧ block.state = DDHCP_OURS) ∨
         (r.status = 1 ∧ block.state ≠ DDHCP_OURS)))) := by
  unfold find_lease_from_address at h
  by_cases hB : config.block_size = 0
  · simp [hB] at h
  · refine ⟨hB, ?_⟩
    simp only [hB, if_false] at h
    by_cases hN : (ntohl addr + 4294967296 - ntohl config.prefix_addr) % 4294967296
        / config.block_size < config.number_of_blocks
    · right
      simp only [hN, if_true] at h
      cases hb : blocks[(ntohl addr + 4294967296 - ntohl config.prefix_addr) % 4294967296
          / config.block_size]? with
      | none => simp [hb] at h
      | some block =>
        simp only [hb] at h
        refine ⟨block, hN, rfl, ?_⟩
        by_cases hs : block.state = DDHCP_OURS
        · simp only [hs, if_true, Option.some.injEq] at h
          subst h
          simp [hs]
        · simp only [hs, if_false, Option.some.injEq] at h
          subst h
          simp [hs]
    · left
      simp only [hN, if_false, Option.some.injEq] at h
      exact ⟨h.symm, Nat.le_of_not_lt hN⟩

/-- C4: an address that `find_lease_from_address` resolves to block `k` and lease `i`
(status other than 2) is given back by `addr_add` on the subnet of block `k` and `i`,
when that subnet is `P + k*B` in host order, all arithmetic being 32-bit unsigned. -/
theorem find_lease_from_address_addr_add (a : Nat) (blocks : List ddhcp_block)
    (config : ddhcp_config) (r : found_lease) (k : Nat) (block : ddhcp_block)
    (ha : a < 4294967296)
    (hr : find_lease_from_address a blocks config = some r)
    (h2 : r.status ≠ 2)
    (hk : r.lease_block = some k)
    (_hb : blocks[k]? = some block)
    (hsub : ntohl block.subnet
      = (ntohl config.prefix_addr + k * config.block_size) % 4294967296) :
    addr_add block.subnet (r.lease_index : Int) = a := by
  obtain ⟨_, hc⟩ := find_lease_from_address_cases a blocks config r hr
  rcases hc with ⟨hr2, _⟩ | ⟨_, _, _, hk2, hi, _⟩
  · rw [hr2] at h2; exact absurd rfl h2
  · rw [hk] at hk2
    have hk3 : k = (ntohl a + 4294967296 - ntohl config.prefix_addr) % 4294967296
        / config.block_size := Option.some.inj hk2
    rw [addr_add_nat, hsub, hi, hk3]
    have hsplit := pool_offset_split (ntohl a) (ntohl config.prefix_addr) config.block_size
      (ntohl_lt a) (ntohl_lt _)
    have e : ((ntohl config.prefix_addr
          + (ntohl a + 4294967296 - ntohl config.prefix_addr) % 4294967296 / config.block_size
            * config.block_size) % 4294967296
        + (ntohl a + 4294967296 - ntohl config.prefix_addr) % 4294967296 % config.block_size)
          % 4294967296 = ntohl a := by
      generalize (ntohl a + 4294967296 - ntohl config.prefix_addr) % 4294967296
        / config.block_size * config.block_size = q at hsplit ⊢
      generalize (ntohl a + 4294967296 - ntohl config.prefix_addr) % 4294967296
        % config.block_size = i at hsplit ⊢
      omega
    rw [e]
    exact htonl_ntohl a ha

/-! ### Lease arrays -/

theorem dhcp_num_free_loop_eq (leases : List dhcp_lease) (num : Nat) :
    dhcp_num_free_loop leases num
      = num + leases.countP (fun lease => decide (lease.state = FREE)) := by
  induction leases generalizing num with
  | nil => simp [dhcp_num_free_loop]
  | cons lease rest ih =>
    simp only [dhcp_num_free_loop, ih, List.countP_cons]
    by_cases h : lease.state = FREE
    · simp [h]; omega
    · simp [h]

theorem dhcp_num_free_loop_le (leases : List dhcp_lease) :
    dhcp_num_free_loop leases 0 ≤ leases.length := by
  rw [dhcp_num_free_loop_eq]
  simpa using List.countP_le_length (fun lease : dhcp_lease => decide (lease.state = FREE))

theorem dhcp_num_free_loop_pos (leases : List dhcp_lease) :
    0 < dhcp_num_free_loop leases 0 ↔ ∃ lease ∈ leases, lease.state = FREE := by
  rw [dhcp_num_free_loop_eq]
  simp [List.countP_pos_iff]

/-- The search loop finds the lowest index of a FREE lease. -/
theorem dhcp_get_free_lease_loop_some (leases : List dhcp_lease) (i j : Nat)
    (h : dhcp_get_free_lease_loop leases i = some j) :
    i ≤ j ∧ (∃ lease, leases[j - i]? = some lease ∧ lease.state = FREE) ∧
      ∀ m lease, m < j - i → leases[m]? = some lease → lease.state ≠ FREE := by
  induction leases generalizing i with
  | nil => simp [dhcp_get_free_lease_loop] at h
  | cons lease rest ih =>
    simp only [dhcp_get_free_lease_loop] at h
    by_cases hf : lease.state = FREE
    · simp only [hf, if_true, Option.some.injEq] at h
      subst h
      refine ⟨Nat.le_refl _, ⟨lease, by simp, hf⟩, ?_⟩
      intro m l hm
      omega
    · simp only [hf, if_false] at h
      obtain ⟨h1, ⟨l, h2, h3⟩, h4⟩ := ih (i + 1) h
      have e : j - i = (j - (i + 1)) + 1 := by omega
      refine ⟨by omega, ⟨l, by rw [e]; simpa using h2, h3⟩, ?_⟩
      intro m l2 hm hl2
      cases m with
      | zero =>
        simp at hl2
        subst hl2
        exact hf
      | succ m =>
        simp at hl2
        exact h4 m l2 (by omega) hl2

theorem dhcp_get_free_lease_loop_none (leases : List dhcp_lease) (i : Nat) :
    dhcp_get_free_lease_loop leases i = none ↔ ∀ lease ∈ leases, lease.state ≠ FREE := by
  induction leases generalizing i with
  | nil => simp [dhcp_get_free_lease_loop]
  | cons lease rest ih =>
    simp only [dhcp_get_free_lease_loop]
    by_cases hf : lease.state = FREE
    · simp [hf]
    · simp [hf, ih]

theorem block_leases_some (block : ddhcp_block) (ls : List dhcp_lease)
    (h : block_leases block = some ls) :
    ls.length = block.subnet_len ∧
    (ls ≠ [] → ∃ leases, block.addresses = some leases ∧ block.subnet_len ≤ leases.length ∧
      ls = leases.take block.subnet_len) := by
  unfold block_leases at h
  cases ha : block.addresses with
  | none =>
    simp only [ha] at h
    by_cases h0 : block.subnet_len = 0
    · simp only [h0, if_true, Option.some.injEq] at h
      subst h
      simp [h0]
    · simp [h0] at h
  | some leases =>
    simp only [ha] at h
    by_cases hl : block.subnet_len ≤ leases.length
    · simp only [hl, if_true, Option.some.injEq] at h
      subst h
      refine ⟨by simp [hl], fun _ => ⟨leases, rfl, hl, rfl⟩⟩
    · simp [hl] at h

/-- The lease `dhcp_get_free_lease` returns in a block with a positive free count. -/
theorem dhcp_get_free_lease_spec (block : ddhcp_block) (i n : Nat)
    (hn : dhcp_num_free block = some n) (hpos : 0 < n)
    (hi : dhcp_get_free_lease block = some i) :
    ∃ leases lease, block.addresses = some leases ∧ block.subnet_len ≤ leases.length ∧
      i < block.subnet_len ∧ leases[i]? = some lease ∧ lease.state = FREE ∧
      (∀ m l, m < i → leases[m]? = some l → l.state ≠ FREE) ∧ n ≤ block.subnet_len := by
  unfold dhcp_num_free at hn
  unfold dhcp_get_free_lease at hi
  cases hls : block_leases block with
  | none => simp [hls] at hn
  | some ls =>
    simp only [hls, Option.some.injEq] at hn hi
    obtain ⟨hlen, hne⟩ := block_leases_some block ls hls
    have hex : ∃ lease ∈ ls, lease.state = FREE := by
      rw [← dhcp_num_free_loop_pos, hn]; exact hpos
    have hne2 : ls ≠ [] := by
      rintro rfl
      simp at hex
    obtain ⟨leases, ha, hle, hls2⟩ := hne hne2
    cases hj : dhcp_get_free_lease_loop ls 0 with
    | none =>
      rw [dhcp_get_free_lease_loop_none] at hj
      obtain ⟨l, hl, hf⟩ := hex
      exact absurd hf (hj l hl)
    | some j =>
      simp only [hj, Option.getD_some] at hi
      subst hi
      obtain ⟨_, ⟨l, h2, h3⟩, h4⟩ := dhcp_get_free_lease_loop_some ls 0 j hj
      simp only [Nat.sub_zero] at h2 h4
      have hjlt : j < ls.length := by
        by_contra hc
        rw [List.getElem?_eq_none (Nat.le_of_not_lt hc)] at h2
        exact absurd h2 (by simp)
      have hjs : j < block.subnet_len := by omega
      refine ⟨leases, l, ha, hle, hjs, ?_, h3, ?_, ?_⟩
      · rw [hls2, List.getElem?_take] at h2
        simpa [hjs] using h2
      · intro m l2 hm hl2
        apply h4 m l2 hm
        rw [hls2, List.getElem?_take]
        simpa [Nat.lt_trans hm hjs] using hl2
      · rw [← hn, ← hlen]
        exact dhcp_num_free_loop_le ls

/-! ### The block selection loop of `dhcp_hdl_discover` -/

theorem dhcp_hdl_discover_step_cases (block : ddhcp_block) (pos : Nat)
    (s s1 : discover_locals) (h : dhcp_hdl_discover_step block pos s = some s1) :
    (s1 = s ∧ (block.state = DDHCP_OURS → ∀ n, dhcp_num_free block = some n → 0 < n →
        s.lease_ratio ≤ (n : Int))) ∨
    (∃ n index, block.state = DDHCP_OURS ∧ dhcp_num_free block = some n ∧ 0 < n ∧
        (n : Int) < s.lease_ratio ∧ dhcp_get_free_lease block = some index ∧
        s1 = { lease := some (pos, index), lease_ratio := (n : Int) }) := by
  unfold dhcp_hdl_discover_step at h
  by_cases ho : block.state = DDHCP_OURS
  · simp only [ho, if_true] at h
    cases hn : dhcp_num_free block with
    | none => simp [hn] at h
    | some n =>
      simp only [hn] at h
      by_cases hp : 0 < n
      · simp only [hp, if_true] at h
        by_cases hr : (n : Int) < s.lease_ratio
        · simp only [hr, if_true] at h
          cases hi : dhcp_get_free_lease block with
          | none => simp [hi] at h
          | some index =>
            simp only [hi, Option.some.injEq] at h
            right
            exact ⟨n, index, ho, rfl, hp, hr, rfl, h.symm⟩
        · simp only [hr, if_false, Option.some.injEq] at h
          left
          refine ⟨h.symm, fun _ m hm _ => ?_⟩
          simp only [Option.some.injEq] at hm
          subst hm
          exact Int.not_lt.mp hr
      · simp only [hp, if_false, Option.some.injEq] at h
        left
        refine ⟨h.symm, fun _ m hm hm0 => ?_⟩
        simp only [Option.some.injEq] at hm
        subst hm
        exact absurd hm0 hp
  · simp only [ho, if_false, Option.some.injEq] at h
    left
    exact ⟨h.symm, fun hc => absurd hc ho⟩

/-- The result of the selection loop: the ratio only decreases, ends at or below the free
count of every OURS block visited that has a free lease, and the lease chosen, if the
loop chose one, is the free lease of a visited OURS block with that free count. -/
theorem dhcp_hdl_discover_loop_spec (bs : List ddhcp_block) (pos : Nat)
    (s s2 : discover_locals) (h : dhcp_hdl_discover_loop bs pos s = some s2) :
    s2.lease_ratio ≤ s.lease_ratio ∧
    (∀ (q : Nat) (block : ddhcp_block) (n : Nat), bs[q]? = some block →
      block.state = DDHCP_OURS →
      dhcp_num_free block = some n → 0 < n → s2.lease_ratio ≤ (n : Int)) ∧
    (s2 = s ∨ ∃ (q : Nat) (block : ddhcp_block) (n index : Nat),
      bs[q]? = some block ∧ block.state = DDHCP_OURS ∧
      dhcp_num_free block = some n ∧ 0 < n ∧ s2.lease_ratio = (n : Int) ∧
      (n : Int) < s.lease_ratio ∧ dhcp_get_free_lease block = some index ∧
      s2.lease = some (pos + q, index)) := by
  induction bs generalizing pos s with
  | nil =>
    simp only [dhcp_hdl_discover_loop, Option.some.injEq] at h
    subst h
    simp
  | cons block rest ih =>
    simp only [dhcp_hdl_discover_loop] at h
    cases hs : dhcp_hdl_discover_step block pos s with
    | none => simp [hs] at h
    | some s1 =>
      simp only [hs] at h
      obtain ⟨ih1, ih2, ih3⟩ := ih (pos + 1) s1 h
      rcases dhcp_hdl_discover_step_cases block pos s s1 hs with
        ⟨he, hskip⟩ | ⟨n, index, ho, hn, hp, hr, hi, he⟩
      · subst he
        refine ⟨ih1, ?_, ?_⟩
        · intro q b m hq hb hm hm0
          cases q with
          | zero =>
            simp only [List.getElem?_cons_zero, Option.some.injEq] at hq
            subst hq
            exact Int.le_trans ih1 (hskip hb m hm hm0)
          | succ q =>
            simp only [List.getElem?_cons_succ] at hq
            exact ih2 q b m hq hb hm hm0
        · rcases ih3 with h3 | ⟨q, b, m, idx, hq, hb, hm, hm0, hr2, hlt, hidx, hl⟩
          · left; exact h3
          · right
            refine ⟨q + 1, b, m, idx, by simpa using hq, hb, hm, hm0, hr2, hlt, hidx, ?_⟩
            rw [hl]; congr 2; omega
      · have hr1 : s1.lease_ratio = (n : Int) := by rw [he]
        refine ⟨by omega, ?_, ?_⟩
        · intro q b m hq hb hm hm0
          cases q with
          | zero =>
            simp only [List.getElem?_cons_zero, Option.some.injEq] at hq
            subst hq
            rw [hn] at hm
            simp only [Option.some.injEq] at hm
            subst hm
            omega
          | succ q =>
            simp only [List.getElem?_cons_succ] at hq
            exact ih2 q b m hq hb hm hm0
        · right
          rcases ih3 with h3 | ⟨q, b, m, idx, hq, hb, hm, hm0, hr2, hlt, hidx, hl⟩
          · refine ⟨0, block, n, index, by simp, ho, hn, hp, ?_, hr, hi, ?_⟩
            · rw [h3, hr1]
            · rw [h3, he]; simp
          · refine ⟨q + 1, b, m, idx, by simpa using hq, hb, hm, hm0, hr2, by omega, hidx, ?_⟩
            rw [hl]; congr 2; omega

/-- The selection loop returns when every OURS block it visits can be read. -/
theorem dhcp_hdl_discover_loop_defined (bs : List ddhcp_block) (pos : Nat)
    (s : discover_locals)
    (h : ∀ block ∈ bs, block.state = DDHCP_OURS → (block_leases block).isSome = true) :
    ∃ s2, dhcp_hdl_discover_loop bs pos s = some s2 := by
  induction bs generalizing pos s with
  | nil => exact ⟨s, rfl⟩
  | cons block rest ih =>
    have hstep : ∃ s1, dhcp_hdl_discover_step block pos s = some s1 := by
      unfold dhcp_hdl_discover_step dhcp_num_free dhcp_get_free_lease
      by_cases ho : block.state = DDHCP_OURS
      · have hb := h block (List.mem_cons_self _ _) ho
        obtain ⟨ls, hls⟩ := Option.isSome_iff_exists.mp hb
        simp only [ho, if_true, hls]
        split_ifs <;> exact ⟨_, rfl⟩
      · simp only [ho, if_false]
        exact ⟨_, rfl⟩
    obtain ⟨s1, hs1⟩ := hstep
    obtain ⟨s2, hs2⟩ := ih (pos + 1) s1 (fun b hb => h b (List.mem_cons_of_mem _ hb))
    exact ⟨s2, by simp only [dhcp_hdl_discover_loop, hs1, hs2]⟩

/-! ### Reply options -/

theorem dhcp_set_option_loop_defined (options : List dhcp_option) (code payload_len : Nat)
    (payload : Option (List Nat)) (n : Nat) (h : n ≤ options.length) :
    ∃ r, dhcp_set_option_loop options code payload_len payload n = some r ∧
      r.2.length = options.length := by
  induction n with
  | zero => exact ⟨(1, options), rfl, rfl⟩
  | succ i ih =>
    have hi : i < options.length := h
    simp only [dhcp_set_option_loop, List.getElem?_eq_getElem hi]
    split_ifs
    · exact ⟨_, rfl, by simp⟩
    · exact ih (Nat.le_of_lt hi)

theorem fill_options_loop_spec (option_store : List dhcp_option) (codes : List Nat)
    (fullfil : List dhcp_option) (num : Nat) :
    (fill_options_loop option_store codes fullfil num).1.length = fullfil.length ∧
    (fill_options_loop option_store codes fullfil num).2 ≤ num + codes.length := by
  induction codes generalizing fullfil num with
  | nil => simp [fill_options_loop]
  | cons code rest ih =>
    simp only [fill_options_loop]
    cases find_in_option_store option_store code with
    | none =>
      obtain ⟨h1, h2⟩ := ih fullfil num
      exact ⟨h1, by simp only [List.length_cons]; omega⟩
    | some option =>
      obtain ⟨h1, h2⟩ := ih (fullfil.set num option) (num + 1)
      exact ⟨by simpa using h1, by simp only [List.length_cons]; omega⟩

/-- For a packet whose parameter request list can be served, `fill_options` returns, and
the count it returns is within the array it allocated. -/
theorem fill_options_defined (packet : dhcp_packet) (option_store : List dhcp_option)
    (h : prl_readable packet) :
    ∃ filled, fill_options packet.options packet.options_len option_store 2 = some filled ∧
      filled.1.toNat ≤ filled.2.length := by
  obtain ⟨h0, h2⟩ := h
  unfold fill_options
  generalize to_int8 (find_option_parameter_request_list packet.options
    packet.options_len).1 = m at h0 h2 ⊢
  generalize (find_option_parameter_request_list packet.options packet.options_len).2
    = requested at h2 ⊢
  by_cases hm0 : m = 0
  · simp only [hm0, if_true]
    exact ⟨_, rfl, by simp⟩
  · simp only [hm0, if_false]
    by_cases hm2 : m ≤ ((2 : Nat) : Int)
    · simp only [hm2, if_true]
      refine ⟨_, rfl, ?_⟩
      simp only [List.length_replicate]
      omega
    · simp only [hm2, if_false]
      have hgt : 2 < m := by omega
      obtain ⟨hlen, hsome⟩ := h2 hgt
      obtain ⟨bytes, hb⟩ := Option.isSome_iff_exists.mp hsome
      subst hb
      simp only [Option.getD_some] at hlen
      have hnot : ¬ bytes.length < m.toNat := by omega
      simp only [hnot, if_false]
      refine ⟨_, rfl, ?_⟩
      obtain ⟨h1, h3⟩ := fill_options_loop_spec option_store
        ((bytes.take m.toNat).drop 2)
        (List.replicate (m + ((2 : Nat) : Int)).toNat { code := 0, len := 0, payload := none }) 0
      simp only [h1, List.length_replicate]
      simp only [List.length_drop, List.length_take] at h3
      omega

/-- For a packet whose parameter request list can be served, the reply options are
built: `fill_options` and the two `set_option` calls stay inside their arrays. -/
theorem reply_options_defined (packet : dhcp_packet) (option_store : List dhcp_option)
    (h : prl_readable packet) (c1 l1 : Nat) (p1 : Option (List Nat)) (c2 l2 : Nat)
    (p2 : Option (List Nat)) :
    ∃ filled r1 r2, fill_options packet.options packet.options_len option_store 2 = some filled ∧
      dhcp_set_option filled.2 filled.1.toNat c1 l1 p1 = some r1 ∧
      dhcp_set_option r1.2 filled.1.toNat c2 l2 p2 = some r2 := by
  obtain ⟨filled, hf, hle⟩ := fill_options_defined packet option_store h
  obtain ⟨r1, hr1, hl1⟩ := dhcp_set_option_loop_defined filled.2 c1 l1 p1 filled.1.toNat hle
  obtain ⟨r2, hr2, _⟩ := dhcp_set_option_loop_defined r1.2 c2 l2 p2 filled.1.toNat
    (by rw [hl1]; exact hle)
  exact ⟨filled, r1, r2, hf, hr1, hr2⟩

/-! ### Block tables -/

theorem getElem?_take_some {α : Type} (l : List α) (n q : Nat) (b : α) :
    (l.take n)[q]? = some b ↔ q < n ∧ l[q]? = some b := by
  rw [List.getElem?_take]
  by_cases h : q < n <;> simp [h]

theorem write_lease_some (blocks : List ddhcp_block) (pos i : Nat) (new_lease : dhcp_lease)
    (block : ddhcp_block) (leases : List dhcp_lease) (hb : blocks[pos]? = some block)
    (ha : block.addresses = some leases) (hi : i < leases.length) :
    write_lease blocks pos i new_lease
      = some (blocks.set pos { block with addresses := some (leases.set i new_lease) }) := by
  simp [write_lease, hb, ha, hi]

theorem write_lease_inv (blocks : List ddhcp_block) (pos i : Nat) (new_lease : dhcp_lease)
    (blocks1 : List ddhcp_block) (h : write_lease blocks pos i new_lease = some blocks1) :
    ∃ block leases, blocks[pos]? = some block ∧ block.addresses = some leases ∧
      i < leases.length ∧
      blocks1 = blocks.set pos { block with addresses := some (leases.set i new_lease) } := by
  unfold write_lease at h
  cases hb : blocks[pos]? with
  | none => simp [hb] at h
  | some block =>
    simp only [hb] at h
    cases ha : block.addresses with
    | none => simp [ha] at h
    | some leases =>
      simp only [ha] at h
      by_cases hi : i < leases.length
      · simp only [hi, if_true, Option.some.injEq] at h
        exact ⟨block, leases, rfl, ha, hi, h.symm⟩
      · simp [hi] at h

/-! ### `dhcp_hdl_discover` -/

/-- What `dhcp_hdl_discover` does when it returns: either no lease was selected (return
value 2, nothing sent, nothing changed), or the lowest FREE lease of an OURS block with
the least positive free count was selected, marked OFFERED and offered. -/
theorem dhcp_hdl_discover_cases (now : Int) (discover : dhcp_packet)
    (blocks : List ddhcp_block) (config : ddhcp_config) (r : hdl_result)
    (h : dhcp_hdl_discover now discover blocks config = some r) :
    (r = { ret := 2, blocks := blocks, dhcp_packet_cache := config.dhcp_packet_cache,
           client_out := [], peer_out := [] } ∧
      ∀ (q : Nat) (block : ddhcp_block) (n : Nat), q < config.number_of_blocks →
        blocks[q]? = some block → block.state = DDHCP_OURS →
        dhcp_num_free block = some n → 0 < n → (config.block_size : Int) + 1 ≤ (n : Int)) ∨
    (∃ (p : Nat) (block : ddhcp_block) (leases : List dhcp_lease) (i : Nat)
        (lease : dhcp_lease) (n : Nat) (options_len : Nat) (options : List dhcp_option),
      p < config.number_of_blocks ∧ blocks[p]? = some block ∧
      block.state = DDHCP_OURS ∧ block.addresses = some leases ∧
      block.subnet_len ≤ leases.length ∧ i < block.subnet_len ∧
      leases[i]? = some lease ∧ lease.state = FREE ∧
      (∀ m l, m < i → leases[m]? = some l → l.state ≠ FREE) ∧
      dhcp_num_free block = some n ∧ 0 < n ∧ n ≤ block.subnet_len ∧
      (n : Int) < (config.block_size : Int) + 1 ∧
      (∀ (q : Nat) (other : ddhcp_block) (m : Nat), q < config.number_of_blocks →
        blocks[q]? = some other → other.state = DDHCP_OURS →
        dhcp_num_free other = some m → 0 < m → n ≤ m) ∧
      r = { ret := 0,
            blocks := blocks.set p { block with addresses := some (leases.set i
              { chaddr := discover.chaddr, xid := discover.xid, state := OFFERED,
                lease_end := now + (DHCP_OFFER_TIMEOUT : Int) }) },
            dhcp_packet_cache := config.dhcp_packet_cache,
            client_out := [{ kind := reply_kind.OFFER,
                             packet := { build_initial_packet discover with
                               yiaddr := addr_add block.subnet (i : Int),
                               options_len := options_len, options := options } }],
            peer_out := [] }) := by
  unfold dhcp_hdl_discover at h
  by_cases hN : blocks.length < config.number_of_blocks
  · simp [hN] at h
  · simp only [hN, if_false] at h
    cases hloop : dhcp_hdl_discover_loop (blocks.take config.number_of_blocks) 0
        { lease := none, lease_ratio := (config.block_size : Int) + 1 } with
    | none => simp [hloop] at h
    | some s =>
      simp only [hloop] at h
      obtain ⟨_, hmin, hsel⟩ := dhcp_hdl_discover_loop_spec _ _ _ _ hloop
      have hmin2 : ∀ (q : Nat) (block : ddhcp_block) (n : Nat), q < config.number_of_blocks →
          blocks[q]? = some block → block.state = DDHCP_OURS →
          dhcp_num_free block = some n → 0 < n → s.lease_ratio ≤ (n : Int) := by
        intro q block n hq hb ho hn hp
        exact hmin q block n ((getElem?_take_some _ _ _ _).mpr ⟨hq, hb⟩) ho hn hp
      rcases hsel with hs | ⟨q, block, n, index, hq, ho, hn, hp, hr, hlt, hi, hl⟩
      · subst hs
        simp only [Option.some.injEq] at h
        left
        exact ⟨h.symm, hmin2⟩
      · right
        obtain ⟨hqN, hqb⟩ := (getElem?_take_some _ _ _ _).mp hq
        simp only [Nat.zero_add] at hl
        simp only [hl, hqb] at h
        obtain ⟨leases, lease, ha, hle, hilt, hli, hfree, hlow, hnle⟩ :=
          dhcp_get_free_lease_spec block index n hn hp hi
        rw [write_lease_some blocks q index _ block leases hqb ha (by omega)] at h
        simp only at h
        cases hfill : fill_options discover.options discover.options_len config.options 2 with
        | none => simp [hfill] at h
        | some filled =>
          simp only [hfill] at h
          cases h1 : dhcp_set_option filled.2 filled.1.toNat DHCP_CODE_MESSAGE_TYPE 1
              (some [DHCPOFFER]) with
          | none => simp [h1] at h
          | some r1 =>
            simp only [h1] at h
            cases h2 : dhcp_set_option r1.2 filled.1.toNat DHCP_CODE_ADDRESS_LEASE_TIME 1
                (some [DHCP_LEASE_TIME % 256]) with
            | none => simp [h2] at h
            | some r2 =>
              simp only [h2, Option.some.injEq] at h
              refine ⟨q, block, leases, index, lease, n, filled.1.toNat, r2.2, hqN, hqb, ho,
                ha, hle, hilt, hli, hfree, hlow, hn, hp, hnle, hlt, ?_, h.symm⟩
              intro q2 other m hq2 hb2 ho2 hm hm0
              have := hmin2 q2 other m hq2 hb2 ho2 hm hm0
              omega

theorem dhcp_num_free_pos_iff (block : ddhcp_block) (n : Nat)
    (h : dhcp_num_free block = some n) : 0 < n ↔ block_has_free block := by
  unfold dhcp_num_free at h
  unfold block_has_free
  cases hls : block_leases block with
  | none => simp [hls] at h
  | some ls =>
    simp only [hls, Option.some.injEq] at h
    subst h
    simp only [Option.getD_some]
    exact dhcp_num_free_loop_pos ls

theorem dhcp_num_free_defined (block : ddhcp_block)
    (h : (block_leases block).isSome = true) : ∃ n, dhcp_num_free block = some n := by
  obtain ⟨ls, hls⟩ := Option.isSome_iff_exists.mp h
  exact ⟨dhcp_num_free_loop ls 0, by simp only [dhcp_num_free, hls]⟩

theorem table_lease_set (blocks : List ddhcp_block) (p i : Nat) (block : ddhcp_block)
    (leases : List dhcp_lease) (new_lease : dhcp_lease) (hb : blocks[p]? = some block)
    (ha : block.addresses = some leases) (hi : i < leases.length) (q j : Nat) :
    table_lease (blocks.set p { block with addresses := some (leases.set i new_lease) }) q j
      = if q = p ∧ j = i then some new_lease else table_lease blocks q j := by
  have hp : p < blocks.length := by
    by_contra hc
    rw [List.getElem?_eq_none (Nat.le_of_not_lt hc)] at hb
    exact absurd hb (by simp)
  unfold table_lease
  by_cases hq : q = p
  · subst hq
    simp only [List.getElem?_set_self hp, lease_at, hb, ha, true_and]
    by_cases hj : j = i
    · subst hj
      simp [List.getElem?_set_self hi]
    · simp [hj, List.getElem?_set_ne (Ne.symm hj)]
  · simp [hq, List.getElem?_set_ne (Ne.symm hq)]

/-- The handler returns on a readable block table and a servable request list. -/
theorem dhcp_hdl_discover_defined (now : Int) (discover : dhcp_packet)
    (blocks : List ddhcp_block) (config : ddhcp_config)
    (hv : valid_table blocks config) (hprl : prl_readable discover) :
    ∃ r, dhcp_hdl_discover now discover blocks config = some r := by
  obtain ⟨hN, hread⟩ := hv
  obtain ⟨s, hloop⟩ := dhcp_hdl_discover_loop_defined (blocks.take config.number_of_blocks) 0
    { lease := none, lease_ratio := (config.block_size : Int) + 1 } hread
  obtain ⟨_, _, hsel⟩ := dhcp_hdl_discover_loop_spec _ _ _ _ hloop
  unfold dhcp_hdl_discover
  simp only [Nat.not_lt.mpr hN, if_false, hloop]
  rcases hsel with hs | ⟨q, block, n, index, hq, ho, hn, hp, hr, hlt, hi, hl⟩
  · subst hs
    exact ⟨_, rfl⟩
  · obtain ⟨hqN, hqb⟩ := (getElem?_take_some _ _ _ _).mp hq
    simp only [Nat.zero_add] at hl
    obtain ⟨leases, lease, ha, hle, hilt, hli, hfree, hlow, hnle⟩ :=
      dhcp_get_free_lease_spec block index n hn hp hi
    obtain ⟨filled, r1, r2, hf, h1, h2⟩ := reply_options_defined discover config.options hprl
      DHCP_CODE_MESSAGE_TYPE 1 (some [DHCPOFFER]) DHCP_CODE_ADDRESS_LEASE_TIME 1
      (some [DHCP_LEASE_TIME % 256])
    simp only [hl, hqb, write_lease_some blocks q index _ block leases hqb ha (by omega), hf,
      h1, h2]
    exact ⟨_, rfl⟩

/-! ### `dhcp_nack`, `dhcp_ack` and `dhcp_hdl_request` -/

theorem dhcp_nack_eq (from_client : dhcp_packet) :
    dhcp_nack from_client
      = some { kind := reply_kind.NAK,
               packet := { build_initial_packet from_client with
                 options_len := 1,
                 options := [{ code := 53, len := 1, payload := some [6] }] } } := by
  simp [dhcp_nack, dhcp_set_option, dhcp_set_option_loop, DHCP_CODE_MESSAGE_TYPE, DHCPNAK]

theorem dhcp_hdl_request_nack_eq (request : dhcp_packet) (blocks : List ddhcp_block)
    (config : ddhcp_config) :
    dhcp_hdl_request_nack request blocks config
      = some { ret := 2, blocks := blocks, dhcp_packet_cache := config.dhcp_packet_cache,
               client_out :=
                 [{ kind := reply_kind.NAK,
                    packet := { build_initial_packet request with
                                options_len := 1,
                                options := [{ code := 53, len := 1, payload := some [6] }] } }],
               peer_out := [] } := by
  simp only [dhcp_hdl_request_nack, dhcp_nack_eq]

/-- When `dhcp_ack` returns: the lease exists, the reply options could be built, and the
result is the table with that lease LEASED to the client and one ACK sent. -/
theorem dhcp_ack_iff (now : Int) (request : dhcp_packet) (blocks : List ddhcp_block)
    (pos i : Nat) (config : ddhcp_config) (r : hdl_result) :
    dhcp_ack now request blocks pos i config = some r ↔
    ∃ (block : ddhcp_block) (leases : List dhcp_lease) (filled : Int × List dhcp_option)
        (r1 r2 : Int × List dhcp_option),
      blocks[pos]? = some block ∧ block.addresses = some leases ∧ i < leases.length ∧
      fill_options request.options request.options_len config.options 2 = some filled ∧
      dhcp_set_option filled.2 filled.1.toNat DHCP_CODE_MESSAGE_TYPE 1 (some [DHCPACK])
        = some r1 ∧
      dhcp_set_option r1.2 filled.1.toNat DHCP_CODE_ADDRESS_LEASE_TIME 4
        (some [0, 0, 0, DHCP_LEASE_TIME % 256]) = some r2 ∧
      r = { ret := 0,
            blocks := blocks.set pos { block with addresses := some (leases.set i
              { chaddr := request.chaddr, xid := request.xid, state := LEASED,
                lease_end := now + (DHCP_LEASE_TIME : Int) + (DHCP_LEASE_SERVER_DELTA : Int) }) },
            dhcp_packet_cache := config.dhcp_packet_cache,
            client_out := [{ kind := reply_kind.ACK,
                             packet := { build_initial_packet request with
                               yiaddr := addr_add block.subnet (i : Int),
                               options_len := filled.1.toNat, options := r2.2 } }],
            peer_out := [] } := by
  constructor
  · intro h
    unfold dhcp_ack at h
    cases hb : blocks[pos]? with
    | none => simp [hb] at h
    | some block =>
      simp only [hb] at h
      cases hw : write_lease blocks pos i
          { chaddr := request.chaddr, xid := request.xid, state := LEASED,
            lease_end := now + (DHCP_LEASE_TIME : Int) + (DHCP_LEASE_SERVER_DELTA : Int) } with
      | none => simp [hw] at h
      | some blocks1 =>
        simp only [hw] at h
        obtain ⟨block2, leases, hb2, ha, hi, hbl⟩ := write_lease_inv _ _ _ _ _ hw
        rw [hb] at hb2
        simp only [Option.some.injEq] at hb2
        subst hb2
        cases hfill : fill_options request.options request.options_len config.options 2 with
        | none => simp [hfill] at h
        | some filled =>
          simp only [hfill] at h
          cases h1 : dhcp_set_option filled.2 filled.1.toNat DHCP_CODE_MESSAGE_TYPE 1
              (some [DHCPACK]) with
          | none => simp [h1] at h
          | some r1 =>
            simp only [h1] at h
            cases h2 : dhcp_set_option r1.2 filled.1.toNat DHCP_CODE_ADDRESS_LEASE_TIME 4
                (some [0, 0, 0, DHCP_LEASE_TIME % 256]) with
            | none => simp [h2] at h
            | some r2 =>
              simp only [h2, Option.some.injEq] at h
              exact ⟨block, leases, filled, r1, r2, rfl, ha, hi, rfl, h1, h2,
                by rw [← h, hbl]⟩
  · rintro ⟨block, leases, filled, r1, r2, hb, ha, hi, hfill, h1, h2, hr⟩
    unfold dhcp_ack
    simp only [hb, write_lease_some blocks pos i _ block leases hb ha hi, hfill, h1, h2, hr]

/-- The branch of `dhcp_hdl_request` for a named address that lies in an OURS block. -/
theorem dhcp_hdl_request_ours (now : Int) (request : dhcp_packet) (blocks : List ddhcp_block)
    (config : ddhcp_config) (a k i : Nat) (block : ddhcp_block) (lease : dhcp_lease)
    (ha : requested_address request = some (some a))
    (hf : find_lease_from_address a blocks config
      = some { status := 0, lease_block := some k, lease_index := i })
    (hb : blocks[k]? = some block) (ho : block.state = DDHCP_OURS)
    (hl : lease_at block i = some lease) :
    dhcp_hdl_request now request blocks config
      = if (lease.state ≠ OFFERED ∨ lease.xid ≠ request.xid)
            ∧ request.chaddr ≠ lease.chaddr ∧ lease.state ≠ FREE then
          dhcp_hdl_request_nack request blocks config
        else
          dhcp_ack now request blocks k i config := by
  unfold dhcp_hdl_request
  simp [ha, hf, hb, ho, hl]

/-- A status of 0 from `find_lease_from_address` names a block that is OURS. -/
theorem find_lease_from_address_ours (a : Nat) (blocks : List ddhcp_block)
    (config : ddhcp_config) (k i : Nat) (block : ddhcp_block)
    (hf : find_lease_from_address a blocks config
      = some { status := 0, lease_block := some k, lease_index := i })
    (hb : blocks[k]? = some block) : block.state = DDHCP_OURS := by
  obtain ⟨_, hc⟩ := find_lease_from_address_cases a blocks config _ hf
  rcases hc with ⟨h2, _⟩ | ⟨b, _, hb2, hk, _, hs⟩
  · simp at h2
  · simp only [Option.some.injEq] at hk
    rw [← hk, hb] at hb2
    simp only [Option.some.injEq] at hb2
    subst hb2
    rcases hs with ⟨_, ho⟩ | ⟨h1, _⟩
    · exact ho
    · simp at h1

/-- Replacing a block by one in the same state does not change what
`find_lease_from_address` returns. -/
theorem find_lease_from_address_set (a : Nat) (blocks : List ddhcp_block)
    (config : ddhcp_config) (k : Nat) (block new_block : ddhcp_block)
    (hb : blocks[k]? = some block) (hs : new_block.state = block.state) :
    find_lease_from_address a (blocks.set k new_block) config
      = find_lease_from_address a blocks config := by
  have hk : k < blocks.length := by
    by_contra hc
    rw [List.getElem?_eq_none (Nat.le_of_not_lt hc)] at hb
    exact absurd hb (by simp)
  unfold find_lease_from_address
  by_cases hB : config.block_size = 0
  · simp [hB]
  · simp only [hB, if_false]
    split_ifs with hN
    · by_cases hq : k = (ntohl a + 4294967296 - ntohl config.prefix_addr) % 4294967296
          / config.block_size
      · rw [← hq, List.getElem?_set_self hk, hb]
        simp only [hs]
      · rw [List.getElem?_set_ne hq]
    · rfl

/-- The address `subnet + i` of lease `i < B` of block `p < N`, whose subnet is
`P + p*B`, has pool offset `p*B + i` when the pool fits the 32-bit address space. -/
theorem pool_offset_addr_add (prefix_addr subnet B N p i : Nat)
    (hs : ntohl subnet = (ntohl prefix_addr + p * B) % 4294967296)
    (hi : i < B) (hp : p < N) (hpool : N * B ≤ 4294967296) :
    (ntohl (addr_add subnet (i : Int)) + 4294967296 - ntohl prefix_addr) % 4294967296
      = p * B + i := by
  have h1 : (p + 1) * B ≤ N * B := Nat.mul_le_mul_right B hp
  have h2 : (p + 1) * B = p * B + B := by ring
  have hP := ntohl_lt prefix_addr
  rw [addr_add_nat, ntohl_htonl _ (Nat.mod_lt _ (by decide)), hs]
  generalize p * B = q at h1 h2 ⊢
  generalize ntohl prefix_addr = P at hP ⊢
  omega

/-- The address `subnet + i` of lease `i` of an OURS block `p` is resolved to that block
and lease. -/
theorem find_lease_from_address_addr_add_ours (blocks : List ddhcp_block)
    (config : ddhcp_config) (p i : Nat) (block : ddhcp_block)
    (hb : blocks[p]? = some block) (ho : block.state = DDHCP_OURS)
    (hs : ntohl block.subnet
      = (ntohl config.prefix_addr + p * config.block_size) % 4294967296)
    (hi : i < config.block_size) (hp : p < config.number_of_blocks)
    (hpool : config.number_of_blocks * config.block_size ≤ 4294967296) :
    find_lease_from_address (addr_add block.subnet (i : Int)) blocks config
      = some { status := 0, lease_block := some p, lease_index := i } := by
  have hoff := pool_offset_addr_add config.prefix_addr block.subnet config.block_size
    config.number_of_blocks p i hs hi hp hpool
  have hB : config.block_size ≠ 0 := by omega
  have hdiv : (p * config.block_size + i) / config.block_size = p := by
    rw [Nat.add_comm, Nat.add_mul_div_right _ _ (Nat.pos_of_ne_zero hB),
      Nat.div_eq_of_lt hi, Nat.zero_add]
  have hmod : (p * config.block_size + i) % config.block_size = i := by
    rw [Nat.add_comm, Nat.add_mul_mod_self_right, Nat.mod_eq_of_lt hi]
  unfold find_lease_from_address
  simp only [hB, if_false, hoff, hdiv, hmod, hp, if_true, hb, ho]

/-- A REQUEST naming an address resolved to a lease of an OURS block that is OFFERED to
its xid and chaddr, LEASED to its chaddr, or FREE is acknowledged: the lease becomes
LEASED and one ACK with `yiaddr = subnet + i` is sent. -/
theorem dhcp_hdl_request_ours_ack_aux (now : Int) (request : dhcp_packet)
    (blocks : List ddhcp_block) (config : ddhcp_config) (a k i : Nat)
    (block : ddhcp_block) (lease : dhcp_lease)
    (hprl : prl_readable request)
    (ha : requested_address request = some (some a))
    (hf : find_lease_from_address a blocks config
      = some { status := 0, lease_block := some k, lease_index := i })
    (hb : blocks[k]? = some block)
    (hl : lease_at block i = some lease)
    (hstate : (lease.state = OFFERED ∧ lease.xid = request.xid
        ∧ lease.chaddr = request.chaddr)
      ∨ (lease.state = LEASED ∧ lease.chaddr = request.chaddr)
      ∨ lease.state = FREE) :
    ∃ (r : hdl_result) (packet : dhcp_packet),
      dhcp_hdl_request now request blocks config = some r ∧ r.ret = 0 ∧
      r.dhcp_packet_cache = config.dhcp_packet_cache ∧
      r.client_out = [{ kind := reply_kind.ACK, packet := packet }] ∧
      packet.yiaddr = addr_add block.subnet (i : Int) ∧
      table_lease r.blocks k i
        = some { chaddr := request.chaddr, xid := request.xid, state := LEASED,
                 lease_end := now + (DHCP_LEASE_TIME : Int)
                   + (DHCP_LEASE_SERVER_DELTA : Int) } := by
  have ho := find_lease_from_address_ours a blocks config k i block hf hb
  have hcond : ¬ ((lease.state ≠ OFFERED ∨ lease.xid ≠ request.xid)
      ∧ request.chaddr ≠ lease.chaddr ∧ lease.state ≠ FREE) := by
    rintro ⟨h1, h2, h3⟩
    rcases hstate with ⟨hs, hx, hc⟩ | ⟨_, hc⟩ | hfree
    · rcases h1 with h1 | h1
      · exact h1 hs
      · exact h1 hx
    · exact h2 hc.symm
    · exact h3 hfree
  rw [dhcp_hdl_request_ours now request blocks config a k i block lease ha hf hb ho hl,
    if_neg hcond]
  unfold lease_at at hl
  cases hadr : block.addresses with
  | none => simp [hadr] at hl
  | some leases =>
    simp only [hadr] at hl
    have hi : i < leases.length := by
      by_contra hc
      rw [List.getElem?_eq_none (Nat.le_of_not_lt hc)] at hl
      exact absurd hl (by simp)
    obtain ⟨filled, r1, r2, hfill, h1, h2⟩ := reply_options_defined request config.options
      hprl DHCP_CODE_MESSAGE_TYPE 1 (some [DHCPACK]) DHCP_CODE_ADDRESS_LEASE_TIME 4
      (some [0, 0, 0, DHCP_LEASE_TIME % 256])
    refine ⟨_, _, (dhcp_ack_iff now request blocks k i config _).mpr
      ⟨block, leases, filled, r1, r2, hb, hadr, hi, hfill, h1, h2, rfl⟩, rfl, rfl, rfl, rfl, ?_⟩
    simp only
    rw [table_lease_set blocks k i block leases _ hb hadr hi]
    simp

/-- A REQUEST that names an address and is answered with an ACK was resolved to a lease
of an OURS block and went through `dhcp_ack`. -/
theorem dhcp_hdl_request_ack_inv (now : Int) (request : dhcp_packet)
    (blocks : List ddhcp_block) (config : ddhcp_config) (a : Nat) (r : hdl_result)
    (packet : dhcp_packet)
    (ha : requested_address request = some (some a))
    (h : dhcp_hdl_request now request blocks config = some r)
    (hack : r.client_out = [{ kind := reply_kind.ACK, packet := packet }]) :
    ∃ (k i : Nat) (block : ddhcp_block),
      find_lease_from_address a blocks config
        = some { status := 0, lease_block := some k, lease_index := i } ∧
      blocks[k]? = some block ∧ block.state = DDHCP_OURS ∧
      dhcp_ack now request blocks k i config = some r := by
  unfold dhcp_hdl_request at h
  simp only [ha] at h
  cases hf : find_lease_from_address a blocks config with
  | none => simp [hf] at h
  | some found =>
    simp only [hf] at h
    obtain ⟨_, hc⟩ := find_lease_from_address_cases a blocks config found hf
    rcases hc with ⟨h2, _⟩ | ⟨block, _, hb, hk, hi, hs⟩
    · subst h2
      simp only [ne_eq, not_true_eq_false, if_false, dhcp_hdl_request_nack_eq,
        Option.some.injEq] at h
      rw [← h] at hack
      simp at hack
    · have hst : found.status ≠ 2 := by
        rcases hs with ⟨h0, _⟩ | ⟨h1, _⟩ <;> omega
      simp only [hst, ne_eq, not_false_eq_true, if_true, hk, hb] at h
      by_cases hcl : block.state = DDHCP_CLAIMED
      · simp only [hcl, if_true] at h
        unfold dhcp_hdl_request_claimed at h
        simp only at h
        split at h
        · simp at h
        · simp only [Option.some.injEq] at h
          rw [← h] at hack
          simp at hack
      · simp only [hcl, if_false] at h
        by_cases ho : block.state = DDHCP_OURS
        · simp only [ho, if_true] at h
          cases hl : lease_at block found.lease_index with
          | none => simp [hl] at h
          | some lease =>
            simp only [hl] at h
            split_ifs at h with hcond
            · rw [dhcp_hdl_request_nack_eq] at h
              simp only [Option.some.injEq] at h
              rw [← h] at hack
              simp at hack
            · refine ⟨_, found.lease_index, block, ?_, hb, ho, h⟩
              rcases hs with ⟨h0, _⟩ | ⟨_, hno⟩
              · cases found
                simp only at h0 hk
                simp [h0, hk]
              · exact absurd ho hno
        · simp only [ho, if_false, Option.some.injEq] at h
          rw [← h] at hack
          simp at hack

/-! ### Release and timeouts -/

/-- The sweep of `dhcp_check_timeouts` on one lease. -/
theorem dhcp_check_timeouts_loop_eq (now : Int) (leases : List dhcp_lease) (free : Nat) :
    (dhcp_check_timeouts_loop now leases free).1
      = leases.map (fun lease =>
          if lease.state ≠ FREE ∧ lease.lease_end < now then released lease else lease) ∧
    (dhcp_check_timeouts_loop now leases free).2
      = free + (dhcp_check_timeouts_loop now leases free).1.countP
          (fun lease => decide (lease.state = FREE)) := by
  induction leases generalizing free with
  | nil => simp [dhcp_check_timeouts_loop]
  | cons lease rest ih =>
    simp only [dhcp_check_timeouts_loop, List.map_cons, List.countP_cons]
    obtain ⟨h1, h2⟩ := ih (if (if lease.state ≠ FREE ∧ lease.lease_end < now then
      released lease else lease).state = FREE then free + 1 else free)
    refine ⟨by rw [h1], ?_⟩
    rw [h2]
    split_ifs <;> simp_all <;> omega

theorem dhcp_check_timeouts_loop_length (now : Int) (leases : List dhcp_lease) (free : Nat) :
    (dhcp_check_timeouts_loop now leases free).1.length = leases.length := by
  rw [(dhcp_check_timeouts_loop_eq now leases free).1, List.length_map]

/-- When `dhcp_check_timeouts` returns: the count of the loop, and a block whose leases
are the leases visited, swept. -/
theorem dhcp_check_timeouts_some (now : Int) (block : ddhcp_block)
    (hread : (block_leases block).isSome = true) :
    ∃ (leases : List dhcp_lease) (block1 : ddhcp_block), block_leases block = some leases ∧
      dhcp_check_timeouts now block
        = some (((dhcp_check_timeouts_loop now leases 0).2 : Int), block1) ∧
      block_leases block1 = some (dhcp_check_timeouts_loop now leases 0).1 := by
  obtain ⟨ls, hls⟩ := Option.isSome_iff_exists.mp hread
  unfold block_leases at hls
  cases ha : block.addresses with
  | none =>
    simp only [ha] at hls
    by_cases h0 : block.subnet_len = 0
    · simp only [h0, if_true, Option.some.injEq] at hls
      subst hls
      refine ⟨[], block, ?_, ?_, ?_⟩
      · simp [block_leases, ha, h0]
      · simp [dhcp_check_timeouts, ha, h0, dhcp_check_timeouts_loop]
      · simp [block_leases, ha, h0, dhcp_check_timeouts_loop]
    · simp [h0] at hls
  | some leases =>
    simp only [ha] at hls
    by_cases hl : block.subnet_len ≤ leases.length
    · simp only [hl, if_true, Option.some.injEq] at hls
      subst hls
      have hlen := dhcp_check_timeouts_loop_length now (leases.take block.subnet_len) 0
      simp only [List.length_take, Nat.min_eq_left hl] at hlen
      refine ⟨leases.take block.subnet_len,
        { block with addresses := some ((dhcp_check_timeouts_loop now
            (leases.take block.subnet_len) 0).1 ++ leases.drop block.subnet_len) },
        ?_, ?_, ?_⟩
      · simp [block_leases, ha, hl]
      · simp [dhcp_check_timeouts, ha, hl]
      · simp only [block_leases, List.length_append, List.length_drop, hlen]
        have h2 : block.subnet_len ≤ block.subnet_len + (leases.length - block.subnet_len) := by
          omega
        simp only [h2, if_true, Option.some.injEq]
        rw [List.take_append_of_le_length (by omega)]
        exact List.take_of_length_le (by omega)
    · simp [hl] at hls

theorem _dhcp_release_lease_some (block : ddhcp_block) (i : Nat) (leases : List dhcp_lease)
    (lease : dhcp_lease) (ha : block.addresses = some leases) (hl : leases[i]? = some lease) :
    _dhcp_release_lease block i
      = some { block with addresses := some (leases.set i (released lease)) } := by
  simp [_dhcp_release_lease, ha, hl]

/-! ### The search by `xid` of `dhcp_hdl_request` -/

theorem dhcp_hdl_request_lease_loop_spec (request : dhcp_packet) (n : Nat)
    (leases : List dhcp_lease) (j : Nat) (hn : n ≤ leases.length) :
    (∃ (m : Nat) (lease : dhcp_lease),
      dhcp_hdl_request_lease_loop request n leases j = some (some (j + m)) ∧ m < n ∧
      leases[m]? = some lease ∧ lease.state = OFFERED ∧ lease.xid = request.xid ∧
      lease.chaddr = request.chaddr) ∨
    (dhcp_hdl_request_lease_loop request n leases j = some none ∧
      ∀ (m : Nat) (lease : dhcp_lease), m < n → leases[m]? = some lease →
        ¬ (lease.state = OFFERED ∧ lease.xid = request.xid ∧ lease.chaddr = request.chaddr)) := by
  induction n generalizing leases j with
  | zero =>
    right
    exact ⟨by cases leases <;> rfl, fun m _ hm => absurd hm (Nat.not_lt_zero m)⟩
  | succ n ih =>
    cases leases with
    | nil => simp at hn
    | cons lease rest =>
      simp only [dhcp_hdl_request_lease_loop]
      by_cases hmatch : lease.state = OFFERED ∧ lease.xid = request.xid
          ∧ request.chaddr = lease.chaddr
      · left
        rw [if_pos hmatch]
        exact ⟨0, lease, rfl, Nat.succ_pos n, by simp, hmatch.1, hmatch.2.1, hmatch.2.2.symm⟩
      · rw [if_neg hmatch]
        have hn2 : n ≤ rest.length := by simpa using hn
        rcases ih rest (j + 1) hn2 with ⟨m, l, h1, h2, h3, h4⟩ | ⟨h1, h2⟩
        · left
          refine ⟨m + 1, l, ?_, by omega, by simpa using h3, h4⟩
          rw [h1]; congr 2; omega
        · right
          refine ⟨h1, ?_⟩
          intro m l hm hl
          cases m with
          | zero =>
            simp only [List.getElem?_cons_zero, Option.some.injEq] at hl
            subst hl
            rintro ⟨a1, a2, a3⟩
            exact hmatch ⟨a1, a2, a3.symm⟩
          | succ m =>
            simp only [List.getElem?_cons_succ] at hl
            exact h2 m l (by omega) hl

theorem block_leases_readable (block : ddhcp_block)
    (h : (block_leases block).isSome = true) :
    block.subnet_len ≤ (block.addresses.getD []).length ∧
    ∀ (j : Nat), lease_at block j = (block.addresses.getD [])[j]? := by
  unfold block_leases at h
  unfold lease_at
  cases ha : block.addresses with
  | none =>
    simp only [ha] at h
    by_cases h0 : block.subnet_len = 0
    · simp [h0]
    · simp [h0] at h
  | some leases =>
    simp only [ha] at h
    by_cases hl : block.subnet_len ≤ leases.length
    · simp [hl]
    · simp [hl] at h

theorem dhcp_hdl_request_block_loop_spec (request : dhcp_packet) (n : Nat)
    (bs : List ddhcp_block) (i : Nat) (hn : n ≤ bs.length)
    (hv : ∀ block ∈ bs.take n, block.state = DDHCP_OURS →
      (block_leases block).isSome = true) :
    (∃ (p j : Nat) (block : ddhcp_block) (lease : dhcp_lease),
      dhcp_hdl_request_block_loop request n bs i = some (some (i + p, j)) ∧ p < n ∧
      bs[p]? = some block ∧ block.state = DDHCP_OURS ∧ j < block.subnet_len ∧
      lease_at block j = some lease ∧ lease.state = OFFERED ∧ lease.xid = request.xid ∧
      lease.chaddr = request.chaddr) ∨
    (dhcp_hdl_request_block_loop request n bs i = some none ∧
      ∀ (p j : Nat) (block : ddhcp_block) (lease : dhcp_lease), p < n →
        bs[p]? = some block → block.state = DDHCP_OURS → j < block.subnet_len →
        lease_at block j = some lease →
        ¬ (lease.state = OFFERED ∧ lease.xid = request.xid ∧ lease.chaddr = request.chaddr)) := by
  induction n generalizing bs i with
  | zero =>
    right
    exact ⟨by cases bs <;> rfl, fun p _ _ _ hp => absurd hp (Nat.not_lt_zero p)⟩
  | succ n ih =>
    cases bs with
    | nil => simp at hn
    | cons block rest =>
      have hn2 : n ≤ rest.length := by simpa using hn
      have hv2 : ∀ b ∈ rest.take n, b.state = DDHCP_OURS →
          (block_leases b).isSome = true := by
        intro b hb
        exact hv b (by simp only [List.take_succ_cons]; exact List.mem_cons_of_mem _ hb)
      have hrest : ∀ (hskip : ∀ (j : Nat) (lease : dhcp_lease), block.state = DDHCP_OURS →
          j < block.subnet_len → lease_at block j = some lease →
          ¬ (lease.state = OFFERED ∧ lease.xid = request.xid
            ∧ lease.chaddr = request.chaddr)),
          (∃ (p j : Nat) (b : ddhcp_block) (lease : dhcp_lease),
            dhcp_hdl_request_block_loop request n rest (i + 1) = some (some (i + p, j)) ∧
            p < n + 1 ∧ (block :: rest)[p]? = some b ∧ b.state = DDHCP_OURS ∧
            j < b.subnet_len ∧ lease_at b j = some lease ∧ lease.state = OFFERED ∧
            lease.xid = request.xid ∧ lease.chaddr = request.chaddr) ∨
          (dhcp_hdl_request_block_loop request n rest (i + 1) = some none ∧
            ∀ (p j : Nat) (b : ddhcp_block) (lease : dhcp_lease), p < n + 1 →
              (block :: rest)[p]? = some b → b.state = DDHCP_OURS → j < b.subnet_len →
              lease_at b j = some lease →
              ¬ (lease.state = OFFERED ∧ lease.xid = request.xid
                ∧ lease.chaddr = request.chaddr)) := by
        intro hskip
        rcases ih rest (i + 1) hn2 hv2 with ⟨p, j, b, l, h1, h2, h3, h4⟩ | ⟨h1, h2⟩
        · left
          refine ⟨p + 1, j, b, l, ?_, by omega, by simpa using h3, h4⟩
          rw [h1]; congr 3; omega
        · right
          refine ⟨h1, ?_⟩
          intro p j b l hp hb ho hj hl
          cases p with
          | zero =>
            simp only [List.getElem?_cons_zero, Option.some.injEq] at hb
            subst hb
            exact hskip j l ho hj hl
          | succ p =>
            simp only [List.getElem?_cons_succ] at hb
            exact h2 p j b l (by omega) hb ho hj hl
      simp only [dhcp_hdl_request_block_loop]
      by_cases ho : block.state = DDHCP_OURS
      · simp only [ho, if_true]
        have hread := hv block (by simp) ho
        obtain ⟨hlen, hat⟩ := block_leases_readable block hread
        rcases dhcp_hdl_request_lease_loop_spec request block.subnet_len
            (block.addresses.getD []) 0 hlen with ⟨m, l, h1, h2, h3, h4⟩ | ⟨h1, h2⟩
        · left
          simp only [Nat.zero_add] at h1
          simp only [h1]
          exact ⟨0, m, block, l, rfl, Nat.succ_pos n, by simp, ho, h2, by rw [hat, h3], h4⟩
        · simp only [h1]
          exact hrest (fun j l _ hj hl => h2 j l hj (by rw [← hat, hl]))
      · simp only [ho, if_false]
        exact hrest (fun j l hc _ _ => absurd hc ho)

/-! ### Properties of all leases kept by the operations -/

theorem table_forall_set (P : dhcp_lease → Prop) (blocks : List ddhcp_block) (pos : Nat)
    (new_block : ddhcp_block) (h : table_forall P blocks)
    (hnew : ∀ (leases : List dhcp_lease), new_block.addresses = some leases →
      ∀ lease ∈ leases, P lease) :
    table_forall P (blocks.set pos new_block) := by
  intro block hmem leases ha lease hl
  rcases List.mem_or_eq_of_mem_set hmem with hin | heq
  · exact h block hin leases ha lease hl
  · subst heq
    exact hnew leases ha lease hl

theorem table_forall_write_lease (P : dhcp_lease → Prop) (blocks : List ddhcp_block)
    (pos i : Nat) (new_lease : dhcp_lease) (blocks1 : List ddhcp_block)
    (h : table_forall P blocks) (hw : write_lease blocks pos i new_lease = some blocks1)
    (hnew : P new_lease) : table_forall P blocks1 := by
  obtain ⟨block, leases, hb, ha, _, hbl⟩ := write_lease_inv _ _ _ _ _ hw
  rw [hbl]
  apply table_forall_set P blocks pos _ h
  intro leases1 ha1 lease hl
  simp only [Option.some.injEq] at ha1
  subst ha1
  rcases List.mem_or_eq_of_mem_set hl with hin | heq
  · exact h block (List.getElem?_mem hb) leases ha lease hin
  · rw [heq]; exact hnew

theorem table_forall_dhcp_ack (P : dhcp_lease → Prop) (now : Int) (request : dhcp_packet)
    (blocks : List ddhcp_block) (pos i : Nat) (config : ddhcp_config) (r : hdl_result)
    (h : table_forall P blocks) (hr : dhcp_ack now request blocks pos i config = some r)
    (hnew : ∀ (e : Int), P
      { chaddr := request.chaddr, xid := request.xid, state := LEASED, lease_end := e }) :
    table_forall P r.blocks := by
  obtain ⟨block, leases, _, _, _, hb, ha, hi, _, _, _, hre⟩ :=
    (dhcp_ack_iff now request blocks pos i config r).mp hr
  rw [hre]
  exact table_forall_write_lease P blocks pos i _ _ h
    (write_lease_some blocks pos i _ block leases hb ha hi) (hnew _)

theorem table_forall_dhcp_hdl_discover (P : dhcp_lease → Prop) (now : Int)
    (discover : dhcp_packet) (blocks : List ddhcp_block) (config : ddhcp_config)
    (r : hdl_result) (h : table_forall P blocks)
    (hr : dhcp_hdl_discover now discover blocks config = some r)
    (hnew : ∀ (e : Int), P
      { chaddr := discover.chaddr, xid := discover.xid, state := OFFERED, lease_end := e }) :
    table_forall P r.blocks := by
  rcases dhcp_hdl_discover_cases now discover blocks config r hr with
    ⟨hre, _⟩ | ⟨p, block, leases, i, _, _, _, _, _, hb, _, ha, hle, hi, _, _, _, _, _, _, _,
      _, hre⟩
  · rw [hre]; exact h
  · rw [hre]
    exact table_forall_write_lease P blocks p i _ _ h
      (write_lease_some blocks p i _ block leases hb ha (by omega)) (hnew _)

theorem table_forall_dhcp_hdl_request (P : dhcp_lease → Prop) (now : Int)
    (request : dhcp_packet) (blocks : List ddhcp_block) (config : ddhcp_config)
    (r : hdl_result) (h : table_forall P blocks)
    (hr : dhcp_hdl_request now request blocks config = some r)
    (hfree : P { chaddr := 0, state := FREE, xid := 0, lease_end := 0 })
    (hoff : ∀ (e : Int), P
      { chaddr := request.chaddr, xid := request.xid, state := OFFERED, lease_end := e })
    (hnew : ∀ (e : Int), P
      { chaddr := request.chaddr, xid := request.xid, state := LEASED, lease_end := e }) :
    table_forall P r.blocks := by
  unfold dhcp_hdl_request at hr
  split at hr
  · simp at hr
  · split at hr
    · simp at hr
    · split_ifs at hr with h2
      · split at hr
        · simp at hr
        · split at hr
          · simp at hr
          · split_ifs at hr with hcl ho
            · unfold dhcp_hdl_request_claimed at hr
              simp only at hr
              split at hr
              · simp at hr
              · rename_i blocks2 hw
                simp only [Option.some.injEq] at hr
                rw [← hr]
                refine table_forall_write_lease P _ _ _ _ blocks2 ?_ hw (hoff _)
                split_ifs
                · apply table_forall_set P blocks _ _ h
                  intro leases ha lease hl
                  simp only [block_alloc, Option.some.injEq] at ha
                  rw [← ha] at hl
                  rw [List.eq_of_mem_replicate hl]
                  exact hfree
                · exact h
            · split at hr
              · simp at hr
              · split_ifs at hr
                · rw [dhcp_hdl_request_nack_eq] at hr
                  simp only [Option.some.injEq] at hr
                  rw [← hr]; exact h
                · exact table_forall_dhcp_ack P now request blocks _ _ config r h hr hnew
            · simp only [Option.some.injEq] at hr
              rw [← hr]; exact h
      · rw [dhcp_hdl_request_nack_eq] at hr
        simp only [Option.some.injEq] at hr
        rw [← hr]; exact h
  · split at hr
    · simp at hr
    · rw [dhcp_hdl_request_nack_eq] at hr
      simp only [Option.some.injEq] at hr
      rw [← hr]; exact h
    · exact table_forall_dhcp_ack P now request blocks _ _ config r h hr hnew

theorem block_forall_release (P : dhcp_lease → Prop) (block block1 : ddhcp_block) (i : Nat)
    (h : ∀ (leases : List dhcp_lease), block.addresses = some leases →
      ∀ lease ∈ leases, P lease)
    (hr : _dhcp_release_lease block i = some block1)
    (hrel : ∀ (lease : dhcp_lease), P (released lease)) :
    ∀ (leases : List dhcp_lease), block1.addresses = some leases →
      ∀ lease ∈ leases, P lease := by
  unfold _dhcp_release_lease at hr
  split at hr
  · simp at hr
  · rename_i leases0 ha0
    split at hr
    · simp at hr
    · simp only [Option.some.injEq] at hr
      intro leases ha lease hl
      rw [← hr] at ha
      simp only [Option.some.injEq] at ha
      rw [← ha] at hl
      rcases List.mem_or_eq_of_mem_set hl with hin | heq
      · exact h leases0 ha0 lease hin
      · rw [heq]; exact hrel _

theorem table_forall_dhcp_hdl_release (P : dhcp_lease → Prop) (packet : dhcp_packet)
    (blocks blocks1 : List ddhcp_block) (config : ddhcp_config) (h : table_forall P blocks)
    (hr : dhcp_hdl_release packet blocks config = some blocks1)
    (hrel : ∀ (lease : dhcp_lease), P (released lease)) : table_forall P blocks1 := by
  unfold dhcp_hdl_release at hr
  split at hr
  · simp at hr
  · split_ifs at hr
    · split at hr
      · simp at hr
      · split at hr
        · simp at hr
        · rename_i lease_block hb
          split at hr
          · simp at hr
          · split_ifs at hr
            · split at hr
              · simp at hr
              · rename_i block1 hrl
                simp only [Option.some.injEq] at hr
                rw [← hr]
                exact table_forall_set P blocks _ _ h
                  (block_forall_release P lease_block block1 _
                    (h lease_block (List.getElem?_mem hb)) hrl hrel)
            · simp only [Option.some.injEq] at hr
              rw [← hr]; exact h
    · simp only [Option.some.injEq] at hr
      rw [← hr]; exact h

theorem table_forall_dhcp_release_lease (P : dhcp_lease → Prop) (address : Nat)
    (blocks blocks1 : List ddhcp_block) (config : ddhcp_config) (h : table_forall P blocks)
    (hr : dhcp_release_lease address blocks config = some blocks1)
    (hrel : ∀ (lease : dhcp_lease), P (released lease)) : table_forall P blocks1 := by
  unfold dhcp_release_lease at hr
  split at hr
  · simp at hr
  · split_ifs at hr
    · split at hr
      · simp at hr
      · split at hr
        · simp at hr
        · rename_i lease_block hb
          split at hr
          · simp at hr
          · rename_i block1 hrl
            simp only [Option.some.injEq] at hr
            rw [← hr]
            exact table_forall_set P blocks _ _ h
              (block_forall_release P lease_block block1 _
                (h lease_block (List.getElem?_mem hb)) hrl hrel)
    · simp only [Option.some.injEq] at hr
      rw [← hr]; exact h

theorem block_forall_dhcp_check_timeouts (P : dhcp_lease → Prop) (now : Int)
    (block : ddhcp_block) (r : Int × ddhcp_block)
    (h : ∀ (leases : List dhcp_lease), block.addresses = some leases →
      ∀ lease ∈ leases, P lease)
    (hr : dhcp_check_timeouts now block = some r)
    (hrel : ∀ (lease : dhcp_lease), P (released lease)) :
    ∀ (leases : List dhcp_lease), r.2.addresses = some leases →
      ∀ lease ∈ leases, P lease := by
  unfold dhcp_check_timeouts at hr
  split at hr
  · split_ifs at hr
    simp only [Option.some.injEq] at hr
    rw [← hr]; exact h
  · rename_i leases0 ha0
    split_ifs at hr
    simp only [Option.some.injEq] at hr
    intro leases ha lease hl
    rw [← hr] at ha
    simp only [Option.some.injEq] at ha
    rw [← ha, List.mem_append, (dhcp_check_timeouts_loop_eq now _ 0).1, List.mem_map] at hl
    rcases hl with ⟨l0, hl0, heq⟩ | hin
    · split_ifs at heq
      · rw [← heq]; exact hrel _
      · rw [← heq]; exact h leases0 ha0 l0 (List.mem_of_mem_take hl0)
    · exact h leases0 ha0 lease (List.mem_of_mem_drop hin)

theorem table_forall_dhcp_rhdl_request (P : dhcp_lease → Prop) (now : Int) (address : Nat)
    (blocks : List ddhcp_block) (config : ddhcp_config) (r : Int × List ddhcp_block)
    (h : table_forall P blocks)
    (hr : dhcp_rhdl_request now address blocks config = some r)
    (hend : ∀ (lease : dhcp_lease) (e : Int), P lease → P { lease with lease_end := e }) :
    table_forall P r.2 := by
  unfold dhcp_rhdl_request at hr
  split at hr
  · simp at hr
  · split_ifs at hr
    · split at hr
      · simp at hr
      · split at hr
        · simp at hr
        · rename_i lease hl
          split at hr
          · simp at hr
          · rename_i blocks1 hw
            simp only [Option.some.injEq] at hr
            rw [← hr]
            refine table_forall_write_lease P blocks _ _ _ blocks1 h hw (hend lease _ ?_)
            obtain ⟨block, leases, hb, ha, _, _⟩ := write_lease_inv _ _ _ _ _ hw
            simp only [hb, Option.some_bind, lease_at, ha] at hl
            exact h block (List.getElem?_mem hb) leases ha lease (List.getElem?_mem hl)
    · simp only [Option.some.injEq] at hr
      rw [← hr]; exact h
    · simp only [Option.some.injEq] at hr
      rw [← hr]; exact h

theorem table_forall_dhcp_rhdl_ack (P : dhcp_lease → Prop) (now : Int)
    (request : dhcp_packet) (blocks : List ddhcp_block) (config : ddhcp_config)
    (r : hdl_result) (h : table_forall P blocks)
    (hr : dhcp_rhdl_ack now request blocks config = some r)
    (hnew : ∀ (e : Int), P
      { chaddr := request.chaddr, xid := request.xid, state := LEASED, lease_end := e }) :
    table_forall P r.blocks := by
  unfold dhcp_rhdl_ack at hr
  split at hr
  · simp at hr
  · simp at hr
  · split at hr
    · simp at hr
    · split_ifs at hr
      · simp only [Option.some.injEq] at hr
        rw [← hr]; exact h
      · split at hr
        · simp at hr
        · exact table_forall_dhcp_ack P now request blocks _ _ config r h hr hnew

/-- One operation keeps a property of all leases that released leases and zeroed FREE
leases have, that does not depend on `lease_end`, and that a lease has which is OFFERED
or LEASED with the chaddr and xid of the packet handled. -/
theorem table_forall_core_step (P : dhcp_lease → Prop) (config : ddhcp_config)
    (st st1 : core_state) (op : core_op) (h : table_forall P st.blocks)
    (hstep : core_step config st op = some st1)
    (hrel : ∀ (lease : dhcp_lease), P (released lease))
    (hfree : P { chaddr := 0, state := FREE, xid := 0, lease_end := 0 })
    (hend : ∀ (lease : dhcp_lease) (e : Int), P lease → P { lease with lease_end := e })
    (hpkt : ∀ (packet : dhcp_packet), op_packet op = some packet →
      ∀ (state : dhcp_lease_state) (e : Int), state ≠ FREE → P
        { chaddr := packet.chaddr, xid := packet.xid, state := state, lease_end := e }) :
    table_forall P st1.blocks := by
  cases op with
  | hdl_discover now packet =>
    simp only [core_step] at hstep
    split at hstep
    · simp at hstep
    · rename_i r hr
      simp only [Option.some.injEq] at hstep
      rw [← hstep]
      exact table_forall_dhcp_hdl_discover P now packet st.blocks _ r h hr
        (fun e => hpkt packet rfl OFFERED e (by decide))
  | hdl_request now packet =>
    simp only [core_step] at hstep
    split at hstep
    · simp at hstep
    · rename_i r hr
      simp only [Option.some.injEq] at hstep
      rw [← hstep]
      exact table_forall_dhcp_hdl_request P now packet st.blocks _ r h hr hfree
        (fun e => hpkt packet rfl OFFERED e (by decide))
        (fun e => hpkt packet rfl LEASED e (by decide))
  | hdl_release packet =>
    simp only [core_step] at hstep
    split at hstep
    · simp at hstep
    · rename_i blocks1 hr
      simp only [Option.some.injEq] at hstep
      rw [← hstep]
      exact table_forall_dhcp_hdl_release P packet st.blocks blocks1 config h hr hrel
  | release_lease address =>
    simp only [core_step] at hstep
    split at hstep
    · simp at hstep
    · rename_i blocks1 hr
      simp only [Option.some.injEq] at hstep
      rw [← hstep]
      exact table_forall_dhcp_release_lease P address st.blocks blocks1 config h hr hrel
  | check_timeouts now pos =>
    simp only [core_step] at hstep
    split at hstep
    · simp at hstep
    · rename_i block hb
      split at hstep
      · simp at hstep
      · rename_i r hr
        simp only [Option.some.injEq] at hstep
        rw [← hstep]
        exact table_forall_set P st.blocks pos r.2 h
          (block_forall_dhcp_check_timeouts P now block r
            (h block (List.getElem?_mem hb)) hr hrel)
  | rhdl_request now address =>
    simp only [core_step] at hstep
    split at hstep
    · simp at hstep
    · rename_i r hr
      simp only [Option.some.injEq] at hstep
      rw [← hstep]
      exact table_forall_dhcp_rhdl_request P now address st.blocks config r h hr hend
  | rhdl_ack now packet =>
    simp only [core_step] at hstep
    split at hstep
    · simp at hstep
    · rename_i r hr
      simp only [Option.some.injEq] at hstep
      rw [← hstep]
      exact table_forall_dhcp_rhdl_ack P now packet st.blocks _ r h hr
        (fun e => hpkt packet rfl LEASED e (by decide))

theorem table_forall_core_run (P : dhcp_lease → Prop) (config : ddhcp_config)
    (ops : List core_op) (st st1 : core_state) (h : table_forall P st.blocks)
    (hrun : core_run config ops st = some st1)
    (hrel : ∀ (lease : dhcp_lease), P (released lease))
    (hfree : P { chaddr := 0, state := FREE, xid := 0, lease_end := 0 })
    (hend : ∀ (lease : dhcp_lease) (e : Int), P lease → P { lease with lease_end := e })
    (hpkt : ∀ op ∈ ops, ∀ (packet : dhcp_packet), op_packet op = some packet →
      ∀ (state : dhcp_lease_state) (e : Int), state ≠ FREE → P
        { chaddr := packet.chaddr, xid := packet.xid, state := state, lease_end := e }) :
    table_forall P st1.blocks := by
  induction ops generalizing st with
  | nil =>
    simp only [core_run, Option.some.injEq] at hrun
    rw [← hrun]; exact h
  | cons op rest ih =>
    simp only [core_run] at hrun
    split at hrun
    · simp at hrun
    · rename_i st2 hstep
      exact ih st2
        (table_forall_core_step P config st st2 op h hstep hrel hfree hend
          (hpkt op (List.mem_cons_self _ _)))
        hrun (fun o ho => hpkt o (List.mem_cons_of_mem _ ho))

theorem table_forall_of_getD (P : dhcp_lease → Prop) (blocks : List ddhcp_block)
    (h : ∀ block ∈ blocks, ∀ lease ∈ block.addresses.getD [], P lease) :
    table_forall P blocks := by
  intro block hb leases ha lease hl
  have := h block hb lease
  rw [ha] at this
  exact this hl

/-! ### The option store -/

theorem find_in_option_store_replace_ne (store : List dhcp_option) (option : dhcp_option)
    (code : Nat) (hne : option.code ≠ code) :
    find_in_option_store (option_store_replace option store) code
      = find_in_option_store store code := by
  induction store with
  | nil => rfl
  | cons current rest ih =>
    unfold find_in_option_store at ih ⊢
    simp only [option_store_replace]
    by_cases hc : current.code = option.code
    · have hcc : ¬ current.code = code := fun h => hne (hc ▸ h)
      simp [hc, List.find?_cons, hne, hcc]
    · simp only [hc, if_false, List.find?_cons]
      cases hcode : (current.code == code)
      · simp only [ih]
      · rfl

theorem find_in_option_store_set_ne (store : List dhcp_option) (option : dhcp_option)
    (code : Nat) (hne : option.code ≠ code) :
    find_in_option_store (set_option_in_store store option) code
      = find_in_option_store store code := by
  unfold set_option_in_store
  split
  · exact find_in_option_store_replace_ne store option code hne
  · unfold find_in_option_store
    simp [List.find?_append, hne]

theorem find_in_option_store_set_absent (store : List dhcp_option) (option : dhcp_option)
    (h : find_in_option_store store option.code = none) :
    find_in_option_store (set_option_in_store store option) option.code = some option := by
  unfold set_option_in_store
  rw [h]
  unfold find_in_option_store at h ⊢
  simp [List.find?_append, h]

/-- One default of `dhcp_options_init`: an option of another code is found as before. -/
theorem find_in_option_store_default_ne (store : List dhcp_option) (option : dhcp_option)
    (code : Nat) (hne : option.code ≠ code) :
    find_in_option_store
        (if has_in_option_store store option.code then store
          else set_option_in_store store option) code
      = find_in_option_store store code := by
  split_ifs
  · rfl
  · exact find_in_option_store_set_ne store option code hne

/-- One default of `dhcp_options_init`: an option that was absent is the one added. -/
theorem find_in_option_store_default_absent (store : List dhcp_option)
    (option : dhcp_option) (h : find_in_option_store store option.code = none) :
    find_in_option_store
        (if has_in_option_store store option.code then store
          else set_option_in_store store option) option.code
      = some option := by
  have hh : has_in_option_store store option.code = false := by
    simp [has_in_option_store, h]
  simp only [hh, Bool.false_eq_true, if_false]
  exact find_in_option_store_set_absent store option h

theorem find_in_option_store_default_ne_code (store : List dhcp_option)
    (option : dhcp_option) (c code : Nat) (hc : option.code = c) (hne : c ≠ code) :
    find_in_option_store
        (if has_in_option_store store c then store else set_option_in_store store option) code
      = find_in_option_store store code := by
  subst hc
  exact find_in_option_store_default_ne store option code hne

theorem find_in_option_store_default_absent_code (store : List dhcp_option)
    (option : dhcp_option) (c : Nat) (hc : option.code = c)
    (h : find_in_option_store store c = none) :
    find_in_option_store
        (if has_in_option_store store c then store else set_option_in_store store option) c
      = some option := by
  subst hc
  exact find_in_option_store_default_absent store option h

/-- The mask bytes `dhcp_options_init` computes are the bytes of the spec, and they form
the 32-bit number with the top `L` bits set. -/
theorem subnet_mask_bytes : ∀ (L : Nat), L < 33 →
    (256 - (256 >>> (min (max ((L : Int) - 0) 0) 8).toNat)) % 256
      = spec_subnet_mask_byte L 0 ∧
    (256 - (256 >>> (min (max ((L : Int) - 8) 0) 8).toNat)) % 256
      = spec_subnet_mask_byte L 1 ∧
    (256 - (256 >>> (min (max ((L : Int) - 16) 0) 8).toNat)) % 256
      = spec_subnet_mask_byte L 2 ∧
    (256 - (256 >>> (min (max ((L : Int) - 24) 0) 8).toNat)) % 256
      = spec_subnet_mask_byte L 3 ∧
    spec_subnet_mask_byte L 0 * 16777216 + spec_subnet_mask_byte L 1 * 65536
      + spec_subnet_mask_byte L 2 * 256 + spec_subnet_mask_byte L 3
      = 4294967296 - 2 ^ (32 - L) := by
  decide

/-- The low bits `dhcp_options_init` sets in the broadcast bytes are those of the spec,
and they are the complement within 8 bits of the mask bytes. -/
theorem broadcast_low_bits : ∀ (L : Nat), L < 33 →
    ((1 <<< (min (max (8 - (L : Int)) 0) 8).toNat) - 1
      = (1 <<< (min (max (8 - ((L : Int) - 8 * ((0 : Nat) : Int))) 0) 8).toNat) - 1 ∧
     (1 <<< (min (max (16 - (L : Int)) 0) 8).toNat) - 1
      = (1 <<< (min (max (8 - ((L : Int) - 8 * ((1 : Nat) : Int))) 0) 8).toNat) - 1 ∧
     (1 <<< (min (max (24 - (L : Int)) 0) 8).toNat) - 1
      = (1 <<< (min (max (8 - ((L : Int) - 8 * ((2 : Nat) : Int))) 0) 8).toNat) - 1 ∧
     (1 <<< (min (max (32 - (L : Int)) 0) 8).toNat) - 1
      = (1 <<< (min (max (8 - ((L : Int) - 8 * ((3 : Nat) : Int))) 0) 8).toNat) - 1) ∧
    ∀ (k : Nat), k < 4 →
      (1 <<< (min (max (8 - ((L : Int) - 8 * (k : Int))) 0) 8).toNat) - 1
        = 255 - spec_subnet_mask_byte L k := by
  decide

theorem low_bits_lt (x : Int) : (1 <<< (min (max x 0) 8).toNat) - 1 < 2 ^ 8 := by
  have h : (min (max x 0) 8).toNat ≤ 8 := by omega
  have h2 : 2 ^ (min (max x 0) 8).toNat ≤ 2 ^ 8 := Nat.pow_le_pow_right (by decide) h
  rw [Nat.one_shiftLeft]
  omega

theorem lor_low_bits_mod (a : Nat) (x : Int) :
    ((a % 256) ||| ((1 <<< (min (max x 0) 8).toNat) - 1)) % 256
      = (a % 256) ||| ((1 <<< (min (max x 0) 8).toNat) - 1) := by
  apply Nat.mod_eq_of_lt
  exact Nat.or_lt_two_pow (n := 8) (Nat.mod_lt _ (by decide)) (low_bits_lt x)

/-- The SUBNET_MASK option `dhcp_options_init` adds to a store without one. -/
theorem dhcp_options_init_subnet_mask_aux (config : ddhcp_config)
    (hL : config.prefix_len ≤ 32)
    (habs : find_in_option_store config.options DHCP_CODE_SUBNET_MASK = none) :
    find_in_option_store (dhcp_options_init config).options DHCP_CODE_SUBNET_MASK
      = some { code := 1, len := 4,
               payload := some [spec_subnet_mask_byte config.prefix_len 0,
                                spec_subnet_mask_byte config.prefix_len 1,
                                spec_subnet_mask_byte config.prefix_len 2,
                                spec_subnet_mask_byte config.prefix_len 3] } := by
  obtain ⟨h0, h1, h2, h3, _⟩ := subnet_mask_bytes config.prefix_len (by omega)
  have hmod : config.prefix_len % 256 = config.prefix_len := Nat.mod_eq_of_lt (by omega)
  simp only [dhcp_options_init, hmod]
  rw [find_in_option_store_default_ne_code _ _ DHCP_CODE_SERVER_IDENTIFIER _ rfl (by decide),
    find_in_option_store_default_ne_code _ _ DHCP_CODE_BROADCAST_ADDRESS _ rfl (by decide),
    find_in_option_store_default_ne_code _ _ DHCP_CODE_TIME_OFFSET _ rfl (by decide),
    find_in_option_store_default_absent_code _ _ DHCP_CODE_SUBNET_MASK rfl habs,
    h0, h1, h2, h3]
  rfl

/-- The BROADCAST_ADDRESS option `dhcp_options_init` adds to a store without one. -/
theorem dhcp_options_init_broadcast_aux (config : ddhcp_config)
    (hL : config.prefix_len ≤ 32)
    (habs : find_in_option_store config.options DHCP_CODE_BROADCAST_ADDRESS = none) :
    find_in_option_store (dhcp_options_init config).options DHCP_CODE_BROADCAST_ADDRESS
      = some { code := 28, len := 4,
               payload := some
                 [spec_broadcast_byte (prefix_byte config 0) config.prefix_len 0,
                  spec_broadcast_byte (prefix_byte config 1) config.prefix_len 1,
                  spec_broadcast_byte (prefix_byte config 2) config.prefix_len 2,
                  spec_broadcast_byte (prefix_byte config 3) config.prefix_len 3] } := by
  obtain ⟨⟨h0, h1, h2, h3⟩, _⟩ := broadcast_low_bits config.prefix_len (by omega)
  have hmod : config.prefix_len % 256 = config.prefix_len := Nat.mod_eq_of_lt (by omega)
  simp only [dhcp_options_init, hmod]
  rw [find_in_option_store_default_ne_code _ _ DHCP_CODE_SERVER_IDENTIFIER _ rfl (by decide),
    find_in_option_store_default_absent_code _ _ DHCP_CODE_BROADCAST_ADDRESS rfl]
  · rw [lor_low_bits_mod, lor_low_bits_mod, lor_low_bits_mod, lor_low_bits_mod,
      h0, h1, h2, h3]
    simp [spec_broadcast_byte, prefix_byte, DHCP_CODE_BROADCAST_ADDRESS]
  · rw [find_in_option_store_default_ne_code _ _ DHCP_CODE_TIME_OFFSET _ rfl (by decide),
      find_in_option_store_default_ne_code _ _ DHCP_CODE_SUBNET_MASK _ rfl (by decide), habs]

/-- The entry `set_option_in_store` overwrites keeps its code: the codes of the store are
the same, in the same order. -/
theorem option_store_replace_codes (option : dhcp_option) (store : List dhcp_option) :
    (option_store_replace option store).map (fun entry => entry.code)
      = store.map (fun entry => entry.code) := by
  induction store with
  | nil => rfl
  | cons current rest ih =>
    simp only [option_store_replace]
    by_cases hc : current.code = option.code
    · simp [hc]
    · simp only [hc, if_false, List.map_cons, ih]

/-- The entry found for the code of the option after the overwrite is the entry found
before, with the `len` and `payload` of the option. -/
theorem find_in_option_store_replace_eq (option current : dhcp_option)
    (store : List dhcp_option)
    (h : find_in_option_store store option.code = some current) :
    find_in_option_store (option_store_replace option store) option.code
      = some { current with len := option.len, payload := option.payload } := by
  induction store with
  | nil => simp [find_in_option_store] at h
  | cons first rest ih =>
    unfold find_in_option_store at ih h ⊢
    simp only [option_store_replace]
    by_cases hc : first.code = option.code
    · simp only [hc, if_true, List.find?_cons, beq_self_eq_true] at h ⊢
      simp only [Option.some.injEq] at h
      rw [← h, hc]
    · have hb : (first.code == option.code) = false := by simpa using hc
      simp only [hc, if_false, List.find?_cons, hb] at h ⊢
      exact ih h

theorem find_in_option_store_none_not_mem (store : List dhcp_option) (code : Nat)
    (h : find_in_option_store store code = none) :
    code ∉ store.map (fun entry => entry.code) := by
  unfold find_in_option_store at h
  rw [List.find?_eq_none] at h
  intro hmem
  obtain ⟨entry, he, hc⟩ := List.mem_map.mp hmem
  exact h entry he (by simpa using hc)

/-! ### `set_option` -/

/-- The loop of `set_option` from slot `n - 1` down writes into slot `i` when that slot
has the code or code 0 and no slot between `i` and `n` has. -/
theorem dhcp_set_option_loop_hit (options : List dhcp_option) (code payload_len : Nat)
    (payload : Option (List Nat)) (i : Nat) (option : dhcp_option)
    (hopt : options[i]? = some option) (hmatch : option.code = code ∨ option.code = 0)
    (n : Nat) (hn : n ≤ options.length) (hi : i < n)
    (hlater : ∀ j o, i < j → j < n → options[j]? = some o → o.code ≠ code ∧ o.code ≠ 0) :
    dhcp_set_option_loop options code payload_len payload n
      = some (0, options.set i { code := code, len := payload_len, payload := payload }) := by
  induction n with
  | zero => omega
  | succ m ih =>
    have hm : m < options.length := hn
    by_cases him : i = m
    · subst him
      simp only [dhcp_set_option_loop, hopt, hmatch, if_true]
    · have hlt : i < m := by omega
      simp only [dhcp_set_option_loop, List.getElem?_eq_getElem hm]
      have hno := hlater m options[m] hlt (Nat.lt_succ_self m) (List.getElem?_eq_getElem hm)
      rw [if_neg (by rintro (h | h); exact hno.1 h; exact hno.2 h)]
      exact ih (Nat.le_of_lt hm) hlt
        (fun j o h1 h2 h3 => hlater j o h1 (Nat.lt_succ_of_lt h2) h3)

/-- The loop of `set_option` fails, leaving the array as it is, when none of the slots
below `n` has the code or code 0. -/
theorem dhcp_set_option_loop_miss (options : List dhcp_option) (code payload_len : Nat)
    (payload : Option (List Nat)) (n : Nat) (hn : n ≤ options.length)
    (hnone : ∀ j o, j < n → options[j]? = some o → o.code ≠ code ∧ o.code ≠ 0) :
    dhcp_set_option_loop options code payload_len payload n = some (1, options) := by
  induction n with
  | zero => rfl
  | succ m ih =>
    have hm : m < options.length := hn
    simp only [dhcp_set_option_loop, List.getElem?_eq_getElem hm]
    have hno := hnone m options[m] (Nat.lt_succ_self m) (List.getElem?_eq_getElem hm)
    rw [if_neg (by rintro (h | h); exact hno.1 h; exact hno.2 h)]
    exact ih (Nat.le_of_lt hm) (fun j o h1 h2 => hnone j o (Nat.lt_succ_of_lt h1) h2)

/-- The loop of `set_option` returns 0 or 1, and 1 only when none of the slots below `n`
has the code or code 0. -/
theorem dhcp_set_option_loop_ret (options : List dhcp_option) (code payload_len : Nat)
    (payload : Option (List Nat)) (n : Nat) (hn : n ≤ options.length) :
    ∃ r, dhcp_set_option_loop options code payload_len payload n = some r ∧
      (r.1 = 0 ∨ r.1 = 1) ∧
      (r.1 = 1 → ∀ j o, j < n → options[j]? = some o → o.code ≠ code ∧ o.code ≠ 0) := by
  induction n with
  | zero =>
    refine ⟨(1, options), rfl, Or.inr rfl, ?_⟩
    intro _ j o hj
    omega
  | succ m ih =>
    have hm : m < options.length := hn
    simp only [dhcp_set_option_loop, List.getElem?_eq_getElem hm]
    by_cases hc : options[m].code = code ∨ options[m].code = 0
    · rw [if_pos hc]
      refine ⟨_, rfl, Or.inl rfl, ?_⟩
      intro h
      simp at h
    · rw [if_neg hc]
      obtain ⟨r, hr, h01, hall⟩ := ih (Nat.le_of_lt hm)
      refine ⟨r, hr, h01, ?_⟩
      intro h1 j o hj ho
      by_cases hjm : j = m
      · subst hjm
        rw [List.getElem?_eq_getElem hm, Option.some.injEq] at ho
        subst ho
        exact ⟨fun h => hc (Or.inl h), fun h => hc (Or.inr h)⟩
      · exact hall h1 j o (by omega) ho

/-! ### `fill_options` -/

/-- The loop of `fill_options` on an array whose first `num_found_options` slots are
`front` and whose other slots are empty, at least as many as codes are visited: the
options the store holds for the codes visited follow `front`, in the order of the codes. -/
theorem fill_options_loop_eq (option_store : List dhcp_option) (codes : List Nat)
    (front : List dhcp_option) (k : Nat) (hk : codes.length ≤ k) :
    fill_options_loop option_store codes (front ++ List.replicate k empty_option)
        front.length
      = (front ++ codes.filterMap (find_in_option_store option_store)
          ++ List.replicate
            (k - (codes.filterMap (find_in_option_store option_store)).length) empty_option,
        front.length + (codes.filterMap (find_in_option_store option_store)).length) := by
  induction codes generalizing front k with
  | nil => simp [fill_options_loop]
  | cons code rest ih =>
    simp only [List.length_cons] at hk
    obtain ⟨k1, rfl⟩ : ∃ k1, k = k1 + 1 := ⟨k - 1, by omega⟩
    simp only [fill_options_loop]
    cases hf : find_in_option_store option_store code with
    | none =>
      simp only [List.filterMap_cons, hf]
      exact ih front (k1 + 1) (by omega)
    | some option =>
      simp only [List.filterMap_cons, hf, List.length_cons]
      have hset : (front ++ List.replicate (k1 + 1) empty_option).set front.length option
          = (front ++ [option]) ++ List.replicate k1 empty_option := by
        rw [List.set_append_right _ _ (Nat.le_refl _)]
        simp [List.replicate_succ]
      have hlen : front.length + 1 = (front ++ [option]).length := by simp
      rw [hset, hlen, ih (front ++ [option]) k1 (by omega)]
      have hk2 : k1 + 1 - ((List.filterMap (find_in_option_store option_store) rest).length + 1)
          = k1 - (List.filterMap (find_in_option_store option_store) rest).length := by
        omega
      simp only [hk2, List.append_assoc, List.singleton_append, List.length_append,
        List.length_singleton, Prod.mk.injEq, true_and]
      omega

/-- What `fill_options` does for a parameter request list of `n` entries (1 to 127) that
can be read: the codes it looks up are the entries from index `additional` on; the array
has `n + additional` slots, the options found in front and the other slots empty; the
value returned is the number of options found plus `additional`. -/
theorem fill_options_eq (options : List dhcp_option) (len : Nat)
    (option_store : List dhcp_option) (additional n : Nat) (bytes : List Nat)
    (hprl : find_option_parameter_request_list options len = ((n : Int), some bytes))
    (h0 : 0 < n) (h128 : n < 128) (hbytes : n ≤ bytes.length) :
    fill_options options len option_store additional
      = some
        ((((((bytes.take n).drop additional).filterMap
            (find_in_option_store option_store)).length + additional : Nat) : Int),
          ((bytes.take n).drop additional).filterMap (find_in_option_store option_store)
            ++ List.replicate (n + additional - (((bytes.take n).drop additional).filterMap
                (find_in_option_store option_store)).length) empty_option) := by
  have hint : to_int8 (n : Int) = (n : Int) := by
    unfold to_int8
    omega
  unfold fill_options
  simp only [hprl, hint]
  have hn0 : ¬ ((n : Int) = 0) := by omega
  rw [if_neg hn0]
  have hcast : ((n : Int) + (additional : Int)).toNat = n + additional := by omega
  by_cases ha : (n : Int) ≤ (additional : Int)
  · have hdrop : (bytes.take n).drop additional = [] := by
      apply List.drop_eq_nil_of_le
      simp only [List.length_take]
      omega
    simp only [ha, if_true, hdrop, List.filterMap_nil, List.length_nil, List.nil_append,
      hcast, Nat.zero_add, Nat.sub_zero]
    rfl
  · have hlt : ¬ bytes.length < (n : Int).toNat := by
      simp only [Int.toNat_ofNat]
      omega
    simp only [ha, if_false, hlt, hcast, Int.toNat_ofNat]
    have hloop := fill_options_loop_eq option_store ((bytes.take n).drop additional) []
      (n + additional) (by simp only [List.length_drop, List.length_take]; omega)
    simp only [List.nil_append, List.length_nil, Nat.zero_add] at hloop
    have hempty : ({ code := 0, len := 0, payload := none } : dhcp_option) = empty_option :=
      rfl
    rw [hempty, hloop]
    have hlt2 : ¬ bytes.length < n := by omega
    simp only [hlt2, if_false, Nat.cast_add]

/-! ## The claims -/

/-- C7: when no OURS block of the table has a FREE lease, `dhcp_hdl_discover` returns the
no-capacity result 2, sends no reply and leaves the block table, hence every lease of
every block, as it was. -/
theorem dhcp_hdl_discover_no_capacity (now : Int) (discover : dhcp_packet)
    (blocks : List ddhcp_block) (config : ddhcp_config)
    (hv : valid_table blocks config)
    (hfull : ∀ block ∈ blocks.take config.number_of_blocks,
      block.state = DDHCP_OURS → ¬ block_has_free block) :
    dhcp_hdl_discover now discover blocks config
      = some { ret := 2, blocks := blocks, dhcp_packet_cache := config.dhcp_packet_cache,
               client_out := [], peer_out := [] } := by
  obtain ⟨hN, hread⟩ := hv
  obtain ⟨s, hloop⟩ := dhcp_hdl_discover_loop_defined (blocks.take config.number_of_blocks) 0
    { lease := none, lease_ratio := (config.block_size : Int) + 1 } hread
  obtain ⟨_, _, hsel⟩ := dhcp_hdl_discover_loop_spec _ _ _ _ hloop
  rcases hsel with hs | ⟨q, block, n, index, hq, ho, hn, hp, _⟩
  · subst hs
    unfold dhcp_hdl_discover
    simp only [Nat.not_lt.mpr hN, if_false, hloop]
  · exact absurd ((dhcp_num_free_pos_iff block n hn).mp hp)
      (hfull block (List.getElem?_mem hq) ho)

/-- C5: on a readable block table in which no block has more leases than `block_size` and
some OURS block has a FREE lease, `dhcp_hdl_discover` (for a DISCOVER whose request list
can be served) offers a lease of a block that is OURS and whose free count is positive
and at most the free count of every OURS block with a positive free count. -/
theorem dhcp_hdl_discover_best_fit (now : Int) (discover : dhcp_packet)
    (blocks : List ddhcp_block) (config : ddhcp_config)
    (hv : valid_table blocks config) (hprl : prl_readable discover)
    (hlen : ∀ block ∈ blocks, block.subnet_len ≤ config.block_size)
    (hfree : ∃ block ∈ blocks.take config.number_of_blocks,
      block.state = DDHCP_OURS ∧ block_has_free block) :
    ∃ (r : hdl_result) (p i n : Nat) (block : ddhcp_block) (packet : dhcp_packet),
      dhcp_hdl_discover now discover blocks config = some r ∧ r.ret = 0 ∧
      r.client_out = [{ kind := reply_kind.OFFER, packet := packet }] ∧
      p < config.number_of_blocks ∧ blocks[p]? = some block ∧
      block.state = DDHCP_OURS ∧
      packet.yiaddr = addr_add block.subnet (i : Int) ∧
      table_lease r.blocks p i
        = some { chaddr := discover.chaddr, xid := discover.xid, state := OFFERED,
                 lease_end := now + (DHCP_OFFER_TIMEOUT : Int) } ∧
      dhcp_num_free block = some n ∧ 0 < n ∧
      ∀ (q : Nat) (other : ddhcp_block) (m : Nat), q < config.number_of_blocks →
        blocks[q]? = some other → other.state = DDHCP_OURS →
        dhcp_num_free other = some m → 0 < m → n ≤ m := by
  obtain ⟨r, hr⟩ := dhcp_hdl_discover_defined now discover blocks config hv hprl
  rcases dhcp_hdl_discover_cases now discover blocks config r hr with
    ⟨_, hnone⟩ | ⟨p, block, leases, i, lease, n, ol, opts, hp, hb, ho, ha, hle, hi, hli, hfr,
      hlow, hn, hn0, hns, hnB, hmin, hre⟩
  · exfalso
    obtain ⟨block, hmem, ho, hf⟩ := hfree
    obtain ⟨q, hq⟩ := List.getElem?_of_mem hmem
    obtain ⟨hqN, hqb⟩ := (getElem?_take_some _ _ _ _).mp hq
    obtain ⟨n, hn⟩ := dhcp_num_free_defined block (hv.2 block hmem ho)
    have hpos := (dhcp_num_free_pos_iff block n hn).mpr hf
    have h1 := hnone q block n hqN hqb ho hn hpos
    have h2 := hlen block (List.getElem?_mem hqb)
    obtain ⟨_, _, _, _, _, _, _, _, hns⟩ :=
      dhcp_get_free_lease_spec block
        ((dhcp_get_free_lease_loop ((block_leases block).getD []) 0).getD block.subnet_len) n hn
        hpos (by
          obtain ⟨ls, hls⟩ := Option.isSome_iff_exists.mp (hv.2 block hmem ho)
          simp only [dhcp_get_free_lease, hls, Option.getD_some])
    omega
  · refine ⟨r, p, i, n, block, _, hr, by rw [hre], by rw [hre], hp, hb, ho, rfl, ?_, hn, hn0,
      hmin⟩
    rw [hre]
    simp only
    rw [table_lease_set blocks p i block leases _ hb ha (by omega)]
    simp

/-- C6: when `dhcp_hdl_discover` at time `now` sends an OFFER, the offer comes from an
OURS block `p`: the lease offered is the lowest-indexed FREE lease `i` of that block,
afterwards it is OFFERED with the chaddr and xid of the DISCOVER and
`lease_end = now + DHCP_OFFER_TIMEOUT`, the OFFER carries `yiaddr = subnet + i`, and every
other lease of every block is unchanged. -/
theorem dhcp_hdl_discover_offer_effect (now : Int) (discover : dhcp_packet)
    (blocks : List ddhcp_block) (config : ddhcp_config) (r : hdl_result)
    (packet : dhcp_packet)
    (h : dhcp_hdl_discover now discover blocks config = some r)
    (hoffer : r.client_out = [{ kind := reply_kind.OFFER, packet := packet }]) :
    ∃ (p i : Nat) (block : ddhcp_block) (leases : List dhcp_lease) (lease : dhcp_lease),
      blocks[p]? = some block ∧ block.state = DDHCP_OURS ∧
      block.addresses = some leases ∧ i < block.subnet_len ∧
      leases[i]? = some lease ∧ lease.state = FREE ∧
      (∀ (m : Nat) (l : dhcp_lease), m < i → leases[m]? = some l → l.state ≠ FREE) ∧
      table_lease r.blocks p i
        = some { chaddr := discover.chaddr, xid := discover.xid, state := OFFERED,
                 lease_end := now + (DHCP_OFFER_TIMEOUT : Int) } ∧
      packet.yiaddr = addr_add block.subnet (i : Int) ∧
      (∀ (q j : Nat), ¬ (q = p ∧ j = i) → table_lease r.blocks q j = table_lease blocks q j) ∧
      r.blocks = blocks.set p { block with addresses := some (leases.set i
        { chaddr := discover.chaddr, xid := discover.xid, state := OFFERED,
          lease_end := now + (DHCP_OFFER_TIMEOUT : Int) }) } := by
  rcases dhcp_hdl_discover_cases now discover blocks config r h with
    ⟨hr, _⟩ | ⟨p, block, leases, i, lease, n, ol, opts, hp, hb, ho, ha, hle, hi, hli, hfr,
      hlow, hn, hn0, hns, hnB, hmin, hre⟩
  · rw [hr] at hoffer
    simp at hoffer
  · have hpk : packet.yiaddr = addr_add block.subnet (i : Int) := by
      rw [hre] at hoffer
      simp only [List.cons.injEq, and_true, client_reply.mk.injEq, true_and] at hoffer
      rw [← hoffer]
    have hset := table_lease_set blocks p i block leases
      { chaddr := discover.chaddr, xid := discover.xid, state := OFFERED,
        lease_end := now + (DHCP_OFFER_TIMEOUT : Int) } hb ha (by omega)
    refine ⟨p, i, block, leases, lease, hb, ho, ha, hi, hli, hfr, hlow, ?_, hpk, ?_, ?_⟩
    · rw [hre]
      simp only
      rw [hset]
      simp
    · intro q j hne
      rw [hre]
      simp only
      rw [hset, if_neg hne]
    · rw [hre]

/-- C8: a REQUEST at time `now` that names an address `a` (option 50, else a non-zero
ciaddr) which `find_lease_from_address` resolves to lease `i` of the OURS block `k`, `a`
being the address of that lease (`subnet + i`): if the lease is OFFERED with the xid and
chaddr of the REQUEST, or LEASED with its chaddr, or FREE, then `dhcp_hdl_request`
replies ACK with `yiaddr = a`, and afterwards the lease is LEASED with the chaddr and xid
of the REQUEST and `lease_end = now + DHCP_LEASE_TIME + DHCP_LEASE_SERVER_DELTA`. -/
theorem dhcp_hdl_request_ours_ack (now : Int) (request : dhcp_packet)
    (blocks : List ddhcp_block) (config : ddhcp_config) (a k i : Nat)
    (block : ddhcp_block) (lease : dhcp_lease)
    (hprl : prl_readable request)
    (ha : requested_address request = some (some a))
    (hf : find_lease_from_address a blocks config
      = some { status := 0, lease_block := some k, lease_index := i })
    (hb : blocks[k]? = some block)
    (haddr : addr_add block.subnet (i : Int) = a)
    (hl : lease_at block i = some lease)
    (hstate : (lease.state = OFFERED ∧ lease.xid = request.xid
        ∧ lease.chaddr = request.chaddr)
      ∨ (lease.state = LEASED ∧ lease.chaddr = request.chaddr)
      ∨ lease.state = FREE) :
    ∃ (r : hdl_result) (packet : dhcp_packet),
      dhcp_hdl_request now request blocks config = some r ∧ r.ret = 0 ∧
      r.client_out = [{ kind := reply_kind.ACK, packet := packet }] ∧
      packet.yiaddr = a ∧
      table_lease r.blocks k i
        = some { chaddr := request.chaddr, xid := request.xid, state := LEASED,
                 lease_end := now + (DHCP_LEASE_TIME : Int)
                   + (DHCP_LEASE_SERVER_DELTA : Int) } := by
  obtain ⟨r, packet, h1, h2, _, h3, h4, h5⟩ :=
    dhcp_hdl_request_ours_ack_aux now request blocks config a k i block lease hprl ha hf hb hl
      hstate
  exact ⟨r, packet, h1, h2, h3, h4.trans haddr, h5⟩

/-- C9: a REQUEST that names an address resolved to lease `i` of the OURS block `k`,
where that lease is OFFERED or LEASED with a chaddr other than the chaddr of the REQUEST
and an xid other than its xid: `dhcp_hdl_request` replies NAK (return value 2) and leaves
the block table, hence that lease and every other lease, unchanged. -/
theorem dhcp_hdl_request_ours_nak (now : Int) (request : dhcp_packet)
    (blocks : List ddhcp_block) (config : ddhcp_config) (a k i : Nat)
    (block : ddhcp_block) (lease : dhcp_lease)
    (ha : requested_address request = some (some a))
    (hf : find_lease_from_address a blocks config
      = some { status := 0, lease_block := some k, lease_index := i })
    (hb : blocks[k]? = some block)
    (hl : lease_at block i = some lease)
    (hstate : lease.state = OFFERED ∨ lease.state = LEASED)
    (hchaddr : lease.chaddr ≠ request.chaddr)
    (hxid : lease.xid ≠ request.xid) :
    ∃ (packet : dhcp_packet),
      dhcp_hdl_request now request blocks config
        = some { ret := 2, blocks := blocks, dhcp_packet_cache := config.dhcp_packet_cache,
                 client_out := [{ kind := reply_kind.NAK, packet := packet }],
                 peer_out := [] } := by
  have ho := find_lease_from_address_ours a blocks config k i block hf hb
  have hcond : (lease.state ≠ OFFERED ∨ lease.xid ≠ request.xid)
      ∧ request.chaddr ≠ lease.chaddr ∧ lease.state ≠ FREE := by
    refine ⟨Or.inr hxid, fun hc => hchaddr hc.symm, ?_⟩
    rcases hstate with hs | hs <;> rw [hs] <;> decide
  rw [dhcp_hdl_request_ours now request blocks config a k i block lease ha hf hb ho hl,
    if_pos hcond, dhcp_hdl_request_nack_eq]
  exact ⟨_, rfl⟩

/-- C10, as the code has it: a REQUEST that names an address (option 50, else a non-zero
ciaddr) outside the pool, its block index being `number_of_blocks` or more, is answered
with a NAK (return value 2), and no lease changes. -/
theorem dhcp_hdl_request_out_of_pool_nak (now : Int) (request : dhcp_packet)
    (blocks : List ddhcp_block) (config : ddhcp_config) (a : Nat)
    (ha : requested_address request = some (some a))
    (hB : config.block_size ≠ 0)
    (hout : config.number_of_blocks
      ≤ (ntohl a + 4294967296 - ntohl config.prefix_addr) % 4294967296 / config.block_size) :
    ∃ (packet : dhcp_packet),
      dhcp_hdl_request now request blocks config
        = some { ret := 2, blocks := blocks, dhcp_packet_cache := config.dhcp_packet_cache,
                 client_out := [{ kind := reply_kind.NAK, packet := packet }],
                 peer_out := [] } := by
  have hf : find_lease_from_address a blocks config
      = some { status := 2, lease_block := none, lease_index := 0 } := by
    unfold find_lease_from_address
    simp only [hB, if_false, Nat.not_lt.mpr hout]
  unfold dhcp_hdl_request
  simp only [ha, hf, ne_eq, not_true_eq_false, if_false, dhcp_hdl_request_nack_eq]
  exact ⟨_, rfl⟩

/-- C3, as the code has it: a REQUEST that names an address (option 50, else a non-zero
ciaddr) and is answered with an ACK for address `y` is, when handled again on the
resulting block table and packet cache at any later time, answered with an ACK for the
same `yiaddr`. -/
theorem dhcp_hdl_request_twice (now1 now2 : Int) (request : dhcp_packet)
    (blocks : List ddhcp_block) (config : ddhcp_config) (a : Nat) (r1 : hdl_result)
    (ack1 : dhcp_packet)
    (ha : requested_address request = some (some a))
    (h1 : dhcp_hdl_request now1 request blocks config = some r1)
    (hack : r1.client_out = [{ kind := reply_kind.ACK, packet := ack1 }]) :
    ∃ (r2 : hdl_result) (ack2 : dhcp_packet),
      dhcp_hdl_request now2 request r1.blocks
        { config with dhcp_packet_cache := r1.dhcp_packet_cache } = some r2 ∧
      r2.ret = 0 ∧
      r2.client_out = [{ kind := reply_kind.ACK, packet := ack2 }] ∧
      ack2.yiaddr = ack1.yiaddr := by
  obtain ⟨k, i, block, hf, hb, ho, hackd⟩ :=
    dhcp_hdl_request_ack_inv now1 request blocks config a r1 ack1 ha h1 hack
  obtain ⟨block2, leases, filled, s1, s2, hb2, hadr, hi, hfill, hs1, hs2, hr1⟩ :=
    (dhcp_ack_iff now1 request blocks k i config r1).mp hackd
  rw [hb] at hb2
  simp only [Option.some.injEq] at hb2
  subst hb2
  have hcfg : { config with dhcp_packet_cache := r1.dhcp_packet_cache } = config := by
    rw [hr1]
  rw [hcfg]
  have hy : ack1.yiaddr = addr_add block.subnet (i : Int) := by
    rw [hr1] at hack
    simp only [List.cons.injEq, and_true, client_reply.mk.injEq, true_and] at hack
    rw [← hack]
  have hk : k < blocks.length := by
    by_contra hc
    rw [List.getElem?_eq_none (Nat.le_of_not_lt hc)] at hb
    exact absurd hb (by simp)
  have hblocks : r1.blocks = blocks.set k { block with addresses := some (leases.set i
      { chaddr := request.chaddr, xid := request.xid, state := LEASED,
        lease_end := now1 + (DHCP_LEASE_TIME : Int) + (DHCP_LEASE_SERVER_DELTA : Int) }) } := by
    rw [hr1]
  have hf2 : find_lease_from_address a r1.blocks config
      = some { status := 0, lease_block := some k, lease_index := i } := by
    rw [hblocks, find_lease_from_address_set a blocks config k block
      { block with addresses := some (leases.set i
        { chaddr := request.chaddr, xid := request.xid, state := LEASED,
          lease_end := now1 + (DHCP_LEASE_TIME : Int) + (DHCP_LEASE_SERVER_DELTA : Int) }) }
      hb rfl, hf]
  have hb3 : r1.blocks[k]? = some { block with addresses := some (leases.set i
      { chaddr := request.chaddr, xid := request.xid, state := LEASED,
        lease_end := now1 + (DHCP_LEASE_TIME : Int) + (DHCP_LEASE_SERVER_DELTA : Int) }) } := by
    rw [hblocks, List.getElem?_set_self hk]
  have hl3 : lease_at { block with addresses := some (leases.set i
      { chaddr := request.chaddr, xid := request.xid, state := LEASED,
        lease_end := now1 + (DHCP_LEASE_TIME : Int) + (DHCP_LEASE_SERVER_DELTA : Int) }) } i
      = some { chaddr := request.chaddr, xid := request.xid, state := LEASED,
               lease_end := now1 + (DHCP_LEASE_TIME : Int)
                 + (DHCP_LEASE_SERVER_DELTA : Int) } := by
    simp [lease_at, List.getElem?_set_self hi]
  have hcond : ¬ (((LEASED : dhcp_lease_state) ≠ OFFERED ∨ request.xid ≠ request.xid)
      ∧ request.chaddr ≠ request.chaddr ∧ (LEASED : dhcp_lease_state) ≠ FREE) := by
    rintro ⟨_, h2, _⟩
    exact h2 rfl
  rw [dhcp_hdl_request_ours now2 request r1.blocks config a k i _ _ ha hf2 hb3 ho hl3]
  simp only [if_neg hcond]
  refine ⟨_, _, (dhcp_ack_iff now2 request r1.blocks k i config _).mpr
    ⟨_, _, filled, s1, s2, hb3, rfl, by simpa using hi, hfill, hs1, hs2, rfl⟩, rfl, rfl, ?_⟩
  simp only [hy]

/-- C1, as the code has it: in a pool of `N` blocks of `B` addresses that fits the 32-bit
address space, with a block table whose blocks have subnet `P + k*B` and at most `B`
leases each, if `dhcp_hdl_discover` answers a DISCOVER with an OFFER of address `y`, then
`dhcp_hdl_request`, applied next to a REQUEST with the same xid and chaddr and option
50 = `y` (and a request list that can be served), replies ACK with `yiaddr = y`. -/
theorem dhcp_hdl_discover_then_request (now1 now2 : Int) (discover request : dhcp_packet)
    (blocks : List ddhcp_block) (config : ddhcp_config) (r1 : hdl_result)
    (offer : dhcp_packet) (address : List Nat)
    (hpool : config.number_of_blocks * config.block_size ≤ 4294967296)
    (hsub : ∀ (k : Nat) (block : ddhcp_block), k < config.number_of_blocks →
      blocks[k]? = some block →
      ntohl block.subnet = (ntohl config.prefix_addr + k * config.block_size) % 4294967296)
    (hlen : ∀ block ∈ blocks, block.subnet_len ≤ config.block_size)
    (hd : dhcp_hdl_discover now1 discover blocks config = some r1)
    (hoffer : r1.client_out = [{ kind := reply_kind.OFFER, packet := offer }])
    (hprl : prl_readable request)
    (hxid : request.xid = discover.xid)
    (hchaddr : request.chaddr = discover.chaddr)
    (h50 : find_option_requested_address request.options request.options_len = some address)
    (hy : read_in_addr address = some offer.yiaddr) :
    ∃ (r2 : hdl_result) (ack : dhcp_packet),
      dhcp_hdl_request now2 request r1.blocks
        { config with dhcp_packet_cache := r1.dhcp_packet_cache } = some r2 ∧
      r2.ret = 0 ∧
      r2.client_out = [{ kind := reply_kind.ACK, packet := ack }] ∧
      ack.yiaddr = offer.yiaddr := by
  rcases dhcp_hdl_discover_cases now1 discover blocks config r1 hd with
    ⟨hr, _⟩ | ⟨p, block, leases, i, lease, n, ol, opts, hp, hb, ho, ha, hle, hi, hli, hfr,
      hlow, hn, hn0, hns, hnB, hmin, hre⟩
  · rw [hr] at hoffer
    simp at hoffer
  · have hcfg : { config with dhcp_packet_cache := r1.dhcp_packet_cache } = config := by
      rw [hre]
    rw [hcfg]
    have hyi : offer.yiaddr = addr_add block.subnet (i : Int) := by
      rw [hre] at hoffer
      simp only [List.cons.injEq, and_true, client_reply.mk.injEq, true_and] at hoffer
      rw [← hoffer]
    have hk : p < blocks.length := by
      by_contra hc
      rw [List.getElem?_eq_none (Nat.le_of_not_lt hc)] at hb
      exact absurd hb (by simp)
    have hiB : i < config.block_size :=
      Nat.lt_of_lt_of_le hi (hlen block (List.getElem?_mem hb))
    have hblocks : r1.blocks = blocks.set p { block with addresses := some (leases.set i
        { chaddr := discover.chaddr, xid := discover.xid, state := OFFERED,
          lease_end := now1 + (DHCP_OFFER_TIMEOUT : Int) }) } := by
      rw [hre]
    have hreq : requested_address request = some (some (addr_add block.subnet (i : Int))) := by
      simp only [requested_address, h50, hy, hyi]
    have hf : find_lease_from_address (addr_add block.subnet (i : Int)) r1.blocks config
        = some { status := 0, lease_block := some p, lease_index := i } := by
      rw [hblocks, find_lease_from_address_set _ blocks config p block
        { block with addresses := some (leases.set i
          { chaddr := discover.chaddr, xid := discover.xid, state := OFFERED,
            lease_end := now1 + (DHCP_OFFER_TIMEOUT : Int) }) } hb rfl]
      exact find_lease_from_address_addr_add_ours blocks config p i block hb ho
        (hsub p block hp hb) hiB hp hpool
    have hb3 : r1.blocks[p]? = some { block with addresses := some (leases.set i
        { chaddr := discover.chaddr, xid := discover.xid, state := OFFERED,
          lease_end := now1 + (DHCP_OFFER_TIMEOUT : Int) }) } := by
      rw [hblocks, List.getElem?_set_self hk]
    have hil : i < leases.length := by omega
    have hl3 : lease_at { block with addresses := some (leases.set i
        { chaddr := discover.chaddr, xid := discover.xid, state := OFFERED,
          lease_end := now1 + (DHCP_OFFER_TIMEOUT : Int) }) } i
        = some { chaddr := discover.chaddr, xid := discover.xid, state := OFFERED,
                 lease_end := now1 + (DHCP_OFFER_TIMEOUT : Int) } := by
      simp [lease_at, List.getElem?_set_self hil]
    obtain ⟨r2, ack, h1, h2, _, h3, h4, _⟩ :=
      dhcp_hdl_request_ours_ack_aux now2 request r1.blocks config _ p i _ _ hprl hreq hf hb3
        hl3 (Or.inl ⟨rfl, hxid.symm, hchaddr.symm⟩)
    exact ⟨r2, ack, h1, h2, h3, by rw [h4, hyi]⟩

/-- C12: a RELEASE whose ciaddr `find_lease_from_address` resolves to lease `i` of the
OURS block `k` (status 0): when its chaddr equals the chaddr of that lease,
`dhcp_hdl_release` leaves the lease FREE with chaddr and xid zeroed and every other lease
as it was; when the chaddr differs, the block table is unchanged, so a LEASED lease stays
LEASED.  When the ciaddr is not in an OURS block (status 1 or 2) the table is unchanged. -/
theorem dhcp_hdl_release_effect (packet : dhcp_packet) (blocks : List ddhcp_block)
    (config : ddhcp_config) (found : found_lease)
    (hf : find_lease_from_address packet.ciaddr blocks config = some found) :
    (∀ (k : Nat) (block : ddhcp_block) (lease : dhcp_lease),
      found.status = 0 → found.lease_block = some k → blocks[k]? = some block →
      lease_at block found.lease_index = some lease →
      (packet.chaddr = lease.chaddr →
        ∃ blocks1, dhcp_hdl_release packet blocks config = some blocks1 ∧
          table_lease blocks1 k found.lease_index
            = some { chaddr := 0, xid := 0, state := FREE, lease_end := lease.lease_end } ∧
          ∀ (q j : Nat), ¬ (q = k ∧ j = found.lease_index) →
            table_lease blocks1 q j = table_lease blocks q j) ∧
      (packet.chaddr ≠ lease.chaddr →
        dhcp_hdl_release packet blocks config = some blocks)) ∧
    (found.status ≠ 0 → dhcp_hdl_release packet blocks config = some blocks) := by
  constructor
  · intro k block lease h0 hk hb hl
    unfold dhcp_hdl_release
    simp only [hf, h0, if_true, hk, hb, hl]
    constructor
    · intro hc
      simp only [hc, if_true]
      unfold lease_at at hl
      cases ha : block.addresses with
      | none => simp [ha] at hl
      | some leases =>
        simp only [ha] at hl
        have hi : found.lease_index < leases.length := by
          by_contra hcon
          rw [List.getElem?_eq_none (Nat.le_of_not_lt hcon)] at hl
          exact absurd hl (by simp)
        rw [_dhcp_release_lease_some block found.lease_index leases lease ha hl]
        refine ⟨_, rfl, ?_, ?_⟩
        · rw [table_lease_set blocks k found.lease_index block leases _ hb ha hi]
          simp [released]
        · intro q j hne
          rw [table_lease_set blocks k found.lease_index block leases _ hb ha hi, if_neg hne]
    · intro hc
      simp only [hc, if_false]
  · intro h0
    unfold dhcp_hdl_release
    simp only [hf, h0, if_false]

/-- C13: after `dhcp_check_timeouts` has run on a block (whose lease array can be read)
at time `now`, every lease of the block whose state is not FREE has `lease_end ≥ now`. -/
theorem dhcp_check_timeouts_no_expired (now : Int) (block : ddhcp_block)
    (hread : (block_leases block).isSome = true) :
    ∃ (n : Int) (block1 : ddhcp_block) (leases1 : List dhcp_lease),
      dhcp_check_timeouts now block = some (n, block1) ∧
      block_leases block1 = some leases1 ∧
      ∀ lease ∈ leases1, lease.state ≠ FREE → now ≤ lease.lease_end := by
  obtain ⟨leases, block1, _, h1, h2⟩ := dhcp_check_timeouts_some now block hread
  refine ⟨_, block1, _, h1, h2, ?_⟩
  intro lease hmem hstate
  rw [(dhcp_check_timeouts_loop_eq now leases 0).1, List.mem_map] at hmem
  obtain ⟨l0, _, hl0⟩ := hmem
  by_cases hc : l0.state ≠ FREE ∧ l0.lease_end < now
  · rw [if_pos hc] at hl0
    rw [← hl0] at hstate
    simp [released] at hstate
  · rw [if_neg hc] at hl0
    subst hl0
    by_contra hlt
    exact hc ⟨hstate, Int.not_le.mp hlt⟩

/-- C15: a REQUEST at time `now` that names an address `a` which `find_lease_from_address`
resolves to lease `i` of block `k`, a block claimed by a peer whose lease array is
materialized and holds lease `i`: `dhcp_hdl_request` sends no reply to the client, sets
that lease to OFFERED with the xid and chaddr of the REQUEST and
`lease_end = now + DHCP_LEASE_TIME + DHCP_LEASE_SERVER_DELTA`, sends exactly one
RENEWLEASE message, to the owner of the block, with payload
`{xid, chaddr, address = a, lease_seconds = 0}`, and appends the REQUEST to the pending
client cache. -/
theorem dhcp_hdl_request_claimed_forward (now : Int) (request : dhcp_packet)
    (blocks : List ddhcp_block) (config : ddhcp_config) (a k i : Nat)
    (block : ddhcp_block) (leases : List dhcp_lease)
    (ha : requested_address request = some (some a))
    (hf : find_lease_from_address a blocks config
      = some { status := 1, lease_block := some k, lease_index := i })
    (hb : blocks[k]? = some block)
    (hc : block.state = DDHCP_CLAIMED)
    (hm : block.addresses = some leases)
    (hi : i < leases.length) :
    ∃ (r : hdl_result),
      dhcp_hdl_request now request blocks config = some r ∧
      r.client_out = [] ∧
      table_lease r.blocks k i
        = some { chaddr := request.chaddr, xid := request.xid, state := OFFERED,
                 lease_end := now + (DHCP_LEASE_TIME : Int)
                   + (DHCP_LEASE_SERVER_DELTA : Int) } ∧
      r.peer_out = [{ dest := block.owner_address,
                      renew_payload := { chaddr := request.chaddr, address := a,
                                         xid := request.xid, lease_seconds := 0 } }] ∧
      r.dhcp_packet_cache = config.dhcp_packet_cache ++ [request] ∧
      (∀ (q j : Nat), ¬ (q = k ∧ j = i) → table_lease r.blocks q j = table_lease blocks q j) := by
  unfold dhcp_hdl_request
  have h12 : ¬ ((1 : Nat) = 2) := by decide
  simp only [ha, hf, hb, hc, if_true, dhcp_hdl_request_claimed, hm, reduceCtorEq, if_false,
    ne_eq, h12, not_false_eq_true]
  rw [write_lease_some blocks k i _ block leases hb hm hi]
  refine ⟨_, rfl, rfl, ?_, rfl, rfl, ?_⟩
  · simp only
    rw [table_lease_set blocks k i block leases _ hb hm hi]
    simp
  · intro q j hne
    simp only
    rw [table_lease_set blocks k i block leases _ hb hm hi, if_neg hne]

/-- C11: a REQUEST that carries neither option 50 nor a non-zero ciaddr, on a readable
block table (and with a request list that can be served): if some lease of some OURS
block is OFFERED with the xid and chaddr of the REQUEST, `dhcp_hdl_request` replies ACK,
and the `yiaddr` of the ACK is the address `subnet + j` of such a lease; if there is no
such lease, it replies NAK (return value 2) and the block table is unchanged.  As a NAK
is not an ACK, the reply is an ACK if and only if there is such a lease. -/
theorem dhcp_hdl_request_no_address (now : Int) (request : dhcp_packet)
    (blocks : List ddhcp_block) (config : ddhcp_config)
    (hv : valid_table blocks config) (hprl : prl_readable request)
    (hno : requested_address request = some none) :
    ((∃ (p j : Nat), offered_to request blocks config p j) →
      ∃ (r : hdl_result) (packet : dhcp_packet) (p j : Nat) (block : ddhcp_block),
        dhcp_hdl_request now request blocks config = some r ∧ r.ret = 0 ∧
        r.client_out = [{ kind := reply_kind.ACK, packet := packet }] ∧
        offered_to request blocks config p j ∧ blocks[p]? = some block ∧
        packet.yiaddr = addr_add block.subnet (j : Int)) ∧
    ((¬ ∃ (p j : Nat), offered_to request blocks config p j) →
      ∃ (packet : dhcp_packet),
        dhcp_hdl_request now request blocks config
          = some { ret := 2, blocks := blocks,
                   dhcp_packet_cache := config.dhcp_packet_cache,
                   client_out := [{ kind := reply_kind.NAK, packet := packet }],
                   peer_out := [] }) := by
  obtain ⟨hN, hread⟩ := hv
  have hloop := dhcp_hdl_request_block_loop_spec request config.number_of_blocks blocks 0
    hN hread
  unfold dhcp_hdl_request
  simp only [hno]
  rcases hloop with ⟨p, j, block, lease, h1, hp, hb, ho, hj, hl, hs, hx, hc⟩ | ⟨h1, hnone⟩
  · simp only [Nat.zero_add] at h1
    simp only [h1]
    constructor
    · intro _
      have hl2 := hl
      unfold lease_at at hl2
      cases hadr : block.addresses with
      | none => simp [hadr] at hl2
      | some leases =>
        simp only [hadr] at hl2
        have hi : j < leases.length := by
          by_contra hcon
          rw [List.getElem?_eq_none (Nat.le_of_not_lt hcon)] at hl2
          exact absurd hl2 (by simp)
        obtain ⟨filled, r1, r2, hfill, hs1, hs2⟩ := reply_options_defined request
          config.options hprl DHCP_CODE_MESSAGE_TYPE 1 (some [DHCPACK])
          DHCP_CODE_ADDRESS_LEASE_TIME 4 (some [0, 0, 0, DHCP_LEASE_TIME % 256])
        exact ⟨_, _, p, j, block, (dhcp_ack_iff now request blocks p j config _).mpr
          ⟨block, leases, filled, r1, r2, hb, hadr, hi, hfill, hs1, hs2, rfl⟩, rfl, rfl,
          ⟨hp, block, lease, hb, ho, hj, hl, hs, hx, hc⟩, hb, rfl⟩
    · intro hnot
      exact absurd ⟨p, j, hp, block, lease, hb, ho, hj, hl, hs, hx, hc⟩ hnot
  · simp only [h1, dhcp_hdl_request_nack_eq]
    constructor
    · rintro ⟨p, j, hp, block, lease, hb, ho, hj, hl, hm⟩
      exact absurd hm (hnone p j block lease hp hb ho hj hl)
    · intro _
      exact ⟨_, rfl⟩

/-- C19: for a prefix length `L` in 0..32 and an option store without SUBNET_MASK, after
`dhcp_options_init` the store holds a SUBNET_MASK option (code 1) of length 4 whose byte
`k` is `255 - (255 >> clamp(L - 8k, 0, 8))`; read big-endian, the payload is the 32-bit
netmask with exactly the top `L` bits set. -/
theorem dhcp_options_init_subnet_mask (config : ddhcp_config)
    (hL : config.prefix_len ≤ 32)
    (habs : find_in_option_store config.options DHCP_CODE_SUBNET_MASK = none) :
    find_in_option_store (dhcp_options_init config).options DHCP_CODE_SUBNET_MASK
      = some { code := 1, len := 4,
               payload := some [spec_subnet_mask_byte config.prefix_len 0,
                                spec_subnet_mask_byte config.prefix_len 1,
                                spec_subnet_mask_byte config.prefix_len 2,
                                spec_subnet_mask_byte config.prefix_len 3] } ∧
    spec_subnet_mask_byte config.prefix_len 0 * 16777216
      + spec_subnet_mask_byte config.prefix_len 1 * 65536
      + spec_subnet_mask_byte config.prefix_len 2 * 256
      + spec_subnet_mask_byte config.prefix_len 3
      = 4294967296 - 2 ^ (32 - config.prefix_len) :=
  ⟨dhcp_options_init_subnet_mask_aux config hL habs,
    (subnet_mask_bytes config.prefix_len (by omega)).2.2.2.2⟩

/-- C20: for a prefix `P`, a prefix length `L` in 0..32 and an option store with neither
SUBNET_MASK nor BROADCAST_ADDRESS, after `dhcp_options_init` the store holds a
BROADCAST_ADDRESS option (code 28) of length 4 whose byte `k` is
`prefix_byte_k | ((1 << clamp(8 - (L - 8k), 0, 8)) - 1)`, which is `prefix_byte_k` OR the
complement within 8 bits of byte `k` of the SUBNET_MASK option synthesized into the
store. -/
theorem dhcp_options_init_broadcast (config : ddhcp_config)
    (hL : config.prefix_len ≤ 32)
    (habs1 : find_in_option_store config.options DHCP_CODE_SUBNET_MASK = none)
    (habs28 : find_in_option_store config.options DHCP_CODE_BROADCAST_ADDRESS = none) :
    find_in_option_store (dhcp_options_init config).options DHCP_CODE_BROADCAST_ADDRESS
      = some { code := 28, len := 4,
               payload := some
                 [spec_broadcast_byte (prefix_byte config 0) config.prefix_len 0,
                  spec_broadcast_byte (prefix_byte config 1) config.prefix_len 1,
                  spec_broadcast_byte (prefix_byte config 2) config.prefix_len 2,
                  spec_broadcast_byte (prefix_byte config 3) config.prefix_len 3] } ∧
    find_in_option_store (dhcp_options_init config).options DHCP_CODE_SUBNET_MASK
      = some { code := 1, len := 4,
               payload := some [spec_subnet_mask_byte config.prefix_len 0,
                                spec_subnet_mask_byte config.prefix_len 1,
                                spec_subnet_mask_byte config.prefix_len 2,
                                spec_subnet_mask_byte config.prefix_len 3] } ∧
    ∀ (k : Nat), k < 4 →
      spec_broadcast_byte (prefix_byte config k) config.prefix_len k
        = prefix_byte config k ||| (255 - spec_subnet_mask_byte config.prefix_len k) := by
  refine ⟨dhcp_options_init_broadcast_aux config hL habs28,
    dhcp_options_init_subnet_mask_aux config hL habs1, ?_⟩
  intro k hk
  unfold spec_broadcast_byte
  rw [(broadcast_low_bits config.prefix_len (by omega)).2 k hk]

/-- C14, as the code has it: starting from a block table in which every lease is FREE
with chaddr 0 and xid 0, after any sequence of the core operations that the code is
defined on, every lease of every block that is FREE has chaddr 0 and xid 0; and when every
client packet handled by `dhcp_hdl_discover`, `dhcp_hdl_request` or `dhcp_rhdl_ack` has a
chaddr or an xid other than zero, a lease is FREE if and only if its chaddr and xid are
zero. -/
theorem core_run_free_iff_zeroed (config : ddhcp_config) (ops : List core_op)
    (st st1 : core_state)
    (hinit : table_forall
      (fun lease => lease.state = FREE ∧ lease.chaddr = 0 ∧ lease.xid = 0) st.blocks)
    (hrun : core_run config ops st = some st1) :
    table_forall (fun lease => lease.state = FREE → lease.chaddr = 0 ∧ lease.xid = 0)
      st1.blocks ∧
    ((∀ op ∈ ops, ∀ (packet : dhcp_packet), op_packet op = some packet →
        packet.chaddr ≠ 0 ∨ packet.xid ≠ 0) →
      table_forall (fun lease => lease.state = FREE ↔ lease.chaddr = 0 ∧ lease.xid = 0)
        st1.blocks) := by
  constructor
  · refine table_forall_core_run _ config ops st st1 ?_ hrun ?_ ?_ ?_ ?_
    · intro block hb leases ha lease hl _
      exact (hinit block hb leases ha lease hl).2
    · intro lease _
      exact ⟨rfl, rfl⟩
    · intro _
      exact ⟨rfl, rfl⟩
    · intro lease e h
      exact h
    · intro op _ packet _ state e hs hfree
      exact absurd hfree hs
  · intro hnz
    refine table_forall_core_run _ config ops st st1 ?_ hrun ?_ ?_ ?_ ?_
    · intro block hb leases ha lease hl
      obtain ⟨h1, h2, h3⟩ := hinit block hb leases ha lease hl
      exact ⟨fun _ => ⟨h2, h3⟩, fun _ => h1⟩
    · intro lease
      exact ⟨fun _ => ⟨rfl, rfl⟩, fun _ => rfl⟩
    · exact ⟨fun _ => ⟨rfl, rfl⟩, fun _ => rfl⟩
    · intro lease e h
      exact h
    · intro op hop packet hp state e hs
      constructor
      · intro hfree
        exact absurd hfree hs
      · rintro ⟨hc, hx⟩
        rcases hnz op hop packet hp with h | h
        · exact absurd hc h
        · exact absurd hx h

/-- C21: `dhcp_check_timeouts` at time `now` on a block whose lease array can be read
returns `free_leases` and leaves a block in which each lease that was not FREE with
`lease_end < now` is FREE with chaddr and xid zero, each lease that was FREE or had
`lease_end ≥ now` is as before, the leases behind the block and the other fields of the
block are as before, and `free_leases` is `dhcp_num_free` of the block afterwards. -/
theorem dhcp_check_timeouts_releases_expired (now : Int) (block : ddhcp_block)
    (hread : (block_leases block).isSome = true) :
    ∃ (free_leases : Nat) (block1 : ddhcp_block),
      dhcp_check_timeouts now block = some ((free_leases : Int), block1) ∧
      dhcp_num_free block1 = some free_leases ∧
      block1 = { block with addresses := block1.addresses } ∧
      (∀ i lease, i < block.subnet_len → lease_at block i = some lease →
        (lease.state ≠ FREE → lease.lease_end < now →
          lease_at block1 i = some { lease with state := FREE, chaddr := 0, xid := 0 }) ∧
        (lease.state = FREE ∨ now ≤ lease.lease_end → lease_at block1 i = some lease)) ∧
      (∀ i, block.subnet_len ≤ i → lease_at block1 i = lease_at block i) := by
  obtain ⟨ls, hls⟩ := Option.isSome_iff_exists.mp hread
  unfold block_leases at hls
  cases ha : block.addresses with
  | none =>
    simp only [ha] at hls
    by_cases h0 : block.subnet_len = 0
    · refine ⟨0, block, ?_, ?_, rfl, ?_, ?_⟩
      · simp [dhcp_check_timeouts, ha, h0]
      · simp [dhcp_num_free, block_leases, ha, h0, dhcp_num_free_loop]
      · intro i lease hi
        omega
      · intro i _
        rfl
    · simp [h0] at hls
  | some leases =>
    simp only [ha] at hls
    by_cases hl : block.subnet_len ≤ leases.length
    · obtain ⟨hmap, hcount⟩ :=
        dhcp_check_timeouts_loop_eq now (leases.take block.subnet_len) 0
      have hlen := dhcp_check_timeouts_loop_length now (leases.take block.subnet_len) 0
      simp only [List.length_take, Nat.min_eq_left hl] at hlen
      refine ⟨(dhcp_check_timeouts_loop now (leases.take block.subnet_len) 0).2,
        { block with addresses := some ((dhcp_check_timeouts_loop now
            (leases.take block.subnet_len) 0).1 ++ leases.drop block.subnet_len) },
        ?_, ?_, rfl, ?_, ?_⟩
      · simp [dhcp_check_timeouts, ha, hl]
      · simp only [dhcp_num_free, block_leases, List.length_append, List.length_drop, hlen]
        have h2 : block.subnet_len ≤ block.subnet_len + (leases.length - block.subnet_len) := by
          omega
        simp only [h2, if_true]
        rw [List.take_append_of_le_length (by omega), List.take_of_length_le (by omega),
          dhcp_num_free_loop_eq, hcount]
      · intro i lease hi hlease
        simp only [lease_at, ha] at hlease
        have hget : lease_at { block with addresses := some ((dhcp_check_timeouts_loop now
            (leases.take block.subnet_len) 0).1 ++ leases.drop block.subnet_len) } i
            = some (if lease.state ≠ FREE ∧ lease.lease_end < now then released lease
                else lease) := by
          simp only [lease_at]
          rw [List.getElem?_append_left (by omega), hmap, List.getElem?_map,
            List.getElem?_take_of_lt hi, hlease]
          rfl
        constructor
        · intro hs he
          rw [hget, if_pos ⟨hs, he⟩]
          rfl
        · intro h
          rw [hget, if_neg]
          rintro ⟨hs, he⟩
          rcases h with h | h
          · exact hs h
          · omega
      · intro i hi
        simp only [lease_at, ha]
        rw [List.getElem?_append_right (by omega), hlen, List.getElem?_drop]
        congr 1
        omega
    · simp [hl] at hls

/-- C24: for an option store in which no two entries have the same code and an option
`o`, the store after `set_option_in_store` has no two entries with the same code,
`find_in_option_store` finds for the code of `o` an option with that code and the `len`
and `payload` of `o`, and finds for every other code what it found before. -/
theorem set_option_in_store_keyed (store : List dhcp_option) (option : dhcp_option)
    (hunique : (store.map (fun entry => entry.code)).Nodup) :
    ((set_option_in_store store option).map (fun entry => entry.code)).Nodup ∧
    (∃ found, find_in_option_store (set_option_in_store store option) option.code
        = some found ∧
      found.code = option.code ∧ found.len = option.len ∧ found.payload = option.payload) ∧
    ∀ code, code ≠ option.code →
      find_in_option_store (set_option_in_store store option) code
        = find_in_option_store store code := by
  refine ⟨?_, ?_, ?_⟩
  · unfold set_option_in_store
    cases h : find_in_option_store store option.code with
    | some current =>
      simp only
      rw [option_store_replace_codes]
      exact hunique
    | none =>
      simp only [List.map_append, List.map_cons, List.map_nil]
      rw [List.nodup_append]
      refine ⟨hunique, List.nodup_singleton _, ?_⟩
      intro code h1 h2
      rw [List.mem_singleton] at h2
      subst h2
      exact find_in_option_store_none_not_mem store _ h h1
  · cases h : find_in_option_store store option.code with
    | some current =>
      refine ⟨{ current with len := option.len, payload := option.payload }, ?_, ?_, rfl, rfl⟩
      · unfold set_option_in_store
        rw [h]
        exact find_in_option_store_replace_eq option current store h
      · unfold find_in_option_store at h
        simpa using List.find?_some h
    | none =>
      exact ⟨option, find_in_option_store_set_absent store option h, rfl, rfl, rfl⟩
  · intro code hne
    exact find_in_option_store_set_ne store option code (fun h => hne h.symm)

/-- C22, as the code has it: on an array of `len` slots, `set_option` writes the code,
the length and the payload into the slot with the greatest index among those whose code
is `code` or 0 and leaves the other slots as they are, returning 0; when no slot has
`code` or 0 it returns 1 and leaves the array as it is; it returns 0 or 1, and 1 only when
no slot has `code` or 0. -/
theorem dhcp_set_option_last_slot (options : List dhcp_option) (len code payload_len : Nat)
    (payload : Option (List Nat)) (hlen : len ≤ options.length) :
    (∀ i option, i < len → options[i]? = some option →
      (option.code = code ∨ option.code = 0) →
      (∀ j o, i < j → j < len → options[j]? = some o → o.code ≠ code ∧ o.code ≠ 0) →
      dhcp_set_option options len code payload_len payload
        = some (0, options.set i { code := code, len := payload_len, payload := payload })) ∧
    ((∀ j o, j < len → options[j]? = some o → o.code ≠ code ∧ o.code ≠ 0) →
      dhcp_set_option options len code payload_len payload = some (1, options)) ∧
    ∃ r, dhcp_set_option options len code payload_len payload = some r ∧
      (r.1 = 0 ∨ r.1 = 1) ∧
      (r.1 = 1 → ∀ j o, j < len → options[j]? = some o → o.code ≠ code ∧ o.code ≠ 0) := by
  refine ⟨?_, ?_, ?_⟩
  · intro i option hi hopt hmatch hlater
    exact dhcp_set_option_loop_hit options code payload_len payload i option hopt hmatch
      len hlen hi hlater
  · intro hnone
    exact dhcp_set_option_loop_miss options code payload_len payload len hlen hnone
  · exact dhcp_set_option_loop_ret options code payload_len payload len hlen

/-! ## The claims at concrete inputs -/

/-- The subnets of the scenario table are `P + k*B`. -/
theorem scenario_subnets (leases : List dhcp_lease) (k : Nat) (block : ddhcp_block)
    (hk : k < 16) (hb : (scenario_table leases)[k]? = some block) :
    ntohl block.subnet = (ntohl 10 + k * 16) % 4294967296 := by
  have hfree : ∀ j, j < 15 →
      ntohl (scenario_block (j + 1) DDHCP_FREE none).subnet
        = (ntohl 10 + (j + 1) * 16) % 4294967296 := by decide
  cases k with
  | zero =>
    simp only [scenario_table, List.getElem?_cons_zero, Option.some.injEq] at hb
    subst hb
    exact (by decide :
      ntohl (htonl (167772160 + 16 * 0)) = (ntohl 10 + 0 * 16) % 4294967296)
  | succ j =>
    have hj : j < 15 := by omega
    simp only [scenario_table, List.getElem?_cons_succ, List.getElem?_map,
      List.getElem?_range hj, Option.map_some', Option.some.injEq] at hb
    subst hb
    exact hfree j hj

/-- C1 witness: the scenario of the spec, OFFER of 10.0.0.0 at time 0 and REQUEST for it at
time 1. -/
theorem dhcp_hdl_discover_then_request_witness :
    scenario_config.number_of_blocks * scenario_config.block_size ≤ 4294967296 ∧
    (∀ block ∈ scenario_blocks, block.subnet_len ≤ scenario_config.block_size) ∧
    dhcp_hdl_discover 0 scenario_discover scenario_blocks scenario_config
      = some scenario_offer_result ∧
    prl_readable scenario_request_offered ∧
    ∃ (r2 : hdl_result) (ack : dhcp_packet),
      dhcp_hdl_request 1 scenario_request_offered scenario_offer_result.blocks
        { scenario_config with
          dhcp_packet_cache := scenario_offer_result.dhcp_packet_cache } = some r2 ∧
      r2.ret = 0 ∧
      r2.client_out = [{ kind := reply_kind.ACK, packet := ack }] ∧
      ack.yiaddr = scenario_offer.yiaddr :=
  ⟨by decide, by decide, rfl, by decide,
    dhcp_hdl_discover_then_request 0 1 scenario_discover scenario_request_offered
      scenario_blocks scenario_config scenario_offer_result scenario_offer [10, 0, 0, 0]
      (by decide) (fun k block hk hb => scenario_subnets _ k block hk hb) (by decide) rfl rfl
      (by decide) rfl rfl rfl rfl⟩

/-- C1 counterexample: a pool of one block of two addresses whose block, with subnet
`P + 0*B`, holds three leases.  The DISCOVER is answered with an OFFER of 10.0.0.2 (the
`s_addr` value 33554442), the third lease; the REQUEST with the same xid and chaddr and
option 50 = 10.0.0.2 that follows is answered with a NAK. -/
theorem dhcp_hdl_discover_then_request_oversized_nak :
    (∀ block ∈ oversized_blocks,
      ntohl block.subnet = (ntohl oversized_config.prefix_addr
        + block.index * oversized_config.block_size) % 4294967296) ∧
    oversized_blocks.map (fun block => block.index) = [0] ∧
    oversized_request.xid = scenario_discover.xid ∧
    oversized_request.chaddr = scenario_discover.chaddr ∧
    requested_address oversized_request = some (some 33554442) ∧
    (dhcp_hdl_discover 0 scenario_discover oversized_blocks oversized_config).map
      (fun r => (r.client_out.map (fun reply => (reply.kind, reply.packet.yiaddr)), r.blocks))
      = some ([(reply_kind.OFFER, 33554442)], oversized_offered) ∧
    (dhcp_hdl_request 1 oversized_request oversized_offered oversized_config).map
      (fun r => r.client_out.map (fun reply => reply.kind))
      = some [reply_kind.NAK] := by
  decide

/-- C2 (the code at the failing input): in the scenario, lease 0 of block 0 is OFFERED to
the client 11:22:33:44:55:0A with xid 0xCAFEBABE; the REQUEST for 10.0.0.0 with that xid
from chaddr FF:FF:FF:FF:FF:FF is answered with an ACK for 10.0.0.0, and the lease is
LEASED to FF:FF:FF:FF:FF:FF. -/
theorem dhcp_hdl_request_other_chaddr_same_xid_ack :
    table_lease scenario_offered 0 0 = some scenario_offered_lease ∧
    scenario_request_other_chaddr.xid = scenario_offered_lease.xid ∧
    scenario_request_other_chaddr.chaddr ≠ scenario_offered_lease.chaddr ∧
    requested_address scenario_request_other_chaddr = some (some 10) ∧
    (dhcp_hdl_request 1 scenario_request_other_chaddr scenario_offered scenario_config).map
      (fun r => (r.ret, r.client_out.map (fun reply => (reply.kind, reply.packet.yiaddr)),
        table_lease r.blocks 0 0))
      = some (0, [(reply_kind.ACK, 10)], some (scenario_leased_lease 0xFFFFFFFFFFFF)) := by
  decide

/-- C3 witness: the REQUEST for 10.0.0.0 of the scenario, handled at time 1 and again at
time 2. -/
theorem dhcp_hdl_request_twice_witness :
    requested_address scenario_request_offered = some (some 10) ∧
    dhcp_hdl_request 1 scenario_request_offered scenario_offered scenario_config
      = some scenario_ack_result ∧
    ∃ (r2 : hdl_result) (ack2 : dhcp_packet),
      dhcp_hdl_request 2 scenario_request_offered scenario_ack_result.blocks
        { scenario_config with
          dhcp_packet_cache := scenario_ack_result.dhcp_packet_cache } = some r2 ∧
      r2.ret = 0 ∧
      r2.client_out = [{ kind := reply_kind.ACK, packet := ack2 }] ∧
      ack2.yiaddr = scenario_ack.yiaddr :=
  ⟨rfl, rfl,
    dhcp_hdl_request_twice 1 2 scenario_request_offered scenario_offered scenario_config 10
      scenario_ack_result scenario_ack rfl rfl rfl⟩

/-- C3 counterexample: the REQUEST of the scenario client that names no address (no option
50, ciaddr 0) is answered at time 1 with an ACK for 10.0.0.0, the lease OFFERED to its xid
and chaddr becoming LEASED; the same REQUEST handled again at time 2 on the resulting
table finds no OFFERED lease and is answered with a NAK. -/
theorem dhcp_hdl_request_twice_no_address_nak :
    requested_address scenario_request_no_address = some none ∧
    (dhcp_hdl_request 1 scenario_request_no_address scenario_offered scenario_config).map
      (fun r => (r.client_out.map (fun reply => (reply.kind, reply.packet.yiaddr)),
        r.blocks, r.dhcp_packet_cache))
      = some ([(reply_kind.ACK, 10)], scenario_leased scenario_chaddr, []) ∧
    (dhcp_hdl_request 2 scenario_request_no_address (scenario_leased scenario_chaddr)
        scenario_config).map
      (fun r => r.client_out.map (fun reply => reply.kind))
      = some [reply_kind.NAK] := by
  decide

/-- C4 witness: the address 10.0.0.5 (the `s_addr` value 83886090) in the scenario. -/
theorem find_lease_from_address_addr_add_witness :
    (83886090 : Nat) < 4294967296 ∧
    find_lease_from_address 83886090 scenario_blocks scenario_config
      = some { status := 0, lease_block := some 0, lease_index := 5 } ∧
    scenario_blocks[0]?
      = some (scenario_block 0 DDHCP_OURS (some (List.replicate 16 free_lease))) ∧
    addr_add (scenario_block 0 DDHCP_OURS (some (List.replicate 16 free_lease))).subnet
      ((5 : Nat) : Int) = 83886090 :=
  ⟨by decide, by decide, rfl,
    find_lease_from_address_addr_add 83886090 scenario_blocks scenario_config
      { status := 0, lease_block := some 0, lease_index := 5 } 0
      (scenario_block 0 DDHCP_OURS (some (List.replicate 16 free_lease)))
      (by decide) (by decide) (by decide) rfl rfl (by decide)⟩

/-- C5 witness: the scenario at start, where block 0 is the only OURS block. -/
theorem dhcp_hdl_discover_best_fit_witness :
    valid_table scenario_blocks scenario_config ∧
    prl_readable scenario_discover ∧
    (∀ block ∈ scenario_blocks, block.subnet_len ≤ scenario_config.block_size) ∧
    (∃ block ∈ scenario_blocks.take scenario_config.number_of_blocks,
      block.state = DDHCP_OURS ∧ block_has_free block) ∧
    ∃ (r : hdl_result) (p : Nat) (block : ddhcp_block),
      dhcp_hdl_discover 0 scenario_discover scenario_blocks scenario_config = some r ∧
      r.ret = 0 ∧ scenario_blocks[p]? = some block ∧ block.state = DDHCP_OURS :=
  ⟨by decide, by decide, by decide, by decide,
    match dhcp_hdl_discover_best_fit 0 scenario_discover scenario_blocks scenario_config
      (by decide) (by decide) (by decide) (by decide) with
    | ⟨r, p, _, _, block, _, h, h0, _, _, hb, ho, _⟩ => ⟨r, p, block, h, h0, hb, ho⟩⟩

/-- C6 witness: the OFFER of the scenario at time 0. -/
theorem dhcp_hdl_discover_offer_effect_witness :
    dhcp_hdl_discover 0 scenario_discover scenario_blocks scenario_config
      = some scenario_offer_result ∧
    ∃ (p i : Nat),
      table_lease scenario_offer_result.blocks p i
        = some { chaddr := scenario_discover.chaddr, xid := scenario_discover.xid,
                 state := OFFERED, lease_end := 0 + (DHCP_OFFER_TIMEOUT : Int) } ∧
      ∀ (q j : Nat), ¬ (q = p ∧ j = i) →
        table_lease scenario_offer_result.blocks q j = table_lease scenario_blocks q j :=
  ⟨rfl,
    match dhcp_hdl_discover_offer_effect 0 scenario_discover scenario_blocks scenario_config
      scenario_offer_result scenario_offer rfl rfl with
    | ⟨p, i, _, _, _, _, _, _, _, _, _, _, hl, _, hrest, _⟩ => ⟨p, i, hl, hrest⟩⟩

/-- C7 witness: the scenario with all 16 leases of block 0 LEASED. -/
theorem dhcp_hdl_discover_no_capacity_witness :
    valid_table scenario_full scenario_config ∧
    (∀ block ∈ scenario_full.take scenario_config.number_of_blocks,
      block.state = DDHCP_OURS → ¬ block_has_free block) ∧
    dhcp_hdl_discover 0 scenario_discover scenario_full scenario_config
      = some { ret := 2, blocks := scenario_full,
               dhcp_packet_cache := scenario_config.dhcp_packet_cache,
               client_out := [], peer_out := [] } :=
  ⟨by decide, by decide,
    dhcp_hdl_discover_no_capacity 0 scenario_discover scenario_full scenario_config
      (by decide) (by decide)⟩

/-- C8 witness: the REQUEST for 10.0.0.0 of the scenario at time 1, the lease being
OFFERED to its xid and chaddr. -/
theorem dhcp_hdl_request_ours_ack_witness :
    prl_readable scenario_request_offered ∧
    requested_address scenario_request_offered = some (some 10) ∧
    find_lease_from_address 10 scenario_offered scenario_config
      = some { status := 0, lease_block := some 0, lease_index := 0 } ∧
    ∃ (r : hdl_result) (packet : dhcp_packet),
      dhcp_hdl_request 1 scenario_request_offered scenario_offered scenario_config = some r ∧
      r.ret = 0 ∧
      r.client_out = [{ kind := reply_kind.ACK, packet := packet }] ∧
      packet.yiaddr = 10 ∧
      table_lease r.blocks 0 0
        = some { chaddr := scenario_request_offered.chaddr,
                 xid := scenario_request_offered.xid, state := LEASED,
                 lease_end := 1 + (DHCP_LEASE_TIME : Int)
                   + (DHCP_LEASE_SERVER_DELTA : Int) } :=
  ⟨by decide, rfl, by decide,
    dhcp_hdl_request_ours_ack 1 scenario_request_offered scenario_offered scenario_config
      10 0 0
      (scenario_block 0 DDHCP_OURS (some (scenario_offered_lease :: List.replicate 15 free_lease)))
      scenario_offered_lease (by decide) rfl (by decide) rfl (by decide) rfl
      (Or.inl ⟨rfl, rfl, rfl⟩)⟩

/-- C9 witness: a REQUEST for 10.0.0.0 from another chaddr with another xid, the lease
being OFFERED to the scenario client. -/
theorem dhcp_hdl_request_ours_nak_witness :
    requested_address scenario_request_stranger = some (some 10) ∧
    find_lease_from_address 10 scenario_offered scenario_config
      = some { status := 0, lease_block := some 0, lease_index := 0 } ∧
    scenario_offered_lease.chaddr ≠ scenario_request_stranger.chaddr ∧
    scenario_offered_lease.xid ≠ scenario_request_stranger.xid ∧
    ∃ (packet : dhcp_packet),
      dhcp_hdl_request 1 scenario_request_stranger scenario_offered scenario_config
        = some { ret := 2, blocks := scenario_offered,
                 dhcp_packet_cache := scenario_config.dhcp_packet_cache,
                 client_out := [{ kind := reply_kind.NAK, packet := packet }],
                 peer_out := [] } :=
  ⟨rfl, by decide, by decide, by decide,
    dhcp_hdl_request_ours_nak 1 scenario_request_stranger scenario_offered scenario_config
      10 0 0
      (scenario_block 0 DDHCP_OURS (some (scenario_offered_lease :: List.replicate 15 free_lease)))
      scenario_offered_lease rfl (by decide) rfl rfl (Or.inl rfl) (by decide) (by decide)⟩

/-- C10 witness: the REQUEST for 11.0.0.0 in the scenario. -/
theorem dhcp_hdl_request_out_of_pool_nak_witness :
    requested_address scenario_request_out_of_pool = some (some 11) ∧
    scenario_config.block_size ≠ 0 ∧
    scenario_config.number_of_blocks
      ≤ (ntohl 11 + 4294967296 - ntohl scenario_config.prefix_addr) % 4294967296
        / scenario_config.block_size ∧
    ∃ (packet : dhcp_packet),
      dhcp_hdl_request 1 scenario_request_out_of_pool scenario_offered scenario_config
        = some { ret := 2, blocks := scenario_offered,
                 dhcp_packet_cache := scenario_config.dhcp_packet_cache,
                 client_out := [{ kind := reply_kind.NAK, packet := packet }],
                 peer_out := [] } :=
  ⟨rfl, by decide, by decide,
    dhcp_hdl_request_out_of_pool_nak 1 scenario_request_out_of_pool scenario_offered
      scenario_config 11 rfl (by decide) (by decide)⟩

/-- C10 counterexample: the REQUEST of the scenario client with option 50 = 11.0.0.0, an
address whose block index 1048576 is not below the 16 blocks of the pool, is not dropped
silently: one reply, a NAK, is sent to the client; the block table is unchanged. -/
theorem dhcp_hdl_request_out_of_pool_not_silent :
    requested_address scenario_request_out_of_pool = some (some 11) ∧
    (ntohl 11 + 4294967296 - ntohl scenario_config.prefix_addr) % 4294967296
      / scenario_config.block_size = 1048576 ∧
    scenario_config.number_of_blocks = 16 ∧
    (dhcp_hdl_request 1 scenario_request_out_of_pool scenario_offered scenario_config).map
      (fun r => (r.client_out.map (fun reply => reply.kind), r.blocks))
      = some ([reply_kind.NAK], scenario_offered) := by
  decide

/-- C11 witness: the REQUEST of the scenario client that names no address, lease 0 of
block 0 being OFFERED to its xid and chaddr. -/
theorem dhcp_hdl_request_no_address_witness :
    valid_table scenario_offered scenario_config ∧
    prl_readable scenario_request_no_address ∧
    requested_address scenario_request_no_address = some none ∧
    offered_to scenario_request_no_address scenario_offered scenario_config 0 0 ∧
    ∃ (r : hdl_result) (packet : dhcp_packet) (p j : Nat) (block : ddhcp_block),
      dhcp_hdl_request 1 scenario_request_no_address scenario_offered scenario_config
        = some r ∧ r.ret = 0 ∧
      r.client_out = [{ kind := reply_kind.ACK, packet := packet }] ∧
      offered_to scenario_request_no_address scenario_offered scenario_config p j ∧
      scenario_offered[p]? = some block ∧
      packet.yiaddr = addr_add block.subnet (j : Int) :=
  ⟨by decide, by decide, rfl,
    ⟨by decide, _, _, rfl, rfl, by decide, rfl, rfl, rfl, rfl⟩,
    (dhcp_hdl_request_no_address 1 scenario_request_no_address scenario_offered
      scenario_config (by decide) (by decide) rfl).1
      ⟨0, 0, by decide, _, _, rfl, rfl, by decide, rfl, rfl, rfl, rfl⟩⟩

/-- C12 witness: a RELEASE for 10.0.0.5, lease 5 of block 0 being LEASED to the scenario
client, from that client and from another one. -/
theorem dhcp_hdl_release_effect_witness :
    find_lease_from_address (scenario_release scenario_chaddr).ciaddr scenario_leased5
        scenario_config
      = some { status := 0, lease_block := some 0, lease_index := 5 } ∧
    (∃ blocks1, dhcp_hdl_release (scenario_release scenario_chaddr) scenario_leased5
        scenario_config = some blocks1 ∧
      table_lease blocks1 0 5
        = some { chaddr := 0, xid := 0, state := FREE, lease_end := 3701 }) ∧
    dhcp_hdl_release (scenario_release 0xFFFFFFFFFFFF) scenario_leased5 scenario_config
      = some scenario_leased5 :=
  ⟨by decide,
    match ((dhcp_hdl_release_effect (scenario_release scenario_chaddr) scenario_leased5
      scenario_config { status := 0, lease_block := some 0, lease_index := 5 }
      (by decide)).1 0 _ (scenario_leased_lease scenario_chaddr) rfl rfl rfl rfl).1 rfl with
    | ⟨blocks1, h1, h2, _⟩ => ⟨blocks1, h1, h2⟩,
    ((dhcp_hdl_release_effect (scenario_release 0xFFFFFFFFFFFF) scenario_leased5
      scenario_config { status := 0, lease_block := some 0, lease_index := 5 }
      (by decide)).1 0 _ (scenario_leased_lease scenario_chaddr) rfl rfl rfl rfl).2
      (by decide)⟩

/-- C13 witness: a block with a lease OFFERED until time 12, swept at time 13. -/
theorem dhcp_check_timeouts_no_expired_witness :
    (block_leases scenario_sweep_block).isSome = true ∧
    ∃ (n : Int) (block1 : ddhcp_block) (leases1 : List dhcp_lease),
      dhcp_check_timeouts 13 scenario_sweep_block = some (n, block1) ∧
      block_leases block1 = some leases1 ∧
      ∀ lease ∈ leases1, lease.state ≠ FREE → (13 : Int) ≤ lease.lease_end :=
  ⟨by decide, dhcp_check_timeouts_no_expired 13 scenario_sweep_block (by decide)⟩

/-- C14 witness: the DISCOVER and the REQUEST of the scenario, one after the other. -/
theorem core_run_free_iff_zeroed_witness :
    (∀ block ∈ scenario_blocks, ∀ lease ∈ block.addresses.getD [],
      lease.state = FREE ∧ lease.chaddr = 0 ∧ lease.xid = 0) ∧
    core_run scenario_config
        [core_op.hdl_discover 0 scenario_discover, core_op.hdl_request 1 scenario_request_offered]
        { blocks := scenario_blocks, dhcp_packet_cache := [] }
      = some { blocks := scenario_leased scenario_chaddr, dhcp_packet_cache := [] } ∧
    table_forall (fun lease => lease.state = FREE ↔ lease.chaddr = 0 ∧ lease.xid = 0)
      (scenario_leased scenario_chaddr) :=
  ⟨by decide, rfl,
    (core_run_free_iff_zeroed scenario_config
      [core_op.hdl_discover 0 scenario_discover, core_op.hdl_request 1 scenario_request_offered]
      { blocks := scenario_blocks, dhcp_packet_cache := [] }
      { blocks := scenario_leased scenario_chaddr, dhcp_packet_cache := [] }
      (table_forall_of_getD _ _ (by decide)) rfl).2
      (by
        intro op hop packet hp
        simp only [List.mem_cons, List.mem_singleton, List.not_mem_nil, or_false] at hop
        rcases hop with h | h <;> subst h <;> simp only [op_packet, Option.some.injEq] at hp <;>
          subst hp <;> decide)⟩

/-- C14 counterexample: from the scenario table, in which every lease is FREE with chaddr
0 and xid 0, one DISCOVER whose chaddr and xid are zero leaves lease 0 of block 0 OFFERED
with chaddr 0 and xid 0: its chaddr and xid are zero and it is not FREE. -/
theorem core_run_zeroed_not_free :
    (∀ block ∈ scenario_blocks, ∀ lease ∈ block.addresses.getD [],
      lease.state = FREE ∧ lease.chaddr = 0 ∧ lease.xid = 0) ∧
    (core_run scenario_config [core_op.hdl_discover 0 scenario_discover_zero]
        { blocks := scenario_blocks, dhcp_packet_cache := [] }).map
      (fun st => table_lease st.blocks 0 0)
      = some (some { chaddr := 0, state := OFFERED, xid := 0, lease_end := 12 }) := by
  decide

/-- C15 witness: the REQUEST for 10.0.0.16 (the `s_addr` value 268435466) in the scenario
where block 1 is claimed by the peer fe80::2. -/
theorem dhcp_hdl_request_claimed_forward_witness :
    requested_address scenario_request_peer = some (some 268435466) ∧
    find_lease_from_address 268435466 scenario_peer_blocks scenario_config
      = some { status := 1, lease_block := some 1, lease_index := 0 } ∧
    ∃ (r : hdl_result),
      dhcp_hdl_request 1 scenario_request_peer scenario_peer_blocks scenario_config = some r ∧
      r.client_out = [] ∧
      r.peer_out = [{ dest := 0xfe800000000000000000000000000002,
                      renew_payload := { chaddr := scenario_chaddr, address := 268435466,
                                         xid := 0xCAFEBABE, lease_seconds := 0 } }] ∧
      r.dhcp_packet_cache = [scenario_request_peer] :=
  ⟨rfl, by decide,
    match dhcp_hdl_request_claimed_forward 1 scenario_request_peer scenario_peer_blocks
      scenario_config 268435466 1 0 _ (List.replicate 16 free_lease) rfl (by decide) rfl rfl
      rfl (by decide) with
    | ⟨r, h, h1, _, h3, h4, _⟩ => ⟨r, h, h1, h3, h4⟩⟩

/-- C16 (the code at the failing input): in the scenario every lease is FREE;
`dhcp_rhdl_request` for 10.0.0.0 at time 0 returns 0, acknowledging the renewal, and
leaves lease 0 of block 0 FREE with `lease_end = 3700`.  A lease OFFERED before stays
OFFERED in the same way. -/
theorem dhcp_rhdl_request_leaves_state :
    table_lease scenario_blocks 0 0 = some free_lease ∧
    (dhcp_rhdl_request 0 10 scenario_blocks scenario_config).map
      (fun r => (r.1, table_lease r.2 0 0))
      = some (0, some { chaddr := 0, state := FREE, xid := 0, lease_end := 3700 }) ∧
    (dhcp_rhdl_request 0 10 scenario_offered scenario_config).map
      (fun r => (r.1, table_lease r.2 0 0))
      = some (0, some { scenario_offered_lease with lease_end := 3700 }) := by
  decide

/-- C17 (the code at the failing input): for the DISCOVER and the REQUEST of the scenario
client without a parameter request list, the OFFER and the ACK are sent with no option at
all, so with neither a message type (code 53) nor a lease time (code 51). -/
theorem replies_without_request_list_have_no_options :
    find_option scenario_discover_no_prl.options scenario_discover_no_prl.options_len
      DHCP_CODE_PARAMETER_REQUEST_LIST = none ∧
    (dhcp_hdl_discover 0 scenario_discover_no_prl scenario_blocks scenario_config).map
      (fun r => r.client_out.map
        (fun reply => (reply.kind, reply.packet.options_len, reply.packet.options)))
      = some [(reply_kind.OFFER, 0, [])] ∧
    (dhcp_hdl_request 1 scenario_request_no_prl scenario_offered scenario_config).map
      (fun r => r.client_out.map
        (fun reply => (reply.kind, reply.packet.options_len, reply.packet.options)))
      = some [(reply_kind.ACK, 0, [])] := by
  decide

/-- C18 (the code at the failing input): the ACK of the scenario carries the lease time
option with the four bytes 0, 0, 0, 16, the last being 3600 cut to eight bits; the
big-endian encoding of 3600 is 0, 0, 14, 16. -/
theorem dhcp_ack_lease_time_payload :
    (dhcp_hdl_request 1 scenario_request_offered scenario_offered scenario_config).map
      (fun r => r.client_out.map
        (fun reply => (reply.kind, find_option reply.packet.options reply.packet.options_len
          DHCP_CODE_ADDRESS_LEASE_TIME)))
      = some [(reply_kind.ACK, some { code := 51, len := 4, payload := some [0, 0, 0, 16] })] ∧
    [DHCP_LEASE_TIME / 16777216 % 256, DHCP_LEASE_TIME / 65536 % 256,
      DHCP_LEASE_TIME / 256 % 256, DHCP_LEASE_TIME % 256] = [0, 0, 14, 16] := by
  decide

/-- C19 witness: the scenario pool 10.0.0.0/24 with an empty option store; the mask is
255.255.255.0. -/
theorem dhcp_options_init_subnet_mask_witness :
    scenario_config.prefix_len ≤ 32 ∧
    find_in_option_store scenario_config.options DHCP_CODE_SUBNET_MASK = none ∧
    find_in_option_store (dhcp_options_init scenario_config).options DHCP_CODE_SUBNET_MASK
      = some { code := 1, len := 4, payload := some [255, 255, 255, 0] } :=
  ⟨by decide, rfl,
    (dhcp_options_init_subnet_mask scenario_config (by decide) rfl).1.trans (by decide)⟩

/-- C20 witness: the scenario pool 10.0.0.0/24 with an empty option store; the broadcast
address is 10.0.0.255. -/
theorem dhcp_options_init_broadcast_witness :
    scenario_config.prefix_len ≤ 32 ∧
    find_in_option_store scenario_config.options DHCP_CODE_SUBNET_MASK = none ∧
    find_in_option_store scenario_config.options DHCP_CODE_BROADCAST_ADDRESS = none ∧
    find_in_option_store (dhcp_options_init scenario_config).options
        DHCP_CODE_BROADCAST_ADDRESS
      = some { code := 28, len := 4, payload := some [10, 0, 0, 255] } :=
  ⟨by decide, rfl, rfl,
    (dhcp_options_init_broadcast scenario_config (by decide) rfl rfl).1.trans (by decide)⟩

/-- C21 witness: the block with a lease OFFERED until time 12, a lease LEASED until time
3701 and a FREE lease, swept at time 13. -/
theorem dhcp_check_timeouts_releases_expired_witness :
    (block_leases scenario_sweep_block).isSome = true ∧
    ∃ (free_leases : Nat) (block1 : ddhcp_block),
      dhcp_check_timeouts 13 scenario_sweep_block = some ((free_leases : Int), block1) ∧
      dhcp_num_free block1 = some free_leases ∧
      block1 = { scenario_sweep_block with addresses := block1.addresses } ∧
      (∀ i lease, i < scenario_sweep_block.subnet_len →
        lease_at scenario_sweep_block i = some lease →
        (lease.state ≠ FREE → lease.lease_end < 13 →
          lease_at block1 i = some { lease with state := FREE, chaddr := 0, xid := 0 }) ∧
        (lease.state = FREE ∨ 13 ≤ lease.lease_end → lease_at block1 i = some lease)) ∧
      (∀ i, scenario_sweep_block.subnet_len ≤ i →
        lease_at block1 i = lease_at scenario_sweep_block i) :=
  ⟨by decide, dhcp_check_timeouts_releases_expired 13 scenario_sweep_block (by decide)⟩

/-- C22 witness: the array whose slot 0 holds the message type and whose slot 1 is
empty; the slot written is slot 1, the last one with code 53 or 0.  On the array with
the codes 51 and 54 the call fails. -/
theorem dhcp_set_option_last_slot_witness :
    2 ≤ scenario_reply_options.length ∧
    dhcp_set_option scenario_reply_options 2 DHCP_CODE_MESSAGE_TYPE 1 (some [DHCPACK])
      = some (0, scenario_reply_options.set 1
          { code := DHCP_CODE_MESSAGE_TYPE, len := 1, payload := some [DHCPACK] }) ∧
    dhcp_set_option scenario_reply_options_full 2 DHCP_CODE_MESSAGE_TYPE 1 (some [DHCPACK])
      = some (1, scenario_reply_options_full) :=
  ⟨by decide,
    (dhcp_set_option_last_slot scenario_reply_options 2 DHCP_CODE_MESSAGE_TYPE 1
      (some [DHCPACK]) (by decide)).1 1 empty_option (by decide) rfl (Or.inr rfl)
      (fun j o h1 h2 => by omega),
    by decide⟩

/-- C22 counterexample: in an array whose slot 0 holds code 53 and whose slot 1 is
empty, `set_option` for code 53 leaves slot 0, the first and only slot with code 53, as
it is and writes into slot 1; in an array both of whose slots hold code 53 it writes into
slot 1, not into slot 0, the first slot with the code. -/
theorem dhcp_set_option_not_first_slot :
    find_option scenario_reply_options 2 DHCP_CODE_MESSAGE_TYPE
      = some (option_53 DHCPOFFER) ∧
    dhcp_set_option scenario_reply_options 2 DHCP_CODE_MESSAGE_TYPE 1 (some [DHCPACK])
      = some (0, [option_53 DHCPOFFER, option_53 DHCPACK]) ∧
    dhcp_set_option scenario_reply_options_twice 2 DHCP_CODE_MESSAGE_TYPE 1 (some [DHCPACK])
      = some (0, [option_53 DHCPOFFER, option_53 DHCPACK]) := by
  decide

/-- C23 (the code at the failing input): the DISCOVER of the scenario asks for 1, 3 and 28,
and the store holds 1 and 28 (and not 3); `fill_options` with a headroom of 2 returns 3,
not 2 + 2, and the array holds the broadcast address and no subnet mask: the loop starts
at entry 2 of the list.  With a headroom of 0 it returns 2 and the array holds both. -/
theorem fill_options_skips_first_entries :
    find_option_parameter_request_list scenario_discover.options scenario_discover.options_len
      = (3, some [1, 3, 28]) ∧
    (find_in_option_store scenario_store 1).isSome = true ∧
    find_in_option_store scenario_store 3 = none ∧
    (find_in_option_store scenario_store 28).isSome = true ∧
    fill_options scenario_discover.options scenario_discover.options_len scenario_store 2
      = some (3, [{ code := 28, len := 4, payload := some [10, 0, 0, 255] },
          empty_option, empty_option, empty_option, empty_option]) ∧
    fill_options scenario_discover.options scenario_discover.options_len scenario_store 0
      = some (2, [{ code := 1, len := 4, payload := some [255, 255, 255, 0] },
          { code := 28, len := 4, payload := some [10, 0, 0, 255] }, empty_option]) := by
  decide

/-- C24 witness: the store of the scenario, which holds a subnet mask, takes the mask
255.255.0.0 in the place of the one it held; a router option, which it does not hold, is
added at its end. -/
theorem set_option_in_store_keyed_witness :
    (scenario_store.map (fun entry => entry.code)).Nodup ∧
    set_option_in_store scenario_store scenario_router = scenario_store ++ [scenario_router] ∧
    set_option_in_store scenario_store scenario_mask_16
      = scenario_mask_16 :: scenario_store.tail ∧
    ((set_option_in_store scenario_store scenario_mask_16).map
      (fun entry => entry.code)).Nodup ∧
    (∃ found, find_in_option_store (set_option_in_store scenario_store scenario_mask_16)
        scenario_mask_16.code = some found ∧
      found.code = scenario_mask_16.code ∧ found.len = scenario_mask_16.len ∧
      found.payload = scenario_mask_16.payload) ∧
    ∀ code, code ≠ scenario_mask_16.code →
      find_in_option_store (set_option_in_store scenario_store scenario_mask_16) code
        = find_in_option_store scenario_store code :=
  ⟨by decide, by decide, by decide,
    set_option_in_store_keyed scenario_store scenario_mask_16 (by decide)⟩

end Ddhcpd
